import Mathlib

/-!
# wos-voicechat-couter: countdown fingerprint, audio engine and session lifecycle

A shallow embedding of `src/TTSService.js`, `src/VoiceManager.js` and the
`handleStop` command of `src/CommandHandler.js`.

Conventions of the embedding

* JavaScript strings are Lean `String`s, non-negative integer numbers are `Nat`.
* A JavaScript `Map` is an association list with `mapGet` / `mapSet` / `mapDelete`.
* `String.prototype.localeCompare` and the SHA-1 digest are host functions; they are
  parameters (`localeCompare`, `digest`) of the definitions that call them.
* `Array.prototype.sort` is a stable sort (ECMAScript 2019); for a consistent comparator every
  stable sort yields the same array, and it is embedded as stable insertion sort.
-/

namespace WosVoiceChat

/-! ## Data model -/

/-- A participant timing record as produced by `calculateAttackTiming`. -/
structure Player where
  name : String
  attackGroup : Nat
  attackOrder : Nat
  timeToDestination : Nat
  attackStartTime : Nat
deriving DecidableEq

/-- The projection `({ name: String(p.name), t: Number(p.attackStartTime) })`. -/
structure NormalizedPlayer where
  name : String
  t : Nat
deriving DecidableEq

/-- The `.map(p => ...)` callback of `buildCountdownCacheKey`. -/
def normalizePlayer (p : Player) : NormalizedPlayer :=
  { name := p.name, t := p.attackStartTime }

/-! ## JavaScript maps -/

/-- Embeds `Map.prototype.get`. -/
def mapGet {κ ν : Type} [DecidableEq κ] (m : List (κ × ν)) (k : κ) : Option ν :=
  (m.find? (fun e => decide (e.1 = k))).map Prod.snd

/-- Embeds `Map.prototype.has`. -/
def mapHas {κ ν : Type} [DecidableEq κ] (m : List (κ × ν)) (k : κ) : Bool :=
  m.any (fun e => decide (e.1 = k))

/-- Embeds `Map.prototype.delete`. -/
def mapDelete {κ ν : Type} [DecidableEq κ] (m : List (κ × ν)) (k : κ) : List (κ × ν) :=
  m.filter (fun e => !decide (e.1 = k))

/-- Embeds `Map.prototype.set`: an existing key keeps its position, a new key goes last. -/
def mapSet {κ ν : Type} [DecidableEq κ] (m : List (κ × ν)) (k : κ) (v : ν) : List (κ × ν) :=
  if mapHas m k then m.map (fun e => if e.1 = k then (k, v) else e) else m ++ [(k, v)]

/-! ## JSON.stringify of the cache-key payload -/

/-- The double quote U+0022. -/
def dq : Char := Char.ofNat 34

/-- The reverse solidus U+005C. -/
def bslash : Char := Char.ofNat 92

/-- Lower-case hexadecimal digit of a number below 16. -/
def hexDigit (n : Nat) : Char :=
  if n < 10 then Char.ofNat (48 + n) else Char.ofNat (87 + n)

/-- Per-code-point step of `QuoteJSONString` (ECMA-262): the two-character escapes, the
`\u00xx` escape for the other control characters, the code point itself otherwise. -/
def quoteJSONChar (c : Char) : List Char :=
  if c = dq then [bslash, dq]
  else if c = bslash then [bslash, bslash]
  else if c.toNat = 8 then [bslash, 'b']
  else if c.toNat = 9 then [bslash, 't']
  else if c.toNat = 10 then [bslash, 'n']
  else if c.toNat = 12 then [bslash, 'f']
  else if c.toNat = 13 then [bslash, 'r']
  else if c.toNat < 32 then
    [bslash, 'u', '0', '0', hexDigit (c.toNat / 16), hexDigit (c.toNat % 16)]
  else [c]

/-- Body of a quoted JSON string, without the enclosing quotes. -/
def quoteJSONBody : List Char → List Char
  | [] => []
  | c :: cs => quoteJSONChar c ++ quoteJSONBody cs

/-- Embeds `QuoteJSONString`: what `JSON.stringify` prints for a string value. -/
def quoteJSONString (s : String) : List Char :=
  dq :: (quoteJSONBody s.data ++ [dq])

/-- Decimal digits of `n`, least significant first; `fuel` bounds the number of digits. -/
def decimalDigitsRev : Nat → Nat → List Nat
  | 0, _ => []
  | fuel + 1, n => if n < 10 then [n] else (n % 10) :: decimalDigitsRev fuel (n / 10)

/-- Embeds `Number::toString` of a non-negative integer (below 1e21 JavaScript prints plain decimal
digits). -/
def numberToString (n : Nat) : List Char :=
  ((decimalDigitsRev (n + 1) n).reverse).map (fun d => Char.ofNat (48 + d))

/-- Embeds `JSON.stringify` of one normalized player: an object with keys `name` and `t`, in the
order the object literal creates them. -/
def playerJSON (p : NormalizedPlayer) : List Char :=
  -- {"name":<name>,"t":<t>}
  "\x7b\x22name\x22:".data ++ quoteJSONString p.name ++ ",\x22t\x22:".data
    ++ numberToString p.t ++ "\x7d".data

/-- Elements after the first of a JSON array, up to and including the closing bracket. -/
def arrayTailJSON : List NormalizedPlayer → List Char
  | [] => [']']
  | p :: ps => ',' :: (playerJSON p ++ arrayTailJSON ps)

/-- Embeds `JSON.stringify` of the `players` array. -/
def playersJSON : List NormalizedPlayer → List Char
  | [] => ['[', ']']
  | p :: ps => '[' :: (playerJSON p ++ arrayTailJSON ps)

/-- Embeds `JSON.stringify` of the payload object `{ v, voice, rate, players }`. -/
def payloadJSON (v voice : String) (rate : Nat) (players : List NormalizedPlayer) : String :=
  -- {"v":<v>,"voice":<voice>,"rate":<rate>,"players":<players>}
  String.mk ("\x7b\x22v\x22:".data ++ quoteJSONString v ++ ",\x22voice\x22:".data
    ++ quoteJSONString voice ++ ",\x22rate\x22:".data ++ numberToString rate
    ++ ",\x22players\x22:".data ++ playersJSON players ++ "\x7d".data)

/-! ## Countdown fingerprint (`TTSService.buildCountdownCacheKey`) -/

/-- The sort callback `(a, b) => (a.t - b.t) || a.name.localeCompare(b.name)`. -/
def compareFn (localeCompare : String → String → Int) (a b : NormalizedPlayer) : Int :=
  if (a.t : Int) - (b.t : Int) ≠ 0 then (a.t : Int) - (b.t : Int)
  else localeCompare a.name b.name

/-- Relation `a` does not sort after `b`: the comparator result is not positive. -/
def sortLE (localeCompare : String → String → Int) (a b : NormalizedPlayer) : Prop :=
  compareFn localeCompare a b ≤ 0

instance sortLE_decidable (localeCompare : String → String → Int) :
    DecidableRel (sortLE localeCompare) :=
  fun a b => inferInstanceAs (Decidable (compareFn localeCompare a b ≤ 0))

/-- The array `normalized` of `buildCountdownCacheKey`. -/
def normalized (localeCompare : String → String → Int) (players : List Player) :
    List NormalizedPlayer :=
  List.insertionSort (sortLE localeCompare) (players.map normalizePlayer)

/-- The string fed to the hash: `JSON.stringify(payload)`. -/
def cacheKeyPayload (localeCompare : String → String → Int) (players : List Player) : String :=
  payloadJSON "sync-v3" "Samantha" 170 (normalized localeCompare players)

/-- Cache key of a players/timing configuration: the digest of the serialized payload. -/
def buildCountdownCacheKey (localeCompare : String → String → Int) (digest : String → String)
    (players : List Player) : String :=
  digest (cacheKeyPayload localeCompare players)

/-- A digest with collisions: the first 40 characters of the text. -/
def prefixDigest (text : String) : String := String.mk (text.data.take 40)

/-- The letter "é" as the single code point U+00E9. -/
def eAcuteComposed : String := "é"

/-- The letter "é" as "e" followed by the combining acute accent U+0301: canonically
equivalent to `eAcuteComposed`, and a different string. -/
def eAcuteDecomposed : String := "é"

/-- Two participants starting at the same second, named by the two spellings of "é". -/
def tiedPlayers : List Player :=
  [{ name := eAcuteComposed, attackGroup := 1, attackOrder := 1, timeToDestination := 5,
     attackStartTime := 0 },
   { name := eAcuteDecomposed, attackGroup := 1, attackOrder := 2, timeToDestination := 5,
     attackStartTime := 0 }]

/-- Code-point lexicographic comparison, a comparator that separates distinct strings. -/
def compareCodePoints : List Char → List Char → Int
  | [], [] => 0
  | [], _ :: _ => -1
  | _ :: _, [] => 1
  | a :: as, b :: bs =>
    if a.toNat < b.toNat then -1
    else if b.toNat < a.toNat then 1
    else compareCodePoints as bs

/-- Comparison of two strings by their code points. -/
def ordinalCompare (a b : String) : Int :=
  compareCodePoints a.data b.data

/-- A comparator that honours the canonical equivalence of the two spellings of "é": it
compares code points after decomposing U+00E9. -/
def canonicalCompare (a b : String) : Int :=
  let decompose (s : String) : String :=
    String.mk (s.data.flatMap (fun c =>
      if c = Char.ofNat 233 then ['e', Char.ofNat 769] else [c]))
  ordinalCompare (decompose a) (decompose b)

/-! ## Host model of the text-to-speech service

`TTSService.js` drives three host facilities: the file system (`fs`), the `say` program
(through `child_process.exec`) and `ffmpeg` (through `execFile`). The embedding keeps

* `files`: the set of paths that exist (directories are not modelled, `mkdirSync` is a no-op);
* `calls`: every backend invocation issued so far, in order;
* `writes`: every `fs.writeFileSync(path, text)` performed so far, in order.

Whether an invocation succeeds is decided by an oracle `backendOk : Nat → Bool`, asked with
the number of invocations issued before it. A successful invocation creates its output file,
a failed one creates nothing. `fs.writeFileSync` and `fs.mkdirSync` are taken to succeed.
An `async` method is embedded as one atomic state transformer (no interleaving between calls).
-/

/-- A backend invocation. -/
inductive Cmd where
  /-- The shell command `say -o "<out>" -v "Samantha" -r 170 "<text>"`. -/
  | say (out text : String)
  /-- Arguments `-y -i <input> -af apad=pad_dur=1,atrim=0:1 -ar 48000 -ac 2 <out>`. -/
  | ffmpegSecond (input out : String)
  /-- Arguments `-y -i <input> -ar 48000 -ac 2 <out>`. -/
  | ffmpegEncode (input out : String)
  /-- Arguments `-y -f concat -safe 0 -i <listFile> -c:a pcm_s16le <out>`. -/
  | ffmpegConcat (listFile out : String)
deriving DecidableEq

/-- File an invocation writes when it succeeds. -/
def Cmd.output : Cmd → String
  | .say out _ => out
  | .ffmpegSecond _ out => out
  | .ffmpegEncode _ out => out
  | .ffmpegConcat _ out => out

/-- A thrown JavaScript error. -/
inductive Err where
  /-- Rejection of `run(cmd)` / `runFfmpeg(args)`: the invocation failed. -/
  | backend (cmd : Cmd)
  /-- A `TypeError` raised by the language (property read on `undefined`). -/
  | typeError (message : String)
  /-- An error created with `new Error(message)`. -/
  | error (message : String)
  /-- Rejection of `interaction.reply`. -/
  | replyFailed
deriving DecidableEq

deriving instance DecidableEq for Except

/-- The `message` property of an error. The text the host attaches to a failed command or a
rejected reply is not tracked; a fixed text stands for it. -/
def Err.message : Err → String
  | .backend _ => "Command failed"
  | .typeError m => m
  | .error m => m
  | .replyFailed => "Unknown interaction"

/-- Result of `createAudioResource(path)`: a playable resource backed by the file `path`. -/
structure AudioResource where
  path : String
deriving DecidableEq

/-- The `TTSService` object (`audioCache`, `numberLibrary`, `libraryInitialized`) together
with the host state it acts on (`files`, `calls`, `writes`). -/
structure TTSService where
  audioCache : List (String × String)
  numberLibrary : List (Nat × String)
  libraryInitialized : Bool
  files : List String
  calls : List Cmd
  writes : List (String × String)
deriving DecidableEq

/-- The constructor of `TTSService`, on a host with the given files. -/
def TTSService.new (files : List String) : TTSService :=
  { audioCache := [], numberLibrary := [], libraryInitialized := false,
    files := files, calls := [], writes := [] }

/-- A method body of `TTSService`: it runs on a service state and ends either with a value or
with a thrown error, in both cases leaving a state behind. -/
def TTS (α : Type) : Type := TTSService → Except Err α × TTSService

/-- Sequencing of two statements: the second runs only if the first did not throw. -/
def TTS.bind {α β : Type} (m : TTS α) (f : α → TTS β) : TTS β := fun s =>
  match m s with
  | (.ok a, s₁) => f a s₁
  | (.error e, s₁) => (.error e, s₁)

instance : Monad TTS where
  pure a := fun s => (.ok a, s)
  bind := TTS.bind

/-- The statement `throw e`. -/
def throwErr {α : Type} (e : Err) : TTS α := fun s => (.error e, s)

/-- Embeds `fs.existsSync(path)`. -/
def existsSync (path : String) : TTS Bool := fun s => (.ok (decide (path ∈ s.files)), s)

/-- The statement `try { fs.unlinkSync(path); } catch (_) {}`. -/
def unlinkSync (path : String) : TTS Unit := fun s =>
  (.ok (), { s with files := s.files.filter (fun f => !decide (f = path)) })

/-- Files after `path` has been created (or overwritten). -/
def createFile (files : List String) (path : String) : List String :=
  if path ∈ files then files else files ++ [path]

/-- Embeds `fs.writeFileSync(path, text)`. -/
def writeFileSync (path text : String) : TTS Unit := fun s =>
  (.ok (), { s with files := createFile s.files path, writes := s.writes ++ [(path, text)] })

/-- The words of a text, separated by blanks. -/
def shellWords (cs : List Char) : List String :=
  ((cs.foldr (fun c acc =>
      if c = ' ' then [] :: acc
      else match acc with
        | [] => [[c]]
        | w :: ws => (c :: w) :: ws) [[]]).filter (fun w => !decide (w = []))).map String.mk

/-- The files the shell deletes while it expands a text that stands between double quotes on
a command line: a command substitution `$(rm -f <paths>)` in the text runs `rm` on its
arguments. This model of the shell is partial: no other command and no other expansion is
interpreted. -/
def shellRemovals : List Char → List String
  | [] => []
  | c :: cs =>
    (if "$(rm -f ".data.isPrefixOf (c :: cs) then
        shellWords (((c :: cs).drop 8).takeWhile (fun x => !decide (x = ')')))
      else [])
    ++ shellRemovals cs

/-- The files left once the command line of an invocation has been set up. `say` is run
through `exec`, which hands the line `say -o "<out>" -v "Samantha" -r 170 "<text>"` to a
shell, the text pasted in unescaped; ffmpeg is run through `execFile`, without a shell. -/
def shellEffect (cmd : Cmd) (files : List String) : List String :=
  match cmd with
  | .say _ text => files.filter (fun f => !decide (f ∈ shellRemovals text.data))
  | _ => files

/-- Embeds `await run(cmd)` / `await runFfmpeg(args)`: issue one backend invocation. The shell
of `exec` expands the command line before the program runs, whether or not it then fails. -/
def run (backendOk : Nat → Bool) (cmd : Cmd) : TTS Unit := fun s =>
  if backendOk s.calls.length then
    (.ok (), { s with
      calls := s.calls ++ [cmd]
      files := createFile (shellEffect cmd s.files) cmd.output })
  else (.error (.backend cmd), { s with
    calls := s.calls ++ [cmd]
    files := shellEffect cmd s.files })

/-- Embeds `this.numberLibrary.get(i)`. -/
def numberLibraryGet (i : Nat) : TTS (Option String) := fun s =>
  (.ok (mapGet s.numberLibrary i), s)

/-- Embeds `this.numberLibrary.set(i, numberFile)`. -/
def numberLibrarySet (i : Nat) (numberFile : String) : TTS Unit := fun s =>
  (.ok (), { s with numberLibrary := mapSet s.numberLibrary i numberFile })

/-- Embeds `this.audioCache.get(cacheKey)`. -/
def audioCacheGet (cacheKey : String) : TTS (Option String) := fun s =>
  (.ok (mapGet s.audioCache cacheKey), s)

/-- Embeds `this.audioCache.set(cacheKey, outputFile)`. -/
def audioCacheSet (cacheKey path : String) : TTS Unit := fun s =>
  (.ok (), { s with audioCache := mapSet s.audioCache cacheKey path })

/-- The condition `path && fs.existsSync(path)` for the result of a `Map.get`. -/
def presentOnDisk : Option String → TTS Bool
  | none => pure false
  | some path => do
    if path = "" then pure false else existsSync path

/-- Value of the cache test `cachedPath && fs.existsSync(cachedPath)` of
`generateSynchronizedCountdown` in state `s`: `false` is a cache miss. -/
def cachedOnDisk (cacheKey : String) (s : TTSService) : Bool :=
  match mapGet s.audioCache cacheKey with
  | none => false
  | some path => !decide (path = "") && decide (path ∈ s.files)

/-- Template-literal rendering of a non-negative integer. -/
def numStr (n : Nat) : String := String.mk (numberToString n)

/-- Embeds `path.join(__dirname, '../temp')`, relative to the project root. -/
def tempDir : String := "temp"

/-- Embeds `path.join(__dirname, '../temp/library')`. -/
def libraryDir : String := "temp/library"

/-- Embeds `path.join(dir, name)` for a plain file name. -/
def pathJoin (dir name : String) : String := dir ++ "/" ++ name

/-- Embeds `String.prototype.includes`. -/
def includes (s pattern : String) : Bool :=
  s.data.tails.any (fun t => pattern.data.isPrefixOf t)

/-! ## Speech unit library (`TTSService.initializeNumberLibrary`) -/

/-- Clip of numeral `i` in the library directory. -/
def libraryFile (i : Nat) : String := pathJoin libraryDir (numStr i ++ ".wav")

/-- Raw `say` output for numeral `i` in the library directory. -/
def libraryRawFile (i : Nat) : String := pathJoin libraryDir ("raw_" ++ numStr i ++ ".aiff")

/-- The loop `for (let i = ...; i <= 200; i++)`: `count` iterations starting at numeral `i`. -/
def initializeLoop (backendOk : Nat → Bool) : Nat → Nat → TTS Unit
  | 0, _ => pure ()
  | count + 1, i => do
    let present ← existsSync (libraryFile i)
    (if present then
      numberLibrarySet i (libraryFile i)
    else do
      run backendOk (.say (libraryRawFile i) (numStr i ++ "."))
      run backendOk (.ffmpegSecond (libraryRawFile i) (libraryFile i))
      unlinkSync (libraryRawFile i)
      numberLibrarySet i (libraryFile i))
    initializeLoop backendOk count (i + 1)

/-- Pre-generation of the numerals 1 to 200. -/
def initializeNumberLibrary (backendOk : Nat → Bool) : TTS Unit := fun s =>
  if s.libraryInitialized then (.ok (), s)
  else
    (do
      initializeLoop backendOk 200 1
      fun s₁ => (.ok (), { s₁ with libraryInitialized := true })) s

/-! ## Countdown audio engine (`TTSService.generateSynchronizedCountdown`) -/

/-- The expression `players.find(p => p.attackStartTime === 0) || players[0]`; `none` is
`undefined`. -/
def firstPlayer (players : List Player) : Option Player :=
  match players.find? (fun p => p.attackStartTime == 0) with
  | some p => some p
  | none => players.head?

/-- Embeds `Math.max(...players.map(p => p.attackStartTime))` for a non-empty list. For the empty
list JavaScript yields `-Infinity`; the value is then never used, the call throws first. -/
def maxTime (players : List Player) : Nat :=
  (players.map (fun p => p.attackStartTime)).foldl max 0

/-- One iteration of the `players.forEach` that extends the intro script. -/
def introLine (p : Player) : String :=
  if p.attackStartTime = 0 then p.name ++ " starts immediately. "
  else p.name ++ " starts at second " ++ numStr p.attackStartTime ++ ". "

/-- The intro script spoken before the ticks. -/
def introScript (first : Player) (players : List Player) : String :=
  let start := "" ++ ("Synchronized attack sequence. " ++ first.name ++ " starts first. ")
  let body := players.foldl (fun script p => script ++ introLine p) start
  body ++ (first.name ++ " ready. Three. Two. One. Go. ")

def introFile (ts : Nat) : String := pathJoin tempDir ("intro_" ++ numStr ts ++ ".aiff")
def introWav (ts : Nat) : String := pathJoin tempDir ("intro_" ++ numStr ts ++ ".wav")
def finalAiff (ts : Nat) : String := pathJoin tempDir ("final_" ++ numStr ts ++ ".aiff")
def finalWav (ts : Nat) : String := pathJoin tempDir ("final_" ++ numStr ts ++ ".wav")
def listFile (ts : Nat) : String := pathJoin tempDir ("list_" ++ numStr ts ++ ".txt")
def rawFile (i ts : Nat) : String :=
  pathJoin tempDir ("raw_" ++ numStr i ++ "_" ++ numStr ts ++ ".aiff")
def segFile (i ts : Nat) : String :=
  pathJoin tempDir ("seg_" ++ numStr i ++ "_" ++ numStr ts ++ ".wav")
def outputFile (cacheKey : String) : String :=
  pathJoin tempDir ("sync_countdown_" ++ cacheKey ++ ".wav")

/-- The loop `for (let i = ...; i <= maxTime; i++)` filling `numberFiles`: `count` iterations
starting at numeral `i`. -/
def numberLoop (backendOk : Nat → Bool) (ts : Nat) :
    Nat → Nat → List String → TTS (List String)
  | 0, _, numberFiles => pure numberFiles
  | count + 1, i, numberFiles => do
    let numberFile ← numberLibraryGet i
    let present ← presentOnDisk numberFile
    if present then
      numberLoop backendOk ts count (i + 1) (numberFiles ++ [numberFile.getD ""])
    else do
      run backendOk (.say (rawFile i ts) (numStr i ++ "."))
      run backendOk (.ffmpegSecond (rawFile i ts) (segFile i ts))
      unlinkSync (rawFile i ts)
      numberLoop backendOk ts count (i + 1) (numberFiles ++ [segFile i ts])

/-- The replacement `f.replace(/'/g, "'\\''")`. -/
def escapeQuote (f : String) : String :=
  String.mk (f.data.flatMap (fun c =>
    if c = Char.ofNat 39 then [Char.ofNat 39, bslash, Char.ofNat 39, Char.ofNat 39] else [c]))

/-- Text of the concat list: one line `file '<path>'` per segment, joined by newlines. -/
def concatListText (concatFiles : List String) : String :=
  "\n".intercalate (concatFiles.map (fun f => "file \x27" ++ escapeQuote f ++ "\x27"))

/-- The final cleanup loop over `numberFiles`. -/
def cleanupFallback (ts : Nat) : List String → TTS Unit
  | [] => pure ()
  | f :: fs => do
    (if includes f ("seg_" ++ numStr ts) then unlinkSync f else pure ())
    cleanupFallback ts fs

/-- The `TypeError` of the property read `firstPlayer.name` when `firstPlayer` is
`undefined`. -/
def undefinedNameError : Err :=
  .typeError "Cannot read properties of undefined (reading \x27name\x27)"

/-- Everything `generateSynchronizedCountdown` does after a cache miss. -/
def generateOnMiss (backendOk : Nat → Bool) (cacheKey : String) (players : List Player)
    (ts : Nat) : TTS AudioResource :=
  match firstPlayer players with
  | none => throwErr undefinedNameError
  | some first => do
    run backendOk (.say (introFile ts) (introScript first players))
    let numberFiles ← numberLoop backendOk ts (maxTime players) 1 []
    run backendOk (.say (finalAiff ts) "Sequence complete.")
    run backendOk (.ffmpegEncode (finalAiff ts) (finalWav ts))
    unlinkSync (finalAiff ts)
    run backendOk (.ffmpegEncode (introFile ts) (introWav ts))
    unlinkSync (introFile ts)
    writeFileSync (listFile ts) (concatListText ([introWav ts] ++ numberFiles ++ [finalWav ts]))
    run backendOk (.ffmpegConcat (listFile ts) (outputFile cacheKey))
    unlinkSync (introWav ts)
    unlinkSync (finalWav ts)
    unlinkSync (listFile ts)
    cleanupFallback ts numberFiles
    audioCacheSet cacheKey (outputFile cacheKey)
    pure { path := outputFile cacheKey }

/-- Generation of a complete synchronized countdown. `ts` is the value `Date.now()` returns
on a cache miss; `totalDuration` is accepted and not used, as in the source. The enclosing
`try`/`catch` rethrows what it catches. -/
def generateSynchronizedCountdown (localeCompare : String → String → Int)
    (digest : String → String) (backendOk : Nat → Bool) (players : List Player)
    (_totalDuration : Nat) (ts : Nat) : TTS AudioResource := do
  initializeNumberLibrary backendOk
  let cachedPath ← audioCacheGet (buildCountdownCacheKey localeCompare digest players)
  let present ← presentOnDisk cachedPath
  if present then
    pure { path := cachedPath.getD "" }
  else
    generateOnMiss backendOk (buildCountdownCacheKey localeCompare digest players) players ts

/-! ## Countdown session (`VoiceManager.js`)

The host side of the voice manager is the timer queue (`setTimeout` / `clearTimeout`) and the
Discord interaction being answered. `pendingTimers` holds the timers that are armed and have
neither fired nor been cleared; a timer handle is its number. `replies` lists the calls made
to `interaction.reply`; `invoked` is a trace of the methods entered (`stopAttackCountdown`,
`playSynchronizedCountdown`, `generateSynchronizedCountdown`), kept to state that a method is
not called.
-/

/-- A voice connection, identified by the channel it was opened on. -/
structure Connection where
  channelId : String
deriving DecidableEq

/-- An audio player: the resource it was last given to play (`none` once stopped) and the
number of `once(AudioPlayerStatus.Idle, ...)` listeners waiting on it. -/
structure AudioPlayer where
  resource : Option AudioResource
  idleListeners : Nat
deriving DecidableEq

/-- Embeds `audioPlayer.play(resource)`. -/
def AudioPlayer.play (p : AudioPlayer) (r : AudioResource) : AudioPlayer :=
  { p with resource := some r }

/-- Embeds `audioPlayer.stop()`. -/
def AudioPlayer.stop (p : AudioPlayer) : AudioPlayer :=
  { p with resource := none }

/-- Embeds `audioPlayer.once(AudioPlayerStatus.Idle, listener)`. -/
def AudioPlayer.onceIdle (p : AudioPlayer) : AudioPlayer :=
  { p with idleListeners := p.idleListeners + 1 }

/-- An armed expiry timer: its handle, the guild whose countdown entry its callback
deletes, and the delay in milliseconds it is armed with. A handle stands for the `Timeout`
object Node returns, which is truthy: the test `if (timer)` holds exactly when the map has an
entry. -/
structure Timer where
  id : Nat
  guildId : String
  delayMs : Nat
deriving DecidableEq

/-- An argument of `interaction.reply`. -/
inductive Reply where
  | content (text : String) (ephemeral : Bool)
  | embed (title description : String) (fields : List (String × String))
deriving DecidableEq

/-- The interaction a command answers: its guild, and whether `interaction.reply` (building
the reply included) succeeds. -/
structure Interaction where
  guildId : String
  replyOk : Bool
deriving DecidableEq

/-- The result of `calculateAttackTiming`. -/
structure AttackTiming where
  players : List Player
  totalDuration : Nat
  attackGroup : Option Nat
deriving DecidableEq

/-- The `VoiceManager` object with the host state it acts on. -/
structure VoiceManager where
  connections : List (String × Connection)
  audioPlayers : List (String × AudioPlayer)
  countdownTimers : List (String × Nat)
  ttsService : TTSService
  pendingTimers : List Timer
  nextTimer : Nat
  replies : List Reply
  invoked : List String
deriving DecidableEq

/-- The delay Node arms a timer with for the argument `after` of `setTimeout`: an argument
that is not between 1 and `TIMEOUT_MAX`, which is 2147483647, is replaced by 1. -/
def timeoutDelay (after : Nat) : Nat :=
  if 1 ≤ after ∧ after ≤ 2147483647 then after else 1

/-- Embeds `setTimeout(callback, delayMs)` for the expiry callback of `guildId`: arms a timer and
returns its handle. -/
def setTimeout (vm : VoiceManager) (guildId : String) (delayMs : Nat) : Nat × VoiceManager :=
  (vm.nextTimer,
    { vm with
      pendingTimers := vm.pendingTimers ++ [{ id := vm.nextTimer, guildId := guildId,
                                              delayMs := timeoutDelay delayMs }]
      nextTimer := vm.nextTimer + 1 })

/-- Embeds `clearTimeout(timer)`. -/
def clearTimeout (vm : VoiceManager) (timer : Nat) : VoiceManager :=
  { vm with pendingTimers := vm.pendingTimers.filter (fun t => !decide (t.id = timer)) }

/-- Embeds `await interaction.reply(r)`. -/
def reply (interaction : Interaction) (r : Reply) (vm : VoiceManager) :
    Except Err Unit × VoiceManager :=
  let vm₁ := { vm with replies := vm.replies ++ [r] }
  if interaction.replyOk then (.ok (), vm₁) else (.error .replyFailed, vm₁)

/-- Check if there is an active countdown. -/
def isCountdownActive (vm : VoiceManager) (guildId : String) : Bool :=
  mapHas vm.countdownTimers guildId

/-- Check if the bot is in a voice channel. -/
def isInVoiceChannel (vm : VoiceManager) (guildId : String) : Bool :=
  mapHas vm.connections guildId

/-- Play the synchronized countdown sequence. The result `ok` stands for the returned promise,
which stays pending until the player reports `Idle`. The resource returned by
`generateSynchronizedCountdown` is an object, so the branch `else { throw ... }` of
`if (audioResource)` is never taken. -/
def playSynchronizedCountdown (localeCompare : String → String → Int)
    (digest : String → String) (backendOk : Nat → Bool) (guildId : String)
    (players : List Player) (totalDuration : Nat) (ts : Nat) (vm : VoiceManager) :
    Except Err Unit × VoiceManager :=
  let vm₀ := { vm with invoked := vm.invoked ++ ["playSynchronizedCountdown"] }
  match mapGet vm₀.connections guildId, mapGet vm₀.audioPlayers guildId with
  | some _, some audioPlayer =>
    let vm₁ := { vm₀ with invoked := vm₀.invoked ++ ["generateSynchronizedCountdown"] }
    match generateSynchronizedCountdown localeCompare digest backendOk players totalDuration ts
        vm₁.ttsService with
    | (.error e, tts) => (.error e, { vm₁ with ttsService := tts })
    | (.ok audioResource, tts) =>
      let armed := setTimeout { vm₁ with ttsService := tts } guildId ((totalDuration + 5) * 1000)
      let vm₂ := { armed.2 with
        countdownTimers := mapSet armed.2.countdownTimers guildId armed.1 }
      (.ok (), { vm₂ with
        audioPlayers := mapSet vm₂.audioPlayers guildId (audioPlayer.play audioResource).onceIdle })
  | _, _ => (.error (.error "Voice connection not available"), vm₀)

/-- Text of the embed announcing the attack sequence. -/
def launchEmbed (attackTiming : AttackTiming) : Reply :=
  let groupText :=
    match attackTiming.attackGroup with
    | some g => if g = 0 then "All Groups" else "Attack Group " ++ numStr g
    | none => "All Groups"
  .embed "🚀 Attack Sequence Initiated!"
    ("**" ++ groupText ++ "**\n**Total Duration:** " ++ numStr attackTiming.totalDuration
      ++ " seconds\n**Players:** " ++ numStr attackTiming.players.length)
    (attackTiming.players.map (fun player =>
      ("Player " ++ numStr player.attackOrder ++ ": " ++ player.name ++ " (Group "
          ++ numStr player.attackGroup ++ ")",
        "Starts in: **" ++ numStr player.attackStartTime ++ "s** | Arrives in: **"
          ++ numStr player.timeToDestination ++ "s**")))

/-- Start the synchronized attack countdown. -/
def startAttackCountdown (localeCompare : String → String → Int) (digest : String → String)
    (backendOk : Nat → Bool) (interaction : Interaction) (attackTiming : AttackTiming)
    (ts : Nat) (vm : VoiceManager) : Except Err Unit × VoiceManager :=
  if !mapHas vm.connections interaction.guildId then
    (.error (.error "Bot is not in a voice channel. Use /join first."), vm)
  else
    match reply interaction (launchEmbed attackTiming) vm with
    | (.error e, vm₁) => (.error e, vm₁)
    | (.ok _, vm₁) =>
      playSynchronizedCountdown localeCompare digest backendOk interaction.guildId
        attackTiming.players attackTiming.totalDuration ts vm₁

/-- Stop the current attack countdown. -/
def stopAttackCountdown (interaction : Interaction) (vm : VoiceManager) :
    Except Err Bool × VoiceManager :=
  let guildId := interaction.guildId
  let vm₀ := { vm with invoked := vm.invoked ++ ["stopAttackCountdown"] }
  let vm₁ :=
    match mapGet vm₀.countdownTimers guildId with
    | some timer =>
      let cleared := clearTimeout vm₀ timer
      { cleared with countdownTimers := mapDelete cleared.countdownTimers guildId }
    | none => vm₀
  let vm₂ :=
    match mapGet vm₁.audioPlayers guildId with
    | some audioPlayer =>
      { vm₁ with audioPlayers := mapSet vm₁.audioPlayers guildId audioPlayer.stop }
    | none => vm₁
  (.ok true, { vm₂ with countdownTimers := mapDelete vm₂.countdownTimers guildId })

/-- Join a voice channel. `voiceChannel` is `interaction.member.voice.channel`, the id of the
channel the member is in, if any. The connection and a new audio player are stored for the
guild; the `Disconnected` handler registered on the connection is
`onDisconnectedReconnectFailed` when the reconnect attempt fails. The library call that opens
the connection is taken to succeed. -/
def joinVoiceChannel (interaction : Interaction) (voiceChannel : Option String)
    (vm : VoiceManager) : Except Err Connection × VoiceManager :=
  match voiceChannel with
  | none => (.error (.error "You need to be in a voice channel to use this command!"), vm)
  | some channelId =>
    (.ok ⟨channelId⟩,
      { vm with
        connections := mapSet vm.connections interaction.guildId ⟨channelId⟩
        audioPlayers := mapSet vm.audioPlayers interaction.guildId ⟨none, 0⟩ })

/-- The `catch` branch of the `Disconnected` handler that `joinVoiceChannel` registers, taken
when the connection does not start to reconnect within five seconds: the connection is
destroyed and the entries of the guild in `connections` and `audioPlayers` are deleted. -/
def onDisconnectedReconnectFailed (guildId : String) (vm : VoiceManager) : VoiceManager :=
  { vm with
    connections := mapDelete vm.connections guildId
    audioPlayers := mapDelete vm.audioPlayers guildId }

/-- Leave the voice channel: destroy the connection, delete the entries of the guild in
`connections` and `audioPlayers`, and clear any active countdown. Without a connection for the
guild nothing is done. -/
def leaveVoiceChannel (guildId : String) (vm : VoiceManager) : VoiceManager :=
  match mapGet vm.connections guildId with
  | some _ =>
    let vm₁ := { vm with
      connections := mapDelete vm.connections guildId
      audioPlayers := mapDelete vm.audioPlayers guildId }
    match mapGet vm₁.countdownTimers guildId with
    | some timer =>
      let cleared := clearTimeout vm₁ timer
      { cleared with countdownTimers := mapDelete cleared.countdownTimers guildId }
    | none => vm₁
  | none => vm

/-- The reply of `handleStop` when no countdown is active. -/
def noActiveCountdownReply : Reply :=
  .content "❌ No active attack countdown to stop!" true

/-- The `/stop` command of `CommandHandler`. Nothing is thrown to the caller: an error of the
`try` block is answered with a second reply whose own failure is swallowed. The only statement
of the `try` block that can throw is a reply, after which the interaction is neither deferred
nor replied, so the `catch` block answers through `interaction.reply`. -/
def handleStop (interaction : Interaction) (vm : VoiceManager) : VoiceManager :=
  let attempt : Except Err Unit × VoiceManager :=
    if !isCountdownActive vm interaction.guildId then
      reply interaction noActiveCountdownReply vm
    else
      match stopAttackCountdown interaction vm with
      | (.error e, vm₁) => (.error e, vm₁)
      | (.ok _, vm₁) =>
        reply interaction
          (.embed "⏹️ Attack Countdown Stopped!"
            "The synchronized attack countdown has been cancelled."
            [("Status", "Countdown stopped and reset"), ("Ready for New Launch", "✅ Yes")]) vm₁
  match attempt with
  | (.ok _, vm₁) => vm₁
  | (.error e, vm₁) => (reply interaction (.content ("❌ Error: " ++ e.message) true) vm₁).2

/-! ## Events of a countdown session

Besides the commands, two callbacks registered by `playSynchronizedCountdown` act on the
session of a guild: the callback of the expiry timer and the `once(AudioPlayerStatus.Idle)`
listener. Time is not modelled: a pending timer may fire at any step.
-/

/-- The expiry timer with handle `timer` fires: it leaves the pending timers and its callback
runs `this.countdownTimers.delete(guildId)` for the guild it was armed for. A handle that is
not pending does not fire. -/
def timerFired (timer : Nat) (vm : VoiceManager) : VoiceManager :=
  match vm.pendingTimers.find? (fun t => decide (t.id = timer)) with
  | some t =>
    { vm with
      pendingTimers := vm.pendingTimers.filter (fun t' => !decide (t'.id = timer))
      countdownTimers := mapDelete vm.countdownTimers t.guildId }
  | none => vm

/-- The audio player of the guild reports `Idle`, the playback has finished: every `once`
listener waiting on it runs `this.countdownTimers.delete(guildId)` and is removed. -/
def playbackFinished (guildId : String) (vm : VoiceManager) : VoiceManager :=
  match mapGet vm.audioPlayers guildId with
  | some audioPlayer =>
    if audioPlayer.idleListeners = 0 then
      { vm with audioPlayers := mapSet vm.audioPlayers guildId ⟨none, 0⟩ }
    else
      { vm with
        audioPlayers := mapSet vm.audioPlayers guildId ⟨none, 0⟩
        countdownTimers := mapDelete vm.countdownTimers guildId }
  | none => vm

/-- The events of the session of one guild: a start of a countdown (with the time `Date.now()`
returns during its synthesis), a stop, the end of the playback, the firing of a timer. -/
inductive Event where
  | start (attackTiming : AttackTiming) (ts : Nat)
  | stop
  | playbackFinished
  | timerFired (timer : Nat)
deriving DecidableEq

/-- One step of the session of the guild of `interaction`. -/
def step (localeCompare : String → String → Int) (digest : String → String)
    (backendOk : Nat → Bool) (interaction : Interaction) (vm : VoiceManager) :
    Event → VoiceManager
  | .start attackTiming ts =>
    (startAttackCountdown localeCompare digest backendOk interaction attackTiming ts vm).2
  | .stop => (stopAttackCountdown interaction vm).2
  | .playbackFinished => playbackFinished interaction.guildId vm
  | .timerFired timer => timerFired timer vm

/-- The state a sequence of events leads to. -/
def runEvents (localeCompare : String → String → Int) (digest : String → String)
    (backendOk : Nat → Bool) (interaction : Interaction) (events : List Event)
    (vm : VoiceManager) : VoiceManager :=
  events.foldl (step localeCompare digest backendOk interaction) vm

/-- Every pending expiry timer is the handle stored in `countdownTimers` for its guild. -/
def pendingAreStored (vm : VoiceManager) : Bool :=
  vm.pendingTimers.all (fun t => decide (mapGet vm.countdownTimers t.guildId = some t.id))


/-! ## Sample configurations -/

/-- The scenario of the specification: A starts at once, B and C at second 3. -/
def demoPlayers : List Player :=
  [{ name := "A", attackGroup := 1, attackOrder := 1, timeToDestination := 8,
     attackStartTime := 0 },
   { name := "B", attackGroup := 1, attackOrder := 2, timeToDestination := 5,
     attackStartTime := 3 },
   { name := "C", attackGroup := 1, attackOrder := 3, timeToDestination := 5,
     attackStartTime := 3 }]

/-- A service whose library is initialized and holds the clips of the numerals 1 and 2 (a
small stand-in for the 200 clips of a warmed-up library). -/
def warmService : TTSService :=
  { audioCache := [],
    numberLibrary := [(1, libraryFile 1), (2, libraryFile 2)],
    libraryInitialized := true,
    files := [libraryFile 1, libraryFile 2],
    calls := [],
    writes := [] }

/-- The state `warmService` is in after a countdown for `demoPlayers` has been generated with
a working backend at time 1700. -/
def servedService : TTSService :=
  (generateSynchronizedCountdown ordinalCompare id (fun _ => true) demoPlayers 5 1700
    warmService).2

/-- The constructor of `VoiceManager`, on a host with the given files. -/
def VoiceManager.new (files : List String) : VoiceManager :=
  { connections := [], audioPlayers := [], countdownTimers := [],
    ttsService := TTSService.new files, pendingTimers := [], nextTimer := 0,
    replies := [], invoked := [] }

/-- A manager that has joined a voice channel of guild `guild-1` and is idle there. -/
def joinedManager : VoiceManager :=
  { connections := [("guild-1", { channelId := "channel-1" })],
    audioPlayers := [("guild-1", { resource := none, idleListeners := 0 })],
    countdownTimers := [],
    ttsService := warmService,
    pendingTimers := [],
    nextTimer := 0,
    replies := [],
    invoked := [] }

/-- A command interaction from guild `guild-1` whose replies go through. -/
def guildInteraction : Interaction := { guildId := "guild-1", replyOk := true }

/-- The timing of `demoPlayers` with a total duration of 5 seconds. -/
def demoTiming : AttackTiming :=
  { players := demoPlayers, totalDuration := 5, attackGroup := none }

/-- A timing with a single participant. -/
def soloTiming : AttackTiming :=
  { players := [{ name := "D", attackGroup := 2, attackOrder := 1, timeToDestination := 4,
                  attackStartTime := 0 }],
    totalDuration := 4, attackGroup := some 2 }

/-- The manager after `/launch` on `joinedManager`: guild `guild-1` is Armed, timer 0 is
stored and pending. -/
def armedManager : VoiceManager :=
  (startAttackCountdown ordinalCompare id (fun _ => true) guildInteraction demoTiming 1700
    joinedManager).2

/-- The manager after a second `/launch` on `armedManager`, for another timing. -/
def rearmedManager : VoiceManager :=
  (startAttackCountdown ordinalCompare id (fun _ => true) guildInteraction soloTiming 1800
    armedManager).2

/-- A timing of `demoPlayers` with a total duration of 60 seconds: its expiry timer is armed
for 65 seconds. -/
def longTiming : AttackTiming :=
  { players := demoPlayers, totalDuration := 60, attackGroup := none }

/-- The manager after `/launch` of `longTiming` on `joinedManager` and the end of the
playback: the guild is Idle again, timer 0 is still pending. -/
def finishedManager : VoiceManager :=
  runEvents ordinalCompare id (fun _ => true) guildInteraction
    [.start longTiming 1700, .playbackFinished] joinedManager


/-- The expiry timer of the first countdown of `finishedManager`. -/
def staleTimer : Timer := ⟨0, "guild-1", 65000⟩

/-! ## Intro phrase vocabulary -/

/-- Concatenation of a list of strings, first to last. -/
def concatAll : List String → String
  | [] => ""
  | x :: xs => x ++ concatAll xs

/-- Text of an intro that names `first` as the first starter and then states the participants
of `order`, one sentence each, in the order of the list. -/
def introPhrase (first : Player) (order : List Player) : String :=
  ("Synchronized attack sequence. " ++ first.name ++ " starts first. ")
    ++ concatAll (order.map introLine)
    ++ (first.name ++ " ready. Three. Two. One. Go. ")

/-- The intro built for `players` states the offsets in ascending time order: its sentences are
those of some arrangement of the participants by non-decreasing `attackStartTime`. -/
def StatesOffsetsAscending (first : Player) (players : List Player) : Prop :=
  ∃ order : List Player, order.Perm players ∧
    order.Sorted (fun a b => a.attackStartTime ≤ b.attackStartTime) ∧
    introScript first players = introPhrase first order

/-- Participant B starting at second 3. -/
def playerB3 : Player :=
  { name := "B", attackGroup := 1, attackOrder := 1, timeToDestination := 5,
    attackStartTime := 3 }

/-- Participant A starting at once. -/
def playerA0 : Player :=
  { name := "A", attackGroup := 1, attackOrder := 2, timeToDestination := 8,
    attackStartTime := 0 }

/-- Participant A starting at second 1. -/
def playerA1 : Player :=
  { name := "A", attackGroup := 1, attackOrder := 2, timeToDestination := 7,
    attackStartTime := 1 }

/-! ## Warm-up vocabulary -/

/-- The `say` invocation that initializeNumberLibrary issues for numeral `i`. -/
def sayNumeral (i : Nat) : Cmd := .say (libraryRawFile i) (numStr i ++ ".")

/-- The ffmpeg invocation that initializeNumberLibrary issues for numeral `i`. -/
def padNumeral (i : Nat) : Cmd := .ffmpegSecond (libraryRawFile i) (libraryFile i)

/-- State after the clip of numeral `i` has been registered in `numberLibrary`. -/
def registerClip (i : Nat) (s : TTSService) : TTSService :=
  { s with numberLibrary := mapSet s.numberLibrary i (libraryFile i) }

/-- State after the clip of numeral `i` has been generated: both invocations issued, the clip
created and the raw file removed. -/
def generateClip (i : Nat) (s : TTSService) : TTSService :=
  { s with
    calls := s.calls ++ [sayNumeral i] ++ [padNumeral i],
    files := (createFile (createFile s.files (libraryRawFile i)) (libraryFile i)).filter
      (fun f => !decide (f = libraryRawFile i)) }

/-! ## File-system vocabulary -/

/-- The path lies in the library directory `temp/library`. -/
def inLibraryDir (path : String) : Bool := "temp/library/".data.isPrefixOf path.data

/-- The characters the shell interprets between double quotes: the dollar sign, the
backquote, the backslash and the double quote. -/
def shellSpecial (c : Char) : Bool :=
  decide (c = Char.ofNat 36) || decide (c = Char.ofNat 96) || decide (c = Char.ofNat 92)
    || decide (c = Char.ofNat 34)

/-- No participant has a name with a character the shell interprets between double quotes. -/
def ShellSafeNames (players : List Player) : Prop :=
  ∀ p ∈ players, ∀ c ∈ p.name.data, shellSpecial c = false

/-- A single participant whose name is a command substitution that removes the library clip
of numeral 1. -/
def injectedPlayers : List Player :=
  [{ name := "$(rm -f temp/library/1.wav)", attackGroup := 1, attackOrder := 1,
     timeToDestination := 8, attackStartTime := 0 }]

/-- The two invocations that make the fallback segment of numeral `i`: `say` speaks the
numeral into the raw file, and ffmpeg pads or trims the raw file to one second. -/
def fallbackCalls (ts i : Nat) : List Cmd :=
  [.say (rawFile i ts) (numStr i ++ "."), .ffmpegSecond (rawFile i ts) (segFile i ts)]

/-- The character of a path that follows the five characters of `temp/`. -/
def nameHead (path : String) : Option Char := (path.data.drop 5).head?

/-! ## Predicates on method bodies used in the proofs -/

/-- The method leaves the component `g` of the state as it found it, however it ends. -/
def Keeps {α β : Type} (g : TTSService → β) (m : TTS α) : Prop :=
  ∀ s, g (m s).2 = g s

/-- A component of the state that no file or backend operation touches. -/
def HostFree {γ : Type} (g : TTSService → γ) : Prop :=
  ∀ (s : TTSService) (files : List String) (calls : List Cmd) (writes : List (String × String)),
    g { s with files := files, calls := calls, writes := writes } = g s

/-- A component of the state that `audioCache.set` does not touch. -/
def CacheFree {γ : Type} (g : TTSService → γ) : Prop :=
  ∀ (s : TTSService) (cache : List (String × String)), g { s with audioCache := cache } = g s

/-- A component of the state that `numberLibrary.set` does not touch. -/
def LibraryFree {γ : Type} (g : TTSService → γ) : Prop :=
  ∀ (s : TTSService) (library : List (Nat × String)),
    g { s with numberLibrary := library } = g s

/-- The invocations the method issues are appended to `calls`, and an invocation the backend
fails makes the method end with the error of that invocation. -/
def Traced {α : Type} (backendOk : Nat → Bool) (m : TTS α) : Prop :=
  ∀ s, ∃ new, (m s).2.calls = s.calls ++ new ∧
    ∀ k cmd, new[k]? = some cmd → backendOk (s.calls.length + k) = false →
      (m s).1 = .error (.backend cmd)

/-- A method that ends with an error leaves `audioCache` as it found it. -/
def CacheSafe {α : Type} (m : TTS α) : Prop :=
  ∀ s e, (m s).1 = .error e → (m s).2.audioCache = s.audioCache

/-- On success the method returns the resource backed by `path` and has stored `path` in the
cache under `cacheKey`. -/
def SetsCache (cacheKey path : String) (m : TTS AudioResource) : Prop :=
  ∀ s r s', m s = (.ok r, s') →
    r.path = path ∧ s'.audioCache = mapSet s.audioCache cacheKey path

/-- The method ends with a value from every state. -/
def Succeeds {α : Type} (m : TTS α) : Prop := ∀ s, ∃ a, (m s).1 = .ok a

/-- The invocation belongs to the generation of the clip of numeral `j`. -/
def ForNumeral (cmd : Cmd) (j : Nat) : Prop := cmd = sayNumeral j ∨ cmd = padNumeral j

/-- What the warm-up loop over the numerals `i`, ..., `i + count - 1`, started in `s`, leaves
behind when it ends with `r`: the invocations it issued are for numerals of its range whose
clip was absent; if it failed, it failed with the last invocation, issued for a numeral `k`
after the clips below `k` were made and before the clip of `k` was; files other than raw
files stay; the registered paths are library paths; on success every numeral of the range is
registered and its clip is on disk. -/
def LoopOutcome (count i : Nat) (s : TTSService) (r : Except Err Unit × TTSService) : Prop :=
  (∃ new, r.2.calls = s.calls ++ new ∧
    (∀ cmd ∈ new, ∃ j, i ≤ j ∧ j < i + count ∧ libraryFile j ∉ s.files ∧ ForNumeral cmd j) ∧
    ∀ e, r.1 = .error e → ∃ k cmd, i ≤ k ∧ k < i + count ∧ ForNumeral cmd k ∧
      e = .backend cmd ∧ (∀ c ∈ new, ∃ j, j ≤ k ∧ ForNumeral c j) ∧
      (∀ j, i ≤ j → j < k → libraryFile j ∈ r.2.files) ∧ libraryFile k ∉ r.2.files) ∧
  (∀ p ∈ s.files, (∀ j, p ≠ libraryRawFile j) → p ∈ r.2.files) ∧
  ((∀ j p, mapGet s.numberLibrary j = some p → p = libraryFile j) →
    ∀ j p, mapGet r.2.numberLibrary j = some p → p = libraryFile j) ∧
  (r.1 = .ok () →
    (∀ j, mapHas r.2.numberLibrary j = true ↔
      (mapHas s.numberLibrary j = true ∨ (i ≤ j ∧ j < i + count))) ∧
    ∀ j, i ≤ j → j < i + count → libraryFile j ∈ r.2.files)

/-- A successful run leaves `path` absent if it found it absent. -/
def StaysAbsent {α : Type} (path : String) (m : TTS α) : Prop :=
  ∀ s a s', m s = (.ok a, s') → path ∉ s.files → path ∉ s'.files

/-- A successful run leaves `path` absent. -/
def Removes {α : Type} (path : String) (m : TTS α) : Prop :=
  ∀ s a s', m s = (.ok a, s') → path ∉ s'.files

/-- Started in `s`, the method changes membership in `files` only for paths satisfying `P`,
however it ends. -/
def TouchesAt {α : Type} (P : String → Prop) (m : TTS α) (s : TTSService) : Prop :=
  ∀ p, ¬ P p → (p ∈ (m s).2.files ↔ p ∈ s.files)

/-! ## Decoding of quoted strings -/

/-- Value of a lower-case hexadecimal digit. -/
def hexValue (c : Char) : Nat :=
  if c.toNat < 58 then c.toNat - 48 else c.toNat - 87

/-- Reads one escaped code point back from the front of a quoted body: a left inverse of
`quoteJSONChar`, used to show that the quoting is uniquely decodable. -/
def unquoteJSONChar : List Char → Option (Char × List Char)
  | [] => none
  | c :: rest =>
    if c = bslash then
      match rest with
      | [] => none
      | x :: rest₁ =>
        if x = dq then some (dq, rest₁)
        else if x = bslash then some (bslash, rest₁)
        else if x = 'b' then some (Char.ofNat 8, rest₁)
        else if x = 't' then some (Char.ofNat 9, rest₁)
        else if x = 'n' then some (Char.ofNat 10, rest₁)
        else if x = 'f' then some (Char.ofNat 12, rest₁)
        else if x = 'r' then some (Char.ofNat 13, rest₁)
        else
          match rest₁ with
          | _ :: _ :: h :: l :: rest₂ => some (Char.ofNat (16 * hexValue h + hexValue l), rest₂)
          | _ => none
    else some (c, rest)

/-! ## Serialization lemmas -/

theorem char_eq_of_toNat_eq {a b : Char} (h : a.toNat = b.toNat) : a = b := by
  have := congrArg Char.ofNat h
  simpa [Char.ofNat_toNat] using this

theorem hexDigit_inj : ∀ a < 16, ∀ b < 16, hexDigit a = hexDigit b → a = b := by
  decide

theorem hexValue_hexDigit : ∀ n < 16, hexValue (hexDigit n) = n := by
  decide

theorem unquote_quoteJSONChar (c : Char) (r : List Char) :
    unquoteJSONChar (quoteJSONChar c ++ r) = some (c, r) := by
  unfold quoteJSONChar
  split_ifs with h1 h2 h3 h4 h5 h6 h7 h8
  · subst h1; rfl
  · subst h2; rfl
  · have : c = Char.ofNat 8 := char_eq_of_toNat_eq h3
    subst this; rfl
  · have : c = Char.ofNat 9 := char_eq_of_toNat_eq h4
    subst this; rfl
  · have : c = Char.ofNat 10 := char_eq_of_toNat_eq h5
    subst this; rfl
  · have : c = Char.ofNat 12 := char_eq_of_toNat_eq h6
    subst this; rfl
  · have : c = Char.ofNat 13 := char_eq_of_toNat_eq h7
    subst this; rfl
  · have hd : c.toNat / 16 < 16 := by omega
    have hm : c.toNat % 16 < 16 := by omega
    have hv : 16 * (c.toNat / 16) + c.toNat % 16 = c.toNat := by omega
    simp only [List.cons_append, List.nil_append, unquoteJSONChar]
    have e1 : ¬ ('u' = dq) := by decide
    have e2 : ¬ ('u' = bslash) := by decide
    simp only [if_true, e1, e2, if_false, hexValue_hexDigit _ hd, hexValue_hexDigit _ hm, hv,
      Char.ofNat_toNat]
    rfl
  · simp only [List.cons_append, List.nil_append, unquoteJSONChar, if_neg h2]

theorem quoteJSONChar_prefix_free {c₁ c₂ : Char} {r₁ r₂ : List Char}
    (h : quoteJSONChar c₁ ++ r₁ = quoteJSONChar c₂ ++ r₂) : c₁ = c₂ ∧ r₁ = r₂ := by
  have h₁ := unquote_quoteJSONChar c₁ r₁
  rw [h, unquote_quoteJSONChar] at h₁
  simpa using h₁.symm

theorem quoteJSONChar_head_ne_dq (c : Char) :
    ∃ h t, quoteJSONChar c = h :: t ∧ h ≠ dq := by
  unfold quoteJSONChar
  have hb : bslash ≠ dq := by decide
  split_ifs with h1 h2 h3 h4 h5 h6 h7 h8
  all_goals first
    | exact ⟨_, _, rfl, hb⟩
    | exact ⟨_, _, rfl, h1⟩

theorem quoteJSONBody_inj : ∀ (s₁ s₂ r₁ r₂ : List Char),
    quoteJSONBody s₁ ++ dq :: r₁ = quoteJSONBody s₂ ++ dq :: r₂ → s₁ = s₂ ∧ r₁ = r₂
  | [], [], r₁, r₂, h => by simpa [quoteJSONBody] using h
  | [], c :: s₂, r₁, r₂, h => by
    obtain ⟨x, t, hx, hne⟩ := quoteJSONChar_head_ne_dq c
    simp [quoteJSONBody, hx] at h
    exact absurd h.1.symm hne
  | c :: s₁, [], r₁, r₂, h => by
    obtain ⟨x, t, hx, hne⟩ := quoteJSONChar_head_ne_dq c
    simp [quoteJSONBody, hx] at h
    exact absurd h.1 hne
  | c₁ :: s₁, c₂ :: s₂, r₁, r₂, h => by
    simp only [quoteJSONBody, List.append_assoc] at h
    obtain ⟨hc, hrest⟩ := quoteJSONChar_prefix_free h
    obtain ⟨hs, hr⟩ := quoteJSONBody_inj s₁ s₂ r₁ r₂ hrest
    exact ⟨by rw [hc, hs], hr⟩

theorem quoteJSONString_inj {a b : String} {r₁ r₂ : List Char}
    (h : quoteJSONString a ++ r₁ = quoteJSONString b ++ r₂) : a = b ∧ r₁ = r₂ := by
  simp only [quoteJSONString, List.cons_append, List.append_assoc, List.nil_append,
    List.cons.injEq, true_and] at h
  obtain ⟨hs, hr⟩ := quoteJSONBody_inj _ _ _ _ h
  exact ⟨String.ext hs, hr⟩

theorem decimalDigitsRev_lt : ∀ (fuel n : Nat), ∀ d ∈ decimalDigitsRev fuel n, d < 10
  | 0, _, d, h => by simp [decimalDigitsRev] at h
  | fuel + 1, n, d, h => by
    unfold decimalDigitsRev at h
    split_ifs at h with hn
    · simp at h; omega
    · rcases List.mem_cons.1 h with h | h
      · omega
      · exact decimalDigitsRev_lt fuel _ d h

theorem ofDigits_decimalDigitsRev : ∀ (fuel n : Nat), n < 10 ^ fuel →
    Nat.ofDigits 10 (decimalDigitsRev fuel n) = n
  | 0, n, h => by
    have : n = 0 := by simpa using h
    subst this; simp [decimalDigitsRev]
  | fuel + 1, n, h => by
    unfold decimalDigitsRev
    split_ifs with hn
    · simp [Nat.ofDigits]
    · have hlt : n / 10 < 10 ^ fuel := by
        rw [Nat.div_lt_iff_lt_mul (by norm_num)]
        rw [pow_succ] at h; exact h
      rw [Nat.ofDigits_cons, ofDigits_decimalDigitsRev fuel _ hlt]
      omega

theorem decimalDigitsRev_inj {n m : Nat}
    (h : decimalDigitsRev (n + 1) n = decimalDigitsRev (m + 1) m) : n = m := by
  have hn := ofDigits_decimalDigitsRev (n + 1) n
    (lt_trans (Nat.lt_succ_self n) (Nat.lt_pow_self (by norm_num) _))
  have hm := ofDigits_decimalDigitsRev (m + 1) m
    (lt_trans (Nat.lt_succ_self m) (Nat.lt_pow_self (by norm_num) _))
  rw [← hn, ← hm, h]

theorem digitChar_inj : ∀ a < 10, ∀ b < 10, Char.ofNat (48 + a) = Char.ofNat (48 + b) → a = b := by
  decide

theorem digitChar_isDigit : ∀ a < 10, (Char.ofNat (48 + a)).isDigit = true := by
  decide

theorem map_digitChar_inj : ∀ (l₁ l₂ : List Nat), (∀ d ∈ l₁, d < 10) → (∀ d ∈ l₂, d < 10) →
    l₁.map (fun d => Char.ofNat (48 + d)) = l₂.map (fun d => Char.ofNat (48 + d)) → l₁ = l₂
  | [], [], _, _, _ => rfl
  | [], _ :: _, _, _, h => by simp at h
  | _ :: _, [], _, _, h => by simp at h
  | a :: l₁, b :: l₂, h₁, h₂, h => by
    simp only [List.map_cons, List.cons.injEq] at h
    have hab := digitChar_inj a (h₁ a (List.mem_cons_self _ _)) b (h₂ b (List.mem_cons_self _ _)) h.1
    have := map_digitChar_inj l₁ l₂ (fun d hd => h₁ d (List.mem_cons_of_mem _ hd))
      (fun d hd => h₂ d (List.mem_cons_of_mem _ hd)) h.2
    rw [hab, this]

theorem numberToString_injective {n m : Nat} (h : numberToString n = numberToString m) :
    n = m := by
  unfold numberToString at h
  have h' := map_digitChar_inj _ _
    (fun d hd => decimalDigitsRev_lt (n + 1) n d (List.mem_reverse.1 hd))
    (fun d hd => decimalDigitsRev_lt (m + 1) m d (List.mem_reverse.1 hd)) h
  exact decimalDigitsRev_inj (List.reverse_injective h')

theorem numberToString_isDigit (n : Nat) : ∀ c ∈ numberToString n, c.isDigit = true := by
  intro c hc
  unfold numberToString at hc
  obtain ⟨d, hd, rfl⟩ := List.mem_map.1 hc
  exact digitChar_isDigit d (decimalDigitsRev_lt (n + 1) n d (List.mem_reverse.1 hd))

/-- Two runs of digits, each followed by a non-digit, agree when the whole texts agree. -/
theorem digits_then_sep_inj : ∀ (a b : List Char) (x y : Char) (r₁ r₂ : List Char),
    (∀ c ∈ a, c.isDigit = true) → (∀ c ∈ b, c.isDigit = true) →
    x.isDigit = false → y.isDigit = false →
    a ++ x :: r₁ = b ++ y :: r₂ → a = b ∧ x :: r₁ = y :: r₂
  | [], [], _, _, _, _, _, _, _, _, h => ⟨rfl, by simpa using h⟩
  | [], c :: b, x, _, _, _, _, hb, hx, _, h => by
    simp only [List.nil_append, List.cons_append, List.cons.injEq] at h
    have := hb c (List.mem_cons_self _ _)
    rw [← h.1, hx] at this; cases this
  | c :: a, [], _, y, _, _, ha, _, _, hy, h => by
    simp only [List.nil_append, List.cons_append, List.cons.injEq] at h
    have := ha c (List.mem_cons_self _ _)
    rw [h.1, hy] at this; cases this
  | c :: a, d :: b, x, y, r₁, r₂, ha, hb, hx, hy, h => by
    simp only [List.cons_append, List.cons.injEq] at h
    obtain ⟨hab, hr⟩ := digits_then_sep_inj a b x y r₁ r₂
      (fun c hc => ha c (List.mem_cons_of_mem _ hc))
      (fun c hc => hb c (List.mem_cons_of_mem _ hc)) hx hy h.2
    exact ⟨by rw [h.1, hab], hr⟩

theorem playerJSON_inj {p q : NormalizedPlayer} {r₁ r₂ : List Char}
    (h : playerJSON p ++ r₁ = playerJSON q ++ r₂) : p = q ∧ r₁ = r₂ := by
  unfold playerJSON at h
  simp only [List.append_assoc] at h
  have h1 := List.append_cancel_left h
  obtain ⟨hname, h2⟩ := quoteJSONString_inj h1
  have h3 := List.append_cancel_left h2
  obtain ⟨hdig, hr⟩ := digits_then_sep_inj _ _ _ _ _ _ (numberToString_isDigit p.t)
    (numberToString_isDigit q.t) (by decide) (by decide) h3
  have ht := numberToString_injective hdig
  refine ⟨?_, by simpa using hr⟩
  cases p; cases q; simp_all

theorem arrayTailJSON_inj : ∀ (l₁ l₂ : List NormalizedPlayer) (r₁ r₂ : List Char),
    arrayTailJSON l₁ ++ r₁ = arrayTailJSON l₂ ++ r₂ → l₁ = l₂ ∧ r₁ = r₂
  | [], [], _, _, h => by simpa [arrayTailJSON] using h
  | [], _ :: _, _, _, h => by simp [arrayTailJSON] at h
  | _ :: _, [], _, _, h => by simp [arrayTailJSON] at h
  | p :: l₁, q :: l₂, r₁, r₂, h => by
    simp only [arrayTailJSON, List.cons_append, List.cons.injEq, true_and,
      List.append_assoc] at h
    obtain ⟨hpq, hrest⟩ := playerJSON_inj h
    obtain ⟨hl, hr⟩ := arrayTailJSON_inj l₁ l₂ r₁ r₂ hrest
    exact ⟨by rw [hpq, hl], hr⟩

theorem playersJSON_inj {l₁ l₂ : List NormalizedPlayer} {r₁ r₂ : List Char}
    (h : playersJSON l₁ ++ r₁ = playersJSON l₂ ++ r₂) : l₁ = l₂ ∧ r₁ = r₂ := by
  cases l₁ with
  | nil =>
    cases l₂ with
    | nil => simpa [playersJSON] using h
    | cons q l₂ => simp [playersJSON, playerJSON] at h
  | cons p l₁ =>
    cases l₂ with
    | nil => simp [playersJSON, playerJSON] at h
    | cons q l₂ =>
      simp only [playersJSON, List.cons_append, List.cons.injEq, true_and,
        List.append_assoc] at h
      obtain ⟨hpq, hrest⟩ := playerJSON_inj h
      obtain ⟨hl, hr⟩ := arrayTailJSON_inj l₁ l₂ r₁ r₂ hrest
      exact ⟨by rw [hpq, hl], hr⟩

/-- The serialized payload determines every one of its four components. -/
theorem payloadJSON_inj {v₁ v₂ voice₁ voice₂ : String} {rate₁ rate₂ : Nat}
    {l₁ l₂ : List NormalizedPlayer}
    (h : payloadJSON v₁ voice₁ rate₁ l₁ = payloadJSON v₂ voice₂ rate₂ l₂) :
    v₁ = v₂ ∧ voice₁ = voice₂ ∧ rate₁ = rate₂ ∧ l₁ = l₂ := by
  unfold payloadJSON at h
  have h0 := congrArg String.data h
  simp only [List.append_assoc] at h0
  have h1 := List.append_cancel_left h0
  obtain ⟨hv, h2⟩ := quoteJSONString_inj h1
  have h3 := List.append_cancel_left h2
  obtain ⟨hvoice, h4⟩ := quoteJSONString_inj h3
  have h5 := List.append_cancel_left h4
  obtain ⟨hdig, h6⟩ := digits_then_sep_inj _ _ _ _ _ _ (numberToString_isDigit rate₁)
    (numberToString_isDigit rate₂) (by decide) (by decide) h5
  have h7 : playersJSON l₁ ++ "\x7d".data = playersJSON l₂ ++ "\x7d".data :=
    List.append_cancel_left (show ",\x22players\x22:".data ++ _ = ",\x22players\x22:".data ++ _ from h6)
  exact ⟨hv, hvoice, numberToString_injective hdig, (playersJSON_inj h7).1⟩

/-! ## Countdown fingerprint: determinism -/

/-- A sample payload: participants are listed by offset, a line feed in a name is escaped. -/
theorem cacheKeyPayload_sample : cacheKeyPayload ordinalCompare
    [⟨"B", 1, 2, 5, 3⟩, ⟨"A", 1, 1, 8, 0⟩, ⟨"C\n", 1, 1, 8, 12⟩] =
    "\x7b\x22v\x22:\x22sync-v3\x22,\x22voice\x22:\x22Samantha\x22,\x22rate\x22:170,\x22players\x22:[\x7b\x22name\x22:\x22A\x22,\x22t\x22:0\x7d,\x7b\x22name\x22:\x22B\x22,\x22t\x22:3\x7d,\x7b\x22name\x22:\x22C\\n\x22,\x22t\x22:12\x7d]\x7d" := by
  decide

theorem normalized_perm (localeCompare : String → String → Int) (players : List Player) :
    (normalized localeCompare players).Perm (players.map normalizePlayer) :=
  List.perm_insertionSort _ _

theorem sortLE_iff (localeCompare : String → String → Int) (a b : NormalizedPlayer) :
    sortLE localeCompare a b ↔ a.t < b.t ∨ (a.t = b.t ∧ localeCompare a.name b.name ≤ 0) := by
  unfold sortLE compareFn
  split_ifs with h
  · constructor
    · intro h'; left; omega
    · rintro (h' | ⟨h', -⟩)
      · omega
      · omega
  · have : a.t = b.t := by omega
    constructor
    · intro h'; exact Or.inr ⟨this, h'⟩
    · rintro (h' | ⟨-, h'⟩)
      · omega
      · exact h'

/-- Order-independence of the cache key for a comparator that is a total order on names:
total, transitive, and returning a tie only for identical strings. -/
theorem buildCountdownCacheKey_perm_invariant (localeCompare : String → String → Int)
    (digest : String → String)
    (htotal : ∀ a b, localeCompare a b ≤ 0 ∨ localeCompare b a ≤ 0)
    (htrans : ∀ a b c, localeCompare a b ≤ 0 → localeCompare b c ≤ 0 → localeCompare a c ≤ 0)
    (hsep : ∀ a b, localeCompare a b ≤ 0 → localeCompare b a ≤ 0 → a = b)
    (ps ps' : List Player)
    (h : (ps'.map normalizePlayer : Multiset NormalizedPlayer) = ps.map normalizePlayer) :
    buildCountdownCacheKey localeCompare digest ps' =
      buildCountdownCacheKey localeCompare digest ps := by
  haveI : IsTotal NormalizedPlayer (sortLE localeCompare) := ⟨fun a b => by
    simp only [sortLE_iff]
    rcases Nat.lt_trichotomy a.t b.t with h | h | h
    · exact Or.inl (Or.inl h)
    · rcases htotal a.name b.name with h' | h'
      · exact Or.inl (Or.inr ⟨h, h'⟩)
      · exact Or.inr (Or.inr ⟨h.symm, h'⟩)
    · exact Or.inr (Or.inl h)⟩
  haveI : IsTrans NormalizedPlayer (sortLE localeCompare) := ⟨fun a b c => by
    simp only [sortLE_iff]
    rintro (h₁ | ⟨h₁, h₁'⟩) (h₂ | ⟨h₂, h₂'⟩)
    · exact Or.inl (by omega)
    · exact Or.inl (by omega)
    · exact Or.inl (by omega)
    · exact Or.inr ⟨by omega, htrans _ _ _ h₁' h₂'⟩⟩
  haveI : IsAntisymm NormalizedPlayer (sortLE localeCompare) := ⟨fun a b => by
    simp only [sortLE_iff]
    rintro (h₁ | ⟨h₁, h₁'⟩) (h₂ | ⟨h₂, h₂'⟩)
    · omega
    · omega
    · omega
    · have := hsep _ _ h₁' h₂'
      cases a; cases b; simp_all⟩
  have hperm : (normalized localeCompare ps').Perm (normalized localeCompare ps) :=
    ((normalized_perm localeCompare ps').trans (Multiset.coe_eq_coe.1 h)).trans
      (normalized_perm localeCompare ps).symm
  have hsorted : normalized localeCompare ps' = normalized localeCompare ps :=
    List.eq_of_perm_of_sorted hperm (List.sorted_insertionSort _ _)
      (List.sorted_insertionSort _ _)
  unfold buildCountdownCacheKey cacheKeyPayload
  rw [hsorted]

theorem compareCodePoints_total : ∀ (a b : List Char),
    compareCodePoints a b ≤ 0 ∨ compareCodePoints b a ≤ 0
  | [], [] => by simp [compareCodePoints]
  | [], _ :: _ => by simp [compareCodePoints]
  | _ :: _, [] => by simp [compareCodePoints]
  | a :: as, b :: bs => by
    have ih := compareCodePoints_total as bs
    simp only [compareCodePoints]
    split_ifs <;> omega

theorem compareCodePoints_sep : ∀ (a b : List Char),
    compareCodePoints a b ≤ 0 → compareCodePoints b a ≤ 0 → a = b
  | [], [] => fun _ _ => rfl
  | [], _ :: _ => by simp [compareCodePoints]
  | _ :: _, [] => by simp [compareCodePoints]
  | a :: as, b :: bs => by
    have ih := compareCodePoints_sep as bs
    simp only [compareCodePoints]
    split_ifs with h₁ h₂ h₃
    all_goals first
      | omega
      | (intro h h'
         have hab : a = b := char_eq_of_toNat_eq (by omega)
         rw [hab, ih h h'])

theorem compareCodePoints_trans : ∀ (a b c : List Char),
    compareCodePoints a b ≤ 0 → compareCodePoints b c ≤ 0 → compareCodePoints a c ≤ 0
  | [], [], [] => by simp [compareCodePoints]
  | [], [], _ :: _ => by simp [compareCodePoints]
  | [], _ :: _, [] => by simp [compareCodePoints]
  | [], _ :: _, _ :: _ => by simp [compareCodePoints]
  | _ :: _, [], _ => by simp [compareCodePoints]
  | _ :: _, _ :: _, [] => by
    simp only [compareCodePoints]
    split_ifs <;> simp
  | a :: as, b :: bs, c :: cs => by
    have ih := compareCodePoints_trans as bs cs
    simp only [compareCodePoints]
    split_ifs <;> omega

/-- With code-point comparison of names the cache key does not depend on the input order. -/
theorem buildCountdownCacheKey_perm_invariant_ordinal (digest : String → String)
    (ps ps' : List Player)
    (h : (ps'.map normalizePlayer : Multiset NormalizedPlayer) = ps.map normalizePlayer) :
    buildCountdownCacheKey ordinalCompare digest ps' =
      buildCountdownCacheKey ordinalCompare digest ps :=
  buildCountdownCacheKey_perm_invariant ordinalCompare digest
    (fun a b => compareCodePoints_total a.data b.data)
    (fun a b c => compareCodePoints_trans a.data b.data c.data)
    (fun a b h₁ h₂ => String.ext (compareCodePoints_sep a.data b.data h₁ h₂)) ps ps' h

/-- C1 (failing input): two participants with the same offset whose names are the two
canonically equivalent spellings of "é". A `localeCompare` that reports a tie between the two
spellings, as ECMA-262 requires for canonically equivalent strings, leaves them in input order,
so the two orderings of the same participants get different payloads and different keys. -/
theorem C1_tied_names_keep_input_order (localeCompare : String → String → Int)
    (digest : String → String) (hinj : Function.Injective digest)
    (h₁ : localeCompare eAcuteComposed eAcuteDecomposed = 0)
    (h₂ : localeCompare eAcuteDecomposed eAcuteComposed = 0) :
    ((tiedPlayers.reverse.map normalizePlayer : Multiset NormalizedPlayer) =
        tiedPlayers.map normalizePlayer) ∧
      normalized localeCompare tiedPlayers = tiedPlayers.map normalizePlayer ∧
      normalized localeCompare tiedPlayers.reverse = tiedPlayers.reverse.map normalizePlayer ∧
      buildCountdownCacheKey localeCompare digest tiedPlayers.reverse ≠
        buildCountdownCacheKey localeCompare digest tiedPlayers := by
  have e₁ : normalized localeCompare tiedPlayers = tiedPlayers.map normalizePlayer := by
    simp [normalized, tiedPlayers, normalizePlayer, List.insertionSort, List.orderedInsert,
      sortLE, compareFn, h₁]
  have e₂ : normalized localeCompare tiedPlayers.reverse =
      tiedPlayers.reverse.map normalizePlayer := by
    simp [normalized, tiedPlayers, normalizePlayer, List.insertionSort, List.orderedInsert,
      sortLE, compareFn, h₂]
  refine ⟨?_, e₁, e₂, ?_⟩
  · rw [Multiset.coe_eq_coe, List.map_reverse]
    exact List.reverse_perm _
  · intro hkey
    have hpay := hinj hkey
    unfold cacheKeyPayload at hpay
    have := (payloadJSON_inj hpay).2.2.2
    rw [e₁, e₂] at this
    revert this
    decide

theorem C1_tied_names_keep_input_order_witness :
    buildCountdownCacheKey canonicalCompare id tiedPlayers.reverse ≠
      buildCountdownCacheKey canonicalCompare id tiedPlayers :=
  (C1_tied_names_keep_input_order canonicalCompare id Function.injective_id
    (by decide) (by decide)).2.2.2

/-- C2: participant lists whose multisets of `(name, attackStartTime)` pairs differ have
different serialized payloads, and so different cache keys under an injective digest. -/
theorem C2_distinct_multisets_distinct_keys (localeCompare : String → String → Int)
    (digest : String → String) (hinj : Function.Injective digest) (ps ps' : List Player)
    (h : (ps.map normalizePlayer : Multiset NormalizedPlayer) ≠ ps'.map normalizePlayer) :
    cacheKeyPayload localeCompare ps ≠ cacheKeyPayload localeCompare ps' ∧
      buildCountdownCacheKey localeCompare digest ps ≠
        buildCountdownCacheKey localeCompare digest ps' := by
  have hpay : cacheKeyPayload localeCompare ps ≠ cacheKeyPayload localeCompare ps' := by
    intro hpay
    apply h
    have hn : normalized localeCompare ps = normalized localeCompare ps' :=
      (payloadJSON_inj hpay).2.2.2
    rw [Multiset.coe_eq_coe]
    exact ((normalized_perm localeCompare ps).symm.trans (hn ▸ List.Perm.refl _)).trans
      (normalized_perm localeCompare ps')
  exact ⟨hpay, fun hkey => hpay (hinj hkey)⟩

theorem C2_distinct_multisets_distinct_keys_witness :
    cacheKeyPayload ordinalCompare [⟨"A", 1, 1, 8, 0⟩, ⟨"B", 1, 2, 5, 3⟩] ≠
        cacheKeyPayload ordinalCompare [⟨"A", 1, 1, 8, 0⟩, ⟨"B", 1, 2, 5, 4⟩] ∧
      buildCountdownCacheKey ordinalCompare id [⟨"A", 1, 1, 8, 0⟩, ⟨"B", 1, 2, 5, 3⟩] ≠
        buildCountdownCacheKey ordinalCompare id [⟨"A", 1, 1, 8, 0⟩, ⟨"B", 1, 2, 5, 4⟩] :=
  C2_distinct_multisets_distinct_keys ordinalCompare id Function.injective_id _ _
    (by rw [Ne, Multiset.coe_eq_coe]; decide)

/-! ## Reasoning about method bodies -/

theorem TTS.bind_apply {α β : Type} (m : TTS α) (f : α → TTS β) (s : TTSService) :
    (m >>= f) s = match m s with
      | (.ok a, s₁) => f a s₁
      | (.error e, s₁) => (.error e, s₁) := rfl

theorem TTS.pure_apply {α : Type} (a : α) (s : TTSService) :
    (pure a : TTS α) s = (.ok a, s) := rfl

theorem TTS.bind_eq_ok {α β : Type} {m : TTS α} {f : α → TTS β} {s s' : TTSService} {b : β}
    (h : (m >>= f) s = (.ok b, s')) : ∃ a s₁, m s = (.ok a, s₁) ∧ f a s₁ = (.ok b, s') := by
  rw [TTS.bind_apply] at h
  split at h
  · next a s₁ hm => exact ⟨a, s₁, hm, h⟩
  · simp at h

theorem TTS.bind_of_ok {α β : Type} {m : TTS α} {f : α → TTS β} {s s₁ : TTSService} {a : α}
    (h : m s = (.ok a, s₁)) : (m >>= f) s = f a s₁ := by
  rw [TTS.bind_apply, h]

theorem TTS.bind_of_error {α β : Type} {m : TTS α} {f : α → TTS β} {s s₁ : TTSService}
    {e : Err} (h : m s = (.error e, s₁)) : (m >>= f) s = (.error e, s₁) := by
  rw [TTS.bind_apply, h]

theorem keeps_bind {α β γ : Type} {g : TTSService → γ} {m : TTS α} {f : α → TTS β}
    (hm : Keeps g m) (hf : ∀ a, Keeps g (f a)) : Keeps g (m >>= f) := by
  intro s
  rw [TTS.bind_apply]
  have h₁ := hm s
  split
  · next a s₁ heq =>
    rw [heq] at h₁
    exact (hf a s₁).trans h₁
  · next e s₁ heq =>
    rw [heq] at h₁
    exact h₁

theorem keeps_pure {α γ : Type} {g : TTSService → γ} (a : α) : Keeps g (pure a : TTS α) :=
  fun _ => rfl

theorem keeps_ite {α γ : Type} {g : TTSService → γ} {c : Prop} [Decidable c] {m₁ m₂ : TTS α}
    (h₁ : Keeps g m₁) (h₂ : Keeps g m₂) : Keeps g (if c then m₁ else m₂) := by
  split
  · exact h₁
  · exact h₂

theorem Keeps.of_eq {α γ : Type} {g : TTSService → γ} {m : TTS α} {s s' : TTSService}
    {r : Except Err α} (hm : Keeps g m) (h : m s = (r, s')) : g s' = g s := by
  have := hm s
  rw [h] at this
  exact this

theorem keeps_existsSync {γ : Type} (g : TTSService → γ) (path : String) :
    Keeps g (existsSync path) := fun _ => rfl

theorem keeps_throwErr {α γ : Type} (g : TTSService → γ) (e : Err) :
    Keeps g (throwErr e : TTS α) := fun _ => rfl

theorem keeps_numberLibraryGet {γ : Type} (g : TTSService → γ) (i : Nat) :
    Keeps g (numberLibraryGet i) := fun _ => rfl

theorem keeps_audioCacheGet {γ : Type} (g : TTSService → γ) (key : String) :
    Keeps g (audioCacheGet key) := fun _ => rfl

theorem keeps_presentOnDisk {γ : Type} (g : TTSService → γ) (path : Option String) :
    Keeps g (presentOnDisk path) := by
  cases path with
  | none => exact fun _ => rfl
  | some p =>
    unfold presentOnDisk
    exact keeps_ite (keeps_pure _) (keeps_existsSync g p)

theorem hostFree_audioCache : HostFree TTSService.audioCache := fun _ _ _ _ => rfl
theorem hostFree_numberLibrary : HostFree TTSService.numberLibrary := fun _ _ _ _ => rfl
theorem hostFree_libraryInitialized : HostFree TTSService.libraryInitialized :=
  fun _ _ _ _ => rfl

theorem keeps_unlinkSync {γ : Type} {g : TTSService → γ} (hg : HostFree g) (path : String) :
    Keeps g (unlinkSync path) := fun s => hg s _ s.calls s.writes

theorem keeps_writeFileSync {γ : Type} {g : TTSService → γ} (hg : HostFree g)
    (path text : String) : Keeps g (writeFileSync path text) := fun s => hg s _ s.calls _

theorem keeps_run {γ : Type} {g : TTSService → γ} (hg : HostFree g) (backendOk : Nat → Bool)
    (cmd : Cmd) : Keeps g (run backendOk cmd) := by
  intro s
  unfold run
  split
  · exact hg s _ _ s.writes
  · exact hg s _ _ s.writes

theorem keeps_cleanupFallback {γ : Type} {g : TTSService → γ}
    (hunlink : ∀ path, Keeps g (unlinkSync path)) (ts : Nat) :
    ∀ numberFiles, Keeps g (cleanupFallback ts numberFiles)
  | [] => keeps_pure _
  | f :: fs => by
    unfold cleanupFallback
    refine keeps_bind ?_ (fun _ => keeps_cleanupFallback hunlink ts fs)
    split
    · exact hunlink f
    · exact keeps_pure _

theorem keeps_numberLoop {γ : Type} {g : TTSService → γ} (backendOk : Nat → Bool)
    (hrun : ∀ cmd, Keeps g (run backendOk cmd)) (hunlink : ∀ path, Keeps g (unlinkSync path))
    (ts : Nat) : ∀ count i numberFiles, Keeps g (numberLoop backendOk ts count i numberFiles)
  | 0, _, _ => keeps_pure _
  | count + 1, i, numberFiles => by
    unfold numberLoop
    refine keeps_bind (keeps_numberLibraryGet g i) fun numberFile => ?_
    refine keeps_bind (keeps_presentOnDisk g numberFile) fun present => ?_
    split
    · exact keeps_numberLoop backendOk hrun hunlink ts count _ _
    · refine keeps_bind (hrun _) fun _ => ?_
      refine keeps_bind (hrun _) fun _ => ?_
      exact keeps_bind (hunlink _) fun _ => keeps_numberLoop backendOk hrun hunlink ts count _ _

theorem keeps_writes_run (backendOk : Nat → Bool) (cmd : Cmd) :
    Keeps TTSService.writes (run backendOk cmd) := by
  intro s
  unfold run
  split <;> rfl

theorem keeps_writes_unlinkSync (path : String) : Keeps TTSService.writes (unlinkSync path) :=
  fun _ => rfl

theorem keeps_calls_unlinkSync (path : String) : Keeps TTSService.calls (unlinkSync path) :=
  fun _ => rfl

theorem keeps_calls_writeFileSync (path text : String) :
    Keeps TTSService.calls (writeFileSync path text) := fun _ => rfl

theorem cacheFree_numberLibrary : CacheFree TTSService.numberLibrary := fun _ _ => rfl
theorem cacheFree_libraryInitialized : CacheFree TTSService.libraryInitialized :=
  fun _ _ => rfl
theorem cacheFree_writes : CacheFree TTSService.writes := fun _ _ => rfl
theorem cacheFree_calls : CacheFree TTSService.calls := fun _ _ => rfl
theorem cacheFree_files : CacheFree TTSService.files := fun _ _ => rfl

theorem keeps_audioCacheSet {γ : Type} {g : TTSService → γ} (hg : CacheFree g)
    (key path : String) : Keeps g (audioCacheSet key path) := fun s => hg s _

/-- The part of `generateOnMiss` that precedes `audioCache.set` leaves every component alone
that the file and backend operations leave alone. -/
theorem keeps_generateOnMiss {γ : Type} {g : TTSService → γ} (hg : HostFree g)
    (hc : CacheFree g) (backendOk : Nat → Bool) (cacheKey : String) (players : List Player)
    (ts : Nat) : Keeps g (generateOnMiss backendOk cacheKey players ts) := by
  have hrun : ∀ cmd, Keeps g (run backendOk cmd) := keeps_run hg backendOk
  have hunlink : ∀ path, Keeps g (unlinkSync path) := keeps_unlinkSync hg
  unfold generateOnMiss
  split
  · exact keeps_throwErr _ _
  · refine keeps_bind (hrun _) fun _ => ?_
    refine keeps_bind (keeps_numberLoop _ hrun hunlink _ _ _ _) fun numberFiles => ?_
    refine keeps_bind (hrun _) fun _ => ?_
    refine keeps_bind (hrun _) fun _ => ?_
    refine keeps_bind (hunlink _) fun _ => ?_
    refine keeps_bind (hrun _) fun _ => ?_
    refine keeps_bind (hunlink _) fun _ => ?_
    refine keeps_bind (keeps_writeFileSync hg _ _) fun _ => ?_
    refine keeps_bind (hrun _) fun _ => ?_
    refine keeps_bind (hunlink _) fun _ => ?_
    refine keeps_bind (hunlink _) fun _ => ?_
    refine keeps_bind (hunlink _) fun _ => ?_
    refine keeps_bind (keeps_cleanupFallback hunlink _ _) fun _ => ?_
    exact keeps_bind (keeps_audioCacheSet hc _ _) fun _ => keeps_pure _

theorem libraryFree_audioCache : LibraryFree TTSService.audioCache := fun _ _ => rfl
theorem libraryFree_libraryInitialized : LibraryFree TTSService.libraryInitialized :=
  fun _ _ => rfl
theorem libraryFree_writes : LibraryFree TTSService.writes := fun _ _ => rfl

theorem keeps_numberLibrarySet {γ : Type} {g : TTSService → γ} (hg : LibraryFree g) (i : Nat)
    (path : String) : Keeps g (numberLibrarySet i path) := fun s => hg s _

theorem keeps_initializeLoop {γ : Type} {g : TTSService → γ} (backendOk : Nat → Bool)
    (hrun : ∀ cmd, Keeps g (run backendOk cmd)) (hunlink : ∀ path, Keeps g (unlinkSync path))
    (hl : LibraryFree g) : ∀ count i, Keeps g (initializeLoop backendOk count i)
  | 0, _ => keeps_pure _
  | count + 1, i => by
    unfold initializeLoop
    refine keeps_bind (keeps_existsSync g _) fun present => ?_
    refine keeps_bind ?_ fun _ => keeps_initializeLoop backendOk hrun hunlink hl count _
    split
    · exact keeps_numberLibrarySet hl _ _
    · refine keeps_bind (hrun _) fun _ => ?_
      refine keeps_bind (hrun _) fun _ => ?_
      exact keeps_bind (hunlink _) fun _ => keeps_numberLibrarySet hl _ _

theorem keeps_writes_initializeNumberLibrary (backendOk : Nat → Bool) :
    Keeps TTSService.writes (initializeNumberLibrary backendOk) := by
  intro s
  unfold initializeNumberLibrary
  split
  · rfl
  · exact (keeps_bind (keeps_initializeLoop backendOk (keeps_writes_run backendOk)
      keeps_writes_unlinkSync libraryFree_writes 200 1) (fun _ _ => rfl)) s

theorem keeps_audioCache_initializeNumberLibrary (backendOk : Nat → Bool) :
    Keeps TTSService.audioCache (initializeNumberLibrary backendOk) := by
  intro s
  unfold initializeNumberLibrary
  split
  · rfl
  · exact (keeps_bind (keeps_initializeLoop backendOk (keeps_run hostFree_audioCache backendOk)
      (keeps_unlinkSync hostFree_audioCache) libraryFree_audioCache 200 1) (fun _ _ => rfl)) s

theorem initializeNumberLibrary_of_initialized (backendOk : Nat → Bool) (s : TTSService)
    (h : s.libraryInitialized = true) : initializeNumberLibrary backendOk s = (.ok (), s) := by
  unfold initializeNumberLibrary
  rw [if_pos h]

theorem initializeNumberLibrary_ok (backendOk : Nat → Bool) (s s' : TTSService) (u : Unit)
    (h : initializeNumberLibrary backendOk s = (.ok u, s')) : s'.libraryInitialized = true := by
  unfold initializeNumberLibrary at h
  split at h
  · next hinit =>
    simp only [Prod.mk.injEq] at h
    rw [← h.2]; exact hinit
  · obtain ⟨_, s₁, _, h₂⟩ := TTS.bind_eq_ok h
    simp only [Prod.mk.injEq] at h₂
    rw [← h₂.2]

/-! ### Backend failures end the method -/

theorem traced_of_keeps {α : Type} {backendOk : Nat → Bool} {m : TTS α}
    (h : Keeps TTSService.calls m) : Traced backendOk m := by
  intro s
  refine ⟨[], by rw [h s, List.append_nil], ?_⟩
  intro k cmd hk
  simp at hk

theorem traced_bind {α β : Type} {backendOk : Nat → Bool} {m : TTS α} {f : α → TTS β}
    (hm : Traced backendOk m) (hf : ∀ a, Traced backendOk (f a)) :
    Traced backendOk (m >>= f) := by
  intro s
  obtain ⟨n₁, h₁, h₁'⟩ := hm s
  rw [TTS.bind_apply]
  split
  · next a s₁ heq =>
    rw [heq] at h₁ h₁'
    simp only at h₁ h₁'
    obtain ⟨n₂, h₂, h₂'⟩ := hf a s₁
    refine ⟨n₁ ++ n₂, by rw [h₂, h₁, List.append_assoc], ?_⟩
    intro k cmd hk hfail
    by_cases hlt : k < n₁.length
    · rw [List.getElem?_append_left hlt] at hk
      have := h₁' k cmd hk hfail
      simp at this
    · have hle : n₁.length ≤ k := Nat.le_of_not_lt hlt
      rw [List.getElem?_append_right hle] at hk
      apply h₂' (k - n₁.length) cmd hk
      rw [h₁, List.length_append]
      rw [← hfail]
      congr 1
      omega
  · next e s₁ heq =>
    rw [heq] at h₁ h₁'
    refine ⟨n₁, h₁, fun k cmd hk hfail => ?_⟩
    have := h₁' k cmd hk hfail
    simp only [Except.error.injEq] at this
    simp only [this]

theorem traced_run (backendOk : Nat → Bool) (cmd : Cmd) : Traced backendOk (run backendOk cmd) := by
  intro s
  refine ⟨[cmd], ?_, ?_⟩
  · unfold run; split <;> rfl
  · intro k c hk hfail
    cases k with
    | zero =>
      simp only [List.getElem?_cons_zero, Option.some.injEq] at hk
      subst hk
      unfold run
      rw [Nat.add_zero] at hfail
      simp [hfail]
    | succ k => simp at hk

theorem traced_initializeLoop (backendOk : Nat → Bool) :
    ∀ count i, Traced backendOk (initializeLoop backendOk count i)
  | 0, _ => traced_of_keeps (keeps_pure _)
  | count + 1, i => by
    unfold initializeLoop
    refine traced_bind (traced_of_keeps (keeps_existsSync _ _)) fun present => ?_
    refine traced_bind ?_ fun _ => traced_initializeLoop backendOk count _
    split
    · exact traced_of_keeps (fun _ => rfl)
    · refine traced_bind (traced_run _ _) fun _ => ?_
      refine traced_bind (traced_run _ _) fun _ => ?_
      exact traced_bind (traced_of_keeps (keeps_calls_unlinkSync _)) fun _ =>
        traced_of_keeps (fun _ => rfl)

theorem traced_initializeNumberLibrary (backendOk : Nat → Bool) :
    Traced backendOk (initializeNumberLibrary backendOk) := by
  intro s
  unfold initializeNumberLibrary
  split
  · exact ⟨[], by simp, by simp⟩
  · exact (traced_bind (traced_initializeLoop backendOk 200 1)
      (fun _ => traced_of_keeps (fun _ => rfl))) s

theorem traced_numberLoop (backendOk : Nat → Bool) (ts : Nat) :
    ∀ count i numberFiles, Traced backendOk (numberLoop backendOk ts count i numberFiles)
  | 0, _, _ => traced_of_keeps (keeps_pure _)
  | count + 1, i, numberFiles => by
    unfold numberLoop
    refine traced_bind (traced_of_keeps (keeps_numberLibraryGet _ _)) fun numberFile => ?_
    refine traced_bind (traced_of_keeps (keeps_presentOnDisk _ _)) fun present => ?_
    split
    · exact traced_numberLoop backendOk ts count _ _
    · refine traced_bind (traced_run _ _) fun _ => ?_
      refine traced_bind (traced_run _ _) fun _ => ?_
      exact traced_bind (traced_of_keeps (keeps_calls_unlinkSync _)) fun _ =>
        traced_numberLoop backendOk ts count _ _

theorem traced_generateOnMiss (backendOk : Nat → Bool) (cacheKey : String)
    (players : List Player) (ts : Nat) :
    Traced backendOk (generateOnMiss backendOk cacheKey players ts) := by
  unfold generateOnMiss
  split
  · exact traced_of_keeps (keeps_throwErr _ _)
  · refine traced_bind (traced_run _ _) fun _ => ?_
    refine traced_bind (traced_numberLoop _ _ _ _ _) fun numberFiles => ?_
    refine traced_bind (traced_run _ _) fun _ => ?_
    refine traced_bind (traced_run _ _) fun _ => ?_
    refine traced_bind (traced_of_keeps (keeps_calls_unlinkSync _)) fun _ => ?_
    refine traced_bind (traced_run _ _) fun _ => ?_
    refine traced_bind (traced_of_keeps (keeps_calls_unlinkSync _)) fun _ => ?_
    refine traced_bind (traced_of_keeps (keeps_calls_writeFileSync _ _)) fun _ => ?_
    refine traced_bind (traced_run _ _) fun _ => ?_
    refine traced_bind (traced_of_keeps (keeps_calls_unlinkSync _)) fun _ => ?_
    refine traced_bind (traced_of_keeps (keeps_calls_unlinkSync _)) fun _ => ?_
    refine traced_bind (traced_of_keeps (keeps_calls_unlinkSync _)) fun _ => ?_
    refine traced_bind (traced_of_keeps (keeps_cleanupFallback keeps_calls_unlinkSync _ _)) fun _ => ?_
    exact traced_bind (traced_of_keeps (fun _ => rfl)) fun _ => traced_of_keeps (keeps_pure _)

theorem traced_generateSynchronizedCountdown (localeCompare : String → String → Int)
    (digest : String → String) (backendOk : Nat → Bool) (players : List Player)
    (totalDuration ts : Nat) :
    Traced backendOk
      (generateSynchronizedCountdown localeCompare digest backendOk players totalDuration ts) := by
  unfold generateSynchronizedCountdown
  refine traced_bind (traced_initializeNumberLibrary _) fun _ => ?_
  refine traced_bind (traced_of_keeps (keeps_audioCacheGet _ _)) fun cachedPath => ?_
  refine traced_bind (traced_of_keeps (keeps_presentOnDisk _ _)) fun present => ?_
  split
  · exact traced_of_keeps (keeps_pure _)
  · exact traced_generateOnMiss _ _ _ _

/-! ### The artifact cache is written last -/

theorem cacheSafe_of_keeps {α : Type} {m : TTS α} (h : Keeps TTSService.audioCache m) :
    CacheSafe m := fun s _ _ => h s

theorem cacheSafe_bind {α β : Type} {m : TTS α} {f : α → TTS β}
    (hm : Keeps TTSService.audioCache m) (hf : ∀ a, CacheSafe (f a)) :
    CacheSafe (m >>= f) := by
  intro s e
  rw [TTS.bind_apply]
  have h₁ := hm s
  split
  · next a s₁ heq =>
    rw [heq] at h₁
    intro herr
    exact (hf a s₁ e herr).trans h₁
  · next e' s₁ heq =>
    rw [heq] at h₁
    exact fun _ => h₁

theorem cacheSafe_generateOnMiss (backendOk : Nat → Bool) (cacheKey : String)
    (players : List Player) (ts : Nat) :
    CacheSafe (generateOnMiss backendOk cacheKey players ts) := by
  have hrun : ∀ cmd, Keeps TTSService.audioCache (run backendOk cmd) :=
    keeps_run hostFree_audioCache backendOk
  have hunlink : ∀ path, Keeps TTSService.audioCache (unlinkSync path) :=
    keeps_unlinkSync hostFree_audioCache
  unfold generateOnMiss
  split
  · exact cacheSafe_of_keeps (keeps_throwErr _ _)
  · refine cacheSafe_bind (hrun _) fun _ => ?_
    refine cacheSafe_bind (keeps_numberLoop _ hrun hunlink _ _ _ _) fun numberFiles => ?_
    refine cacheSafe_bind (hrun _) fun _ => ?_
    refine cacheSafe_bind (hrun _) fun _ => ?_
    refine cacheSafe_bind (hunlink _) fun _ => ?_
    refine cacheSafe_bind (hrun _) fun _ => ?_
    refine cacheSafe_bind (hunlink _) fun _ => ?_
    refine cacheSafe_bind (keeps_writeFileSync hostFree_audioCache _ _) fun _ => ?_
    refine cacheSafe_bind (hrun _) fun _ => ?_
    refine cacheSafe_bind (hunlink _) fun _ => ?_
    refine cacheSafe_bind (hunlink _) fun _ => ?_
    refine cacheSafe_bind (hunlink _) fun _ => ?_
    refine cacheSafe_bind (keeps_cleanupFallback hunlink _ _) fun _ => ?_
    intro s e herr
    simp [TTS.bind_apply, audioCacheSet, TTS.pure_apply] at herr

theorem cacheSafe_generateSynchronizedCountdown (localeCompare : String → String → Int)
    (digest : String → String) (backendOk : Nat → Bool) (players : List Player)
    (totalDuration ts : Nat) :
    CacheSafe
      (generateSynchronizedCountdown localeCompare digest backendOk players totalDuration ts) := by
  unfold generateSynchronizedCountdown
  refine cacheSafe_bind (keeps_audioCache_initializeNumberLibrary _) fun _ => ?_
  refine cacheSafe_bind (keeps_audioCacheGet _ _) fun cachedPath => ?_
  refine cacheSafe_bind (keeps_presentOnDisk _ _) fun present => ?_
  split
  · exact cacheSafe_of_keeps (keeps_pure _)
  · exact cacheSafe_generateOnMiss _ _ _ _

theorem setsCache_bind {α : Type} {cacheKey path : String} {m : TTS α}
    {f : α → TTS AudioResource} (hm : Keeps TTSService.audioCache m)
    (hf : ∀ a, SetsCache cacheKey path (f a)) : SetsCache cacheKey path (m >>= f) := by
  intro s r s' h
  obtain ⟨a, s₁, h₁, h₂⟩ := TTS.bind_eq_ok h
  have := hf a s₁ r s' h₂
  rw [hm.of_eq h₁] at this
  exact this

theorem setsCache_generateOnMiss (backendOk : Nat → Bool) (cacheKey : String)
    (players : List Player) (ts : Nat) :
    SetsCache cacheKey (outputFile cacheKey) (generateOnMiss backendOk cacheKey players ts) := by
  have hrun : ∀ cmd, Keeps TTSService.audioCache (run backendOk cmd) :=
    keeps_run hostFree_audioCache backendOk
  have hunlink : ∀ path, Keeps TTSService.audioCache (unlinkSync path) :=
    keeps_unlinkSync hostFree_audioCache
  unfold generateOnMiss
  split
  · intro s r s' h
    simp [throwErr] at h
  · refine setsCache_bind (hrun _) fun _ => ?_
    refine setsCache_bind (keeps_numberLoop _ hrun hunlink _ _ _ _) fun numberFiles => ?_
    refine setsCache_bind (hrun _) fun _ => ?_
    refine setsCache_bind (hrun _) fun _ => ?_
    refine setsCache_bind (hunlink _) fun _ => ?_
    refine setsCache_bind (hrun _) fun _ => ?_
    refine setsCache_bind (hunlink _) fun _ => ?_
    refine setsCache_bind (keeps_writeFileSync hostFree_audioCache _ _) fun _ => ?_
    refine setsCache_bind (hrun _) fun _ => ?_
    refine setsCache_bind (hunlink _) fun _ => ?_
    refine setsCache_bind (hunlink _) fun _ => ?_
    refine setsCache_bind (hunlink _) fun _ => ?_
    refine setsCache_bind (keeps_cleanupFallback hunlink _ _) fun _ => ?_
    intro s r s' h
    simp only [TTS.bind_apply, audioCacheSet, TTS.pure_apply, Prod.mk.injEq,
      Except.ok.injEq] at h
    obtain ⟨hr, hs⟩ := h
    subst hr hs
    exact ⟨rfl, rfl⟩

/-! ### Maps -/

theorem mapHas_eq_true_iff {κ ν : Type} [DecidableEq κ] (m : List (κ × ν)) (k : κ) :
    mapHas m k = true ↔ ∃ v, (k, v) ∈ m := by
  unfold mapHas
  simp only [List.any_eq_true, decide_eq_true_eq]
  constructor
  · rintro ⟨⟨k', v⟩, hmem, rfl⟩
    exact ⟨v, hmem⟩
  · rintro ⟨v, hmem⟩
    exact ⟨(k, v), hmem, rfl⟩

theorem mapGet_map_set {κ ν : Type} [DecidableEq κ] (k : κ) (v : ν) :
    ∀ (m : List (κ × ν)), mapHas m k = true →
      mapGet (m.map (fun e => if e.1 = k then (k, v) else e)) k = some v
  | [], h => by simp [mapHas] at h
  | e :: m, h => by
    by_cases he : e.1 = k
    · simp [mapGet, he]
    · have h' : mapHas m k = true := by
        simpa [mapHas, he] using h
      have ih := mapGet_map_set k v m h'
      simpa [mapGet, he] using ih

theorem mapGet_append_new {κ ν : Type} [DecidableEq κ] (k : κ) (v : ν) :
    ∀ (m : List (κ × ν)), mapHas m k = false → mapGet (m ++ [(k, v)]) k = some v
  | [], _ => by simp [mapGet]
  | e :: m, h => by
    have he : ¬ e.1 = k := by
      intro he; simp [mapHas, he] at h
    have h' : mapHas m k = false := by
      simpa [mapHas, he] using h
    have ih := mapGet_append_new k v m h'
    simpa [mapGet, he] using ih

theorem mapGet_mapSet_self {κ ν : Type} [DecidableEq κ] (m : List (κ × ν)) (k : κ) (v : ν) :
    mapGet (mapSet m k v) k = some v := by
  unfold mapSet
  split
  · next h => exact mapGet_map_set k v m h
  · next h => exact mapGet_append_new k v m (by simpa using h)

theorem mapHas_of_mapGet {κ ν : Type} [DecidableEq κ] (m : List (κ × ν)) (k : κ) (v : ν)
    (h : mapGet m k = some v) : mapHas m k = true := by
  unfold mapGet at h
  unfold mapHas
  cases hf : m.find? (fun e => decide (e.1 = k)) with
  | none => simp [hf] at h
  | some e =>
    rw [List.any_eq_true]
    have hk := List.find?_some hf
    exact ⟨e, List.mem_of_find?_eq_some hf, hk⟩

theorem mapGet_eq_none_of_not_has {κ ν : Type} [DecidableEq κ] (m : List (κ × ν)) (k : κ)
    (h : mapHas m k = false) : mapGet m k = none := by
  cases hg : mapGet m k with
  | none => rfl
  | some v => rw [mapHas_of_mapGet m k v hg] at h; cases h

theorem mapHas_mapSet_self {κ ν : Type} [DecidableEq κ] (m : List (κ × ν)) (k : κ) (v : ν) :
    mapHas (mapSet m k v) k = true :=
  mapHas_of_mapGet _ _ _ (mapGet_mapSet_self m k v)

theorem mapHas_mapDelete_self {κ ν : Type} [DecidableEq κ] (m : List (κ × ν)) (k : κ) :
    mapHas (mapDelete m k) k = false := by
  unfold mapHas mapDelete
  rw [Bool.eq_false_iff]
  intro h
  rw [List.any_eq_true] at h
  obtain ⟨e, he, hk⟩ := h
  have := (List.mem_filter.1 he).2
  simp_all

theorem mapDelete_of_not_has {κ ν : Type} [DecidableEq κ] (m : List (κ × ν)) (k : κ)
    (h : mapHas m k = false) : mapDelete m k = m := by
  unfold mapDelete
  rw [List.filter_eq_self]
  intro e he
  by_cases hk : e.1 = k
  · have : mapHas m k = true := by
      unfold mapHas
      rw [List.any_eq_true]
      exact ⟨e, he, by simpa using hk⟩
    rw [this] at h; cases h
  · simpa using hk

/-! ### Cache hits -/

theorem presentOnDisk_apply (path : Option String) (s : TTSService) :
    presentOnDisk path s =
      (.ok (match path with
        | none => false
        | some p => !decide (p = "") && decide (p ∈ s.files)), s) := by
  cases path with
  | none => rfl
  | some p =>
    unfold presentOnDisk
    by_cases hp : p = ""
    · simp [hp, TTS.pure_apply]
    · simp [hp, existsSync]

theorem outputFile_ne_empty (cacheKey : String) : outputFile cacheKey ≠ "" := by
  intro h
  have := congrArg String.length h
  simp only [outputFile, pathJoin, tempDir, String.length_append] at this
  have h4 : "temp".length = 4 := by decide
  have h0 : "".length = 0 := by decide
  omega

/-- A call on an initialized service whose cache holds an existing file for the key returns
that file and changes nothing. -/
theorem generateSynchronizedCountdown_hit (localeCompare : String → String → Int)
    (digest : String → String) (backendOk : Nat → Bool) (players : List Player)
    (totalDuration ts : Nat) (s : TTSService) (path : String)
    (hinit : s.libraryInitialized = true)
    (hget : mapGet s.audioCache (buildCountdownCacheKey localeCompare digest players) = some path)
    (hne : path ≠ "") (hfile : path ∈ s.files) :
    generateSynchronizedCountdown localeCompare digest backendOk players totalDuration ts s =
      (.ok { path := path }, s) := by
  unfold generateSynchronizedCountdown
  rw [TTS.bind_of_ok (initializeNumberLibrary_of_initialized backendOk s hinit)]
  rw [TTS.bind_of_ok (show audioCacheGet _ s = (.ok (some path), s) by
    unfold audioCacheGet; rw [hget])]
  rw [TTS.bind_of_ok (presentOnDisk_apply (some path) s)]
  simp [hne, hfile, TTS.pure_apply]

/-- What a successful call leaves behind: an initialized library and a non-empty cached path
for the key, the path of the returned resource. -/
theorem generateSynchronizedCountdown_ok (localeCompare : String → String → Int)
    (digest : String → String) (backendOk : Nat → Bool) (players : List Player)
    (totalDuration ts : Nat) (s s' : TTSService) (r : AudioResource)
    (h : generateSynchronizedCountdown localeCompare digest backendOk players totalDuration ts s
      = (.ok r, s')) :
    s'.libraryInitialized = true ∧ r.path ≠ "" ∧
      mapGet s'.audioCache (buildCountdownCacheKey localeCompare digest players) = some r.path := by
  unfold generateSynchronizedCountdown at h
  obtain ⟨u, s₀, h₀, h⟩ := TTS.bind_eq_ok h
  have hinit := initializeNumberLibrary_ok backendOk s s₀ u h₀
  obtain ⟨cachedPath, s₁, h₁, h⟩ := TTS.bind_eq_ok h
  simp only [audioCacheGet, Prod.mk.injEq, Except.ok.injEq] at h₁
  obtain ⟨hc, rfl⟩ := h₁
  obtain ⟨present, s₂, h₂, h⟩ := TTS.bind_eq_ok h
  rw [presentOnDisk_apply] at h₂
  simp only [Prod.mk.injEq, Except.ok.injEq] at h₂
  obtain ⟨hp, rfl⟩ := h₂
  split at h
  · next hpres =>
    simp only [TTS.pure_apply, Prod.mk.injEq, Except.ok.injEq] at h
    obtain ⟨rfl, rfl⟩ := h
    subst hp
    rw [hc]
    cases cachedPath with
    | none => simp at hpres
    | some p =>
      simp only [Bool.and_eq_true, Bool.not_eq_true', decide_eq_false_iff_not,
        decide_eq_true_eq] at hpres
      exact ⟨hinit, hpres.1, rfl⟩
  · obtain ⟨hpath, hcache⟩ := setsCache_generateOnMiss _ _ _ _ _ _ _ h
    refine ⟨?_, ?_, ?_⟩
    · rw [(keeps_generateOnMiss hostFree_libraryInitialized cacheFree_libraryInitialized
        _ _ _ _).of_eq h]
      exact hinit
    · rw [hpath]; exact outputFile_ne_empty _
    · rw [hcache, hpath]; exact mapGet_mapSet_self _ _ _

/-! ### Methods that cannot fail while the backend works -/

theorem succeeds_bind {α β : Type} {m : TTS α} {f : α → TTS β} (hm : Succeeds m)
    (hf : ∀ a, Succeeds (f a)) : Succeeds (m >>= f) := by
  intro s
  obtain ⟨a, ha⟩ := hm s
  rw [TTS.bind_apply]
  split
  · next a' s₁ heq => exact hf a' s₁
  · next e s₁ heq => rw [heq] at ha; cases ha

theorem succeeds_pure {α : Type} (a : α) : Succeeds (pure a : TTS α) := fun _ => ⟨a, rfl⟩

theorem succeeds_run {backendOk : Nat → Bool} (hok : ∀ n, backendOk n = true) (cmd : Cmd) :
    Succeeds (run backendOk cmd) := by
  intro s
  refine ⟨(), ?_⟩
  unfold run
  rw [if_pos (hok _)]

theorem succeeds_presentOnDisk (path : Option String) : Succeeds (presentOnDisk path) :=
  fun s => ⟨_, by rw [presentOnDisk_apply]⟩

theorem succeeds_initializeLoop {backendOk : Nat → Bool} (hok : ∀ n, backendOk n = true) :
    ∀ count i, Succeeds (initializeLoop backendOk count i)
  | 0, _ => succeeds_pure _
  | count + 1, i => by
    unfold initializeLoop
    refine succeeds_bind (fun _ => ⟨_, rfl⟩) fun present => ?_
    refine succeeds_bind ?_ fun _ => succeeds_initializeLoop hok count _
    split
    · exact fun _ => ⟨_, rfl⟩
    · refine succeeds_bind (succeeds_run hok _) fun _ => ?_
      refine succeeds_bind (succeeds_run hok _) fun _ => ?_
      exact succeeds_bind (fun _ => ⟨_, rfl⟩) fun _ => fun _ => ⟨_, rfl⟩

theorem succeeds_initializeNumberLibrary {backendOk : Nat → Bool}
    (hok : ∀ n, backendOk n = true) : Succeeds (initializeNumberLibrary backendOk) := by
  intro s
  unfold initializeNumberLibrary
  split
  · exact ⟨_, rfl⟩
  · exact (succeeds_bind (succeeds_initializeLoop hok 200 1) (fun _ _ => ⟨_, rfl⟩)) s

theorem succeeds_numberLoop {backendOk : Nat → Bool} (hok : ∀ n, backendOk n = true)
    (ts : Nat) : ∀ count i numberFiles, Succeeds (numberLoop backendOk ts count i numberFiles)
  | 0, _, _ => succeeds_pure _
  | count + 1, i, numberFiles => by
    unfold numberLoop
    refine succeeds_bind (fun _ => ⟨_, rfl⟩) fun numberFile => ?_
    refine succeeds_bind (succeeds_presentOnDisk _) fun present => ?_
    split
    · exact succeeds_numberLoop hok ts count _ _
    · refine succeeds_bind (succeeds_run hok _) fun _ => ?_
      refine succeeds_bind (succeeds_run hok _) fun _ => ?_
      exact succeeds_bind (fun _ => ⟨_, rfl⟩) fun _ => succeeds_numberLoop hok ts count _ _

theorem succeeds_cleanupFallback (ts : Nat) :
    ∀ numberFiles, Succeeds (cleanupFallback ts numberFiles)
  | [] => succeeds_pure _
  | f :: fs => by
    unfold cleanupFallback
    refine succeeds_bind ?_ fun _ => succeeds_cleanupFallback ts fs
    split
    · exact fun _ => ⟨_, rfl⟩
    · exact succeeds_pure _

theorem firstPlayer_isSome {players : List Player} (h : players ≠ []) :
    ∃ first, firstPlayer players = some first := by
  unfold firstPlayer
  split
  · next p _ => exact ⟨p, rfl⟩
  · cases players with
    | nil => exact absurd rfl h
    | cons p ps => exact ⟨p, rfl⟩

theorem succeeds_generateOnMiss {backendOk : Nat → Bool} (hok : ∀ n, backendOk n = true)
    (cacheKey : String) {players : List Player} (hne : players ≠ []) (ts : Nat) :
    Succeeds (generateOnMiss backendOk cacheKey players ts) := by
  obtain ⟨first, hfirst⟩ := firstPlayer_isSome hne
  unfold generateOnMiss
  rw [hfirst]
  refine succeeds_bind (succeeds_run hok _) fun _ => ?_
  refine succeeds_bind (succeeds_numberLoop hok _ _ _ _) fun numberFiles => ?_
  refine succeeds_bind (succeeds_run hok _) fun _ => ?_
  refine succeeds_bind (succeeds_run hok _) fun _ => ?_
  refine succeeds_bind (fun _ => ⟨_, rfl⟩) fun _ => ?_
  refine succeeds_bind (succeeds_run hok _) fun _ => ?_
  refine succeeds_bind (fun _ => ⟨_, rfl⟩) fun _ => ?_
  refine succeeds_bind (fun _ => ⟨_, rfl⟩) fun _ => ?_
  refine succeeds_bind (succeeds_run hok _) fun _ => ?_
  refine succeeds_bind (fun _ => ⟨_, rfl⟩) fun _ => ?_
  refine succeeds_bind (fun _ => ⟨_, rfl⟩) fun _ => ?_
  refine succeeds_bind (fun _ => ⟨_, rfl⟩) fun _ => ?_
  refine succeeds_bind (succeeds_cleanupFallback _ _) fun _ => ?_
  exact succeeds_bind (fun _ => ⟨_, rfl⟩) fun _ => succeeds_pure _

theorem succeeds_generateSynchronizedCountdown (localeCompare : String → String → Int)
    (digest : String → String) {backendOk : Nat → Bool} (hok : ∀ n, backendOk n = true)
    {players : List Player} (hne : players ≠ []) (totalDuration ts : Nat) :
    Succeeds
      (generateSynchronizedCountdown localeCompare digest backendOk players totalDuration ts) := by
  unfold generateSynchronizedCountdown
  refine succeeds_bind (succeeds_initializeNumberLibrary hok) fun _ => ?_
  refine succeeds_bind (fun _ => ⟨_, rfl⟩) fun cachedPath => ?_
  refine succeeds_bind (succeeds_presentOnDisk _) fun present => ?_
  split
  · exact succeeds_pure _
  · exact succeeds_generateOnMiss hok _ hne _

/-! ### The warm-up comes first -/

theorem calls_bind_extends {α β : Type} (backendOk : Nat → Bool) (m : TTS α) (f : α → TTS β)
    (hf : ∀ a, Traced backendOk (f a)) (s : TTSService) :
    ∃ new, ((m >>= f) s).2.calls = (m s).2.calls ++ new := by
  rw [TTS.bind_apply]
  split
  · next a s₁ heq =>
    obtain ⟨new, h, _⟩ := hf a s₁
    exact ⟨new, by rw [h, heq]⟩
  · next e s₁ heq => exact ⟨[], by rw [heq, List.append_nil]⟩

theorem run_calls (backendOk : Nat → Bool) (cmd : Cmd) (s : TTSService) :
    (run backendOk cmd s).2.calls = s.calls ++ [cmd] := by
  unfold run
  split <;> rfl

/-- On a service that is not initialized and lacks the clip of numeral 1, the warm-up starts
by invoking `say` for that numeral. -/
theorem initializeNumberLibrary_first_call (backendOk : Nat → Bool) (s : TTSService)
    (hinit : s.libraryInitialized = false) (hfile : libraryFile 1 ∉ s.files) :
    ∃ rest, (initializeNumberLibrary backendOk s).2.calls =
      s.calls ++ Cmd.say (libraryRawFile 1) (numStr 1 ++ ".") :: rest := by
  unfold initializeNumberLibrary
  rw [if_neg (by simp [hinit])]
  obtain ⟨n₁, h₁⟩ := calls_bind_extends backendOk
    (initializeLoop backendOk 200 1)
    (fun _ => fun s₁ => (Except.ok (), { s₁ with libraryInitialized := true }))
    (fun _ => traced_of_keeps (fun _ => rfl)) s
  rw [h₁, initializeLoop]
  rw [TTS.bind_of_ok (show existsSync (libraryFile 1) s = (.ok false, s) by
    simp [existsSync, hfile])]
  obtain ⟨n₂, h₂⟩ := calls_bind_extends backendOk
    (if false = true then numberLibrarySet 1 (libraryFile 1)
     else do
      run backendOk (.say (libraryRawFile 1) (numStr 1 ++ "."))
      run backendOk (.ffmpegSecond (libraryRawFile 1) (libraryFile 1))
      unlinkSync (libraryRawFile 1)
      numberLibrarySet 1 (libraryFile 1))
    (fun _ => initializeLoop backendOk 199 (1 + 1))
    (fun _ => traced_initializeLoop backendOk 199 _) s
  rw [h₂]
  simp only [Bool.false_eq_true, if_false]
  obtain ⟨n₃, h₃⟩ := calls_bind_extends backendOk
    (run backendOk (.say (libraryRawFile 1) (numStr 1 ++ ".")))
    (fun _ => do
      run backendOk (.ffmpegSecond (libraryRawFile 1) (libraryFile 1))
      unlinkSync (libraryRawFile 1)
      numberLibrarySet 1 (libraryFile 1))
    (fun _ => traced_bind (traced_run _ _) fun _ =>
      traced_bind (traced_of_keeps (keeps_calls_unlinkSync _)) fun _ =>
        traced_of_keeps (fun _ => rfl)) s
  rw [h₃, run_calls]
  exact ⟨n₃ ++ n₂ ++ n₁, by simp⟩

theorem generateOnMiss_nil (backendOk : Nat → Bool) (cacheKey : String) (ts : Nat)
    (s : TTSService) :
    generateOnMiss backendOk cacheKey [] ts s = (.error undefinedNameError, s) := rfl

/-! ## Countdown audio engine: cache and failure behaviour -/

/-- C3: after a successful call whose output file is still present, a call with a
fingerprint-equal participant list returns the same artifact and leaves the whole state as
it is: no backend invocation is added to `calls`, `audioCache` and the files are unchanged.
This holds whatever the backend would answer during the second call. -/
theorem C3_second_call_served_from_cache (localeCompare : String → String → Int)
    (digest : String → String) (backendOk backendOk' : Nat → Bool) (ps ps' : List Player)
    (d d' ts ts' : Nat) (s : TTSService) (r : AudioResource)
    (hfirst : (generateSynchronizedCountdown localeCompare digest backendOk ps d ts s).1 = .ok r)
    (hkey : buildCountdownCacheKey localeCompare digest ps' =
      buildCountdownCacheKey localeCompare digest ps)
    (hfile : r.path ∈
      (generateSynchronizedCountdown localeCompare digest backendOk ps d ts s).2.files) :
    generateSynchronizedCountdown localeCompare digest backendOk' ps' d' ts'
        (generateSynchronizedCountdown localeCompare digest backendOk ps d ts s).2 =
      (.ok r, (generateSynchronizedCountdown localeCompare digest backendOk ps d ts s).2) := by
  have hpair : generateSynchronizedCountdown localeCompare digest backendOk ps d ts s =
      (.ok r, (generateSynchronizedCountdown localeCompare digest backendOk ps d ts s).2) :=
    Prod.ext hfirst rfl
  obtain ⟨hinit, hne, hget⟩ := generateSynchronizedCountdown_ok _ _ _ _ _ _ _ _ _ hpair
  rw [← hkey] at hget
  exact generateSynchronizedCountdown_hit localeCompare digest backendOk' ps' d' ts' _ r.path
    hinit hget hne hfile

theorem C3_second_call_served_from_cache_witness :
    generateSynchronizedCountdown ordinalCompare id (fun _ => false) demoPlayers.reverse 9 1800
        servedService =
      (.ok { path := outputFile (buildCountdownCacheKey ordinalCompare id demoPlayers) },
        servedService) :=
  C3_second_call_served_from_cache ordinalCompare id (fun _ => true) (fun _ => false)
    demoPlayers demoPlayers.reverse 5 9 1700 1800 warmService
    { path := outputFile (buildCountdownCacheKey ordinalCompare id demoPlayers) }
    (by decide!) (by decide!) (by decide!)

/-- C7: if an invocation issued during the call is failed by the backend, the call ends with
the error of that invocation, and `audioCache` is what it was before the call. -/
theorem C7_backend_failure_aborts_without_caching (localeCompare : String → String → Int)
    (digest : String → String) (backendOk : Nat → Bool) (players : List Player)
    (d ts : Nat) (s : TTSService) (n : Nat)
    (hissued : s.calls.length ≤ n ∧
      n < (generateSynchronizedCountdown localeCompare digest backendOk players d ts s).2.calls.length)
    (hfail : backendOk n = false) :
    (∃ cmd,
      (generateSynchronizedCountdown localeCompare digest backendOk players d ts s).2.calls[n]?
          = some cmd ∧
        (generateSynchronizedCountdown localeCompare digest backendOk players d ts s).1
          = .error (.backend cmd)) ∧
      (generateSynchronizedCountdown localeCompare digest backendOk players d ts s).2.audioCache
        = s.audioCache := by
  obtain ⟨new, hcalls, hnew⟩ :=
    traced_generateSynchronizedCountdown localeCompare digest backendOk players d ts s
  have hlen : n - s.calls.length < new.length := by
    have := hissued.2
    rw [hcalls, List.length_append] at this
    omega
  have hget : new[n - s.calls.length]? = some (new[n - s.calls.length]) :=
    List.getElem?_eq_getElem hlen
  have herr := hnew _ _ hget (by rw [Nat.add_sub_cancel' hissued.1]; exact hfail)
  refine ⟨⟨new[n - s.calls.length], ?_, herr⟩, ?_⟩
  · rw [hcalls, List.getElem?_append_right hissued.1]
    exact hget
  · exact cacheSafe_generateSynchronizedCountdown _ _ _ _ _ _ s _ herr

theorem C7_backend_failure_aborts_without_caching_witness :
    (∃ cmd,
      (generateSynchronizedCountdown ordinalCompare id (fun n => decide (n ≠ 1)) demoPlayers 5
          1700 warmService).2.calls[1]? = some cmd ∧
        (generateSynchronizedCountdown ordinalCompare id (fun n => decide (n ≠ 1)) demoPlayers 5
          1700 warmService).1 = .error (.backend cmd)) ∧
      (generateSynchronizedCountdown ordinalCompare id (fun n => decide (n ≠ 1)) demoPlayers 5
          1700 warmService).2.audioCache = warmService.audioCache :=
  C7_backend_failure_aborts_without_caching ordinalCompare id (fun n => decide (n ≠ 1))
    demoPlayers 5 1700 warmService 1 (by decide!) (by decide)

/-- C6 (counterexample): on a fresh service with a working backend, a call with the empty
participant list ends with the `TypeError` of the missing first participant, and by then the
library warm-up has invoked the backend: the first invocation is `say` for numeral 1. -/
theorem C6_warmup_precedes_rejection :
    (generateSynchronizedCountdown ordinalCompare id (fun _ => true) [] 5 1700
        (TTSService.new [])).1 = .error undefinedNameError ∧
      (generateSynchronizedCountdown ordinalCompare id (fun _ => true) [] 5 1700
        (TTSService.new [])).2.calls.head? = some (.say (libraryRawFile 1) "1.") := by
  obtain ⟨u, hu⟩ :=
    (succeeds_initializeNumberLibrary (fun _ => rfl) :
      Succeeds (initializeNumberLibrary (fun _ => true))) (TTSService.new [])
  obtain ⟨rest, hrest⟩ := initializeNumberLibrary_first_call (fun _ => true) (TTSService.new [])
    rfl (by simp [TTSService.new])
  have hcache := keeps_audioCache_initializeNumberLibrary (fun _ => true) (TTSService.new [])
  generalize hinit : initializeNumberLibrary (fun _ => true) (TTSService.new []) = out at *
  obtain ⟨res, s₀⟩ := out
  simp only at hu hrest hcache
  subst hu
  have hget : mapGet s₀.audioCache (buildCountdownCacheKey ordinalCompare id []) = none := by
    rw [hcache]; rfl
  unfold generateSynchronizedCountdown
  rw [TTS.bind_of_ok hinit]
  rw [TTS.bind_of_ok (show audioCacheGet _ s₀ = (.ok none, s₀) by
    unfold audioCacheGet; rw [hget])]
  rw [TTS.bind_of_ok (presentOnDisk_apply none s₀)]
  simp only [Bool.false_eq_true, if_false, generateOnMiss_nil]
  have e : numStr 1 ++ "." = "1." := by decide
  rw [hrest, e]
  exact ⟨trivial, rfl⟩

/-- C6 (amended): when nothing is cached under the key of the empty list, a call with the
empty participant list ends with an error and leaves exactly the state the library warm-up
leaves: after the warm-up no invocation is made and nothing is written. The error is the
warm-up's error if the warm-up fails and the `TypeError` of reading the name of the missing
first participant otherwise. `audioCache` is unchanged. -/
theorem C6_empty_list_fails_after_warmup (localeCompare : String → String → Int)
    (digest : String → String) (backendOk : Nat → Bool) (d ts : Nat) (s : TTSService)
    (hmiss : mapGet s.audioCache (buildCountdownCacheKey localeCompare digest []) = none) :
    (generateSynchronizedCountdown localeCompare digest backendOk [] d ts s).2 =
        (initializeNumberLibrary backendOk s).2 ∧
      (generateSynchronizedCountdown localeCompare digest backendOk [] d ts s).2.audioCache =
        s.audioCache ∧
      (generateSynchronizedCountdown localeCompare digest backendOk [] d ts s).1 =
        (match (initializeNumberLibrary backendOk s).1 with
          | .ok _ => .error undefinedNameError
          | .error e => .error e) := by
  have hcache := keeps_audioCache_initializeNumberLibrary backendOk s
  generalize hinit : initializeNumberLibrary backendOk s = out at *
  obtain ⟨res, s₀⟩ := out
  simp only at hcache
  unfold generateSynchronizedCountdown
  cases res with
  | error e =>
    rw [TTS.bind_of_error hinit]
    exact ⟨rfl, hcache, rfl⟩
  | ok u =>
    have hget : mapGet s₀.audioCache (buildCountdownCacheKey localeCompare digest []) = none := by
      rw [hcache]; exact hmiss
    rw [TTS.bind_of_ok hinit]
    rw [TTS.bind_of_ok (show audioCacheGet _ s₀ = (.ok none, s₀) by
      unfold audioCacheGet; rw [hget])]
    rw [TTS.bind_of_ok (presentOnDisk_apply none s₀)]
    simp only [Bool.false_eq_true, if_false, generateOnMiss_nil]
    exact ⟨trivial, hcache, trivial⟩

theorem C6_empty_list_fails_after_warmup_witness :
    (generateSynchronizedCountdown ordinalCompare id (fun _ => true) [] 5 1700 warmService).2 =
        (initializeNumberLibrary (fun _ => true) warmService).2 ∧
      (generateSynchronizedCountdown ordinalCompare id (fun _ => true) [] 5 1700
        warmService).2.audioCache = warmService.audioCache ∧
      (generateSynchronizedCountdown ordinalCompare id (fun _ => true) [] 5 1700 warmService).1 =
        (match (initializeNumberLibrary (fun _ => true) warmService).1 with
          | .ok _ => .error undefinedNameError
          | .error e => .error e) :=
  C6_empty_list_fails_after_warmup ordinalCompare id (fun _ => true) 5 1700 warmService
    (by decide)

/-! ## Countdown audio engine: segment order -/

theorem foldl_max_ge : ∀ (l : List Nat) (init : Nat),
    init ≤ l.foldl max init ∧ ∀ x ∈ l, x ≤ l.foldl max init
  | [], init => ⟨Nat.le_refl _, fun _ h => by simp at h⟩
  | a :: l, init => by
    obtain ⟨h₁, h₂⟩ := foldl_max_ge l (max init a)
    refine ⟨le_trans (le_max_left _ _) h₁, ?_⟩
    intro x hx
    rcases List.mem_cons.1 hx with rfl | hx
    · exact le_trans (le_max_right _ _) h₁
    · exact h₂ x hx

theorem foldl_max_mem : ∀ (l : List Nat) (init : Nat),
    l.foldl max init = init ∨ l.foldl max init ∈ l
  | [], _ => Or.inl rfl
  | a :: l, init => by
    rcases foldl_max_mem l (max init a) with h | h
    · rw [List.foldl_cons, h]
      rcases max_choice init a with h' | h'
      · exact Or.inl h'
      · exact Or.inr (by rw [h']; exact List.mem_cons_self _ _)
    · exact Or.inr (List.mem_cons_of_mem _ h)

theorem le_maxTime (players : List Player) : ∀ p ∈ players, p.attackStartTime ≤ maxTime players :=
  fun _ hp => (foldl_max_ge _ 0).2 _ (List.mem_map_of_mem _ hp)

theorem maxTime_attained {players : List Player} (hne : players ≠ []) :
    ∃ p ∈ players, p.attackStartTime = maxTime players := by
  rcases foldl_max_mem (players.map (fun p => p.attackStartTime)) 0 with h | h
  · cases players with
    | nil => exact absurd rfl hne
    | cons p ps =>
      refine ⟨p, List.mem_cons_self _ _, ?_⟩
      have := le_maxTime (p :: ps) p (List.mem_cons_self _ _)
      unfold maxTime at this ⊢
      omega
  · obtain ⟨p, hp, hpt⟩ := List.mem_map.1 h
    exact ⟨p, hp, hpt⟩

/-- The files the numeral loop collects on success: one per numeral, in ascending order,
each the library clip of its numeral or the fallback segment generated for it. -/
theorem numberLoop_ok (backendOk : Nat → Bool) (ts : Nat) :
    ∀ (count i : Nat) (acc : List String) (s s' : TTSService) (numberFiles : List String),
      numberLoop backendOk ts count i acc s = (.ok numberFiles, s') →
      ∃ new, numberFiles = acc ++ new ∧ new.length = count ∧
        ∀ j, j < count → ∃ f, new[j]? = some f ∧
          (mapGet s.numberLibrary (i + j) = some f ∨ f = segFile (i + j) ts)
  | 0, i, acc, s, s', numberFiles, h => by
    simp only [numberLoop, TTS.pure_apply, Prod.mk.injEq, Except.ok.injEq] at h
    exact ⟨[], by rw [← h.1, List.append_nil], rfl, fun j hj => absurd hj (Nat.not_lt_zero _)⟩
  | count + 1, i, acc, s, s', numberFiles, h => by
    unfold numberLoop at h
    obtain ⟨numberFile, s₁, h₁, h⟩ := TTS.bind_eq_ok h
    simp only [numberLibraryGet, Prod.mk.injEq, Except.ok.injEq] at h₁
    obtain ⟨hfile, rfl⟩ := h₁
    obtain ⟨present, s₂, h₂, h⟩ := TTS.bind_eq_ok h
    rw [presentOnDisk_apply] at h₂
    simp only [Prod.mk.injEq, Except.ok.injEq] at h₂
    obtain ⟨hpresent, rfl⟩ := h₂
    split at h
    · next hp =>
      obtain ⟨new, hnew, hlen, hall⟩ := numberLoop_ok backendOk ts count (i + 1) _ _ _ _ h
      refine ⟨numberFile.getD "" :: new, by rw [hnew]; simp, by simp [hlen], ?_⟩
      intro j hj
      cases j with
      | zero =>
        refine ⟨numberFile.getD "", by simp, Or.inl ?_⟩
        rw [Nat.add_zero, hfile]
        cases numberFile with
        | none => rw [← hpresent] at hp; simp at hp
        | some path => rfl
      | succ j =>
        obtain ⟨f, hf, hor⟩ := hall j (by omega)
        refine ⟨f, by simpa using hf, ?_⟩
        rw [show i + (j + 1) = i + 1 + j by omega]
        exact hor
    · obtain ⟨_, s₃, h₃, h⟩ := TTS.bind_eq_ok h
      obtain ⟨_, s₄, h₄, h⟩ := TTS.bind_eq_ok h
      obtain ⟨_, s₅, h₅, h⟩ := TTS.bind_eq_ok h
      have hlib : s₅.numberLibrary = s.numberLibrary := by
        rw [(keeps_unlinkSync hostFree_numberLibrary _).of_eq h₅,
          (keeps_run hostFree_numberLibrary _ _).of_eq h₄,
          (keeps_run hostFree_numberLibrary _ _).of_eq h₃]
      obtain ⟨new, hnew, hlen, hall⟩ := numberLoop_ok backendOk ts count (i + 1) _ _ _ _ h
      refine ⟨segFile i ts :: new, by rw [hnew]; simp, by simp [hlen], ?_⟩
      intro j hj
      cases j with
      | zero => exact ⟨segFile i ts, by simp, Or.inr rfl⟩
      | succ j =>
        obtain ⟨f, hf, hor⟩ := hall j (by omega)
        refine ⟨f, by simpa using hf, ?_⟩
        rw [show i + (j + 1) = i + 1 + j by omega, ← hlib]
        exact hor

/-- What a successful run after a cache miss has written and invoked: the concat list holds
the intro clip, the collected numeral files and the outro clip, in this order, and the last
invocation concatenates that list into the output file. -/
theorem generateOnMiss_ok (backendOk : Nat → Bool) (cacheKey : String) (players : List Player)
    (ts : Nat) (s s' : TTSService) (r : AudioResource)
    (h : generateOnMiss backendOk cacheKey players ts s = (.ok r, s')) :
    ∃ numberFiles : List String,
      s'.writes = s.writes ++
        [(listFile ts, concatListText ([introWav ts] ++ numberFiles ++ [finalWav ts]))] ∧
      s'.calls.getLast? = some (.ffmpegConcat (listFile ts) (outputFile cacheKey)) ∧
      numberFiles.length = maxTime players ∧
      ∀ j, j < maxTime players → ∃ f, numberFiles[j]? = some f ∧
        (mapGet s.numberLibrary (j + 1) = some f ∨ f = segFile (j + 1) ts) := by
  have kw := keeps_writes_run backendOk
  have kwu := keeps_writes_unlinkSync
  have kcu := keeps_calls_unlinkSync
  unfold generateOnMiss at h
  cases hfp : firstPlayer players with
  | none =>
    rw [hfp] at h
    simp [throwErr] at h
  | some first =>
    rw [hfp] at h
    obtain ⟨_, s₁, h₁, h⟩ := TTS.bind_eq_ok h
    obtain ⟨numberFiles, s₂, h₂, h⟩ := TTS.bind_eq_ok h
    obtain ⟨_, s₃, h₃, h⟩ := TTS.bind_eq_ok h
    obtain ⟨_, s₄, h₄, h⟩ := TTS.bind_eq_ok h
    obtain ⟨_, s₅, h₅, h⟩ := TTS.bind_eq_ok h
    obtain ⟨_, s₆, h₆, h⟩ := TTS.bind_eq_ok h
    obtain ⟨_, s₇, h₇, h⟩ := TTS.bind_eq_ok h
    obtain ⟨_, s₈, h₈, h⟩ := TTS.bind_eq_ok h
    obtain ⟨_, s₉, h₉, h⟩ := TTS.bind_eq_ok h
    obtain ⟨_, s₁₀, h₁₀, h⟩ := TTS.bind_eq_ok h
    obtain ⟨_, s₁₁, h₁₁, h⟩ := TTS.bind_eq_ok h
    obtain ⟨_, s₁₂, h₁₂, h⟩ := TTS.bind_eq_ok h
    obtain ⟨_, s₁₃, h₁₃, h⟩ := TTS.bind_eq_ok h
    obtain ⟨_, s₁₄, h₁₄, h⟩ := TTS.bind_eq_ok h
    simp only [TTS.pure_apply, Prod.mk.injEq] at h
    obtain ⟨-, rfl⟩ := h
    obtain ⟨new, hnew, hlen, hall⟩ := numberLoop_ok backendOk ts _ _ _ _ _ _ h₂
    rw [List.nil_append] at hnew
    subst hnew
    refine ⟨numberFiles, ?_, ?_, hlen, ?_⟩
    · have hw₈ : s₈.writes = s₇.writes ++
          [(listFile ts, concatListText ([introWav ts] ++ numberFiles ++ [finalWav ts]))] := by
        simp only [writeFileSync, Prod.mk.injEq] at h₈
        rw [← h₈.2]
      rw [(keeps_audioCacheSet cacheFree_writes _ _).of_eq h₁₄,
        (keeps_cleanupFallback kwu _ _).of_eq h₁₃, (kwu _).of_eq h₁₂, (kwu _).of_eq h₁₁,
        (kwu _).of_eq h₁₀, (kw _).of_eq h₉, hw₈, (kwu _).of_eq h₇, (kw _).of_eq h₆,
        (kwu _).of_eq h₅, (kw _).of_eq h₄, (kw _).of_eq h₃,
        (keeps_numberLoop _ kw kwu _ _ _ _).of_eq h₂, (kw _).of_eq h₁]
    · have hc₉ : s₉.calls = s₈.calls ++ [.ffmpegConcat (listFile ts) (outputFile cacheKey)] := by
        have := run_calls backendOk (.ffmpegConcat (listFile ts) (outputFile cacheKey)) s₈
        rw [h₉] at this
        exact this
      rw [(keeps_audioCacheSet cacheFree_calls _ _).of_eq h₁₄,
        (keeps_cleanupFallback kcu _ _).of_eq h₁₃, (kcu _).of_eq h₁₂, (kcu _).of_eq h₁₁,
        (kcu _).of_eq h₁₀, hc₉]
      simp
    · intro j hj
      obtain ⟨f, hf, hor⟩ := hall j hj
      refine ⟨f, hf, ?_⟩
      rw [Nat.add_comm j 1, ← (keeps_run hostFree_numberLibrary _ _).of_eq h₁]
      exact hor

/-- The numeral loop on success, with its invocations: the files it collects are one per
numeral, in ascending order; each is the library clip registered for its numeral, or the
fallback segment of the numeral, and then the loop has issued the two invocations that make
that segment; the loop issues no other invocation. -/
theorem numberLoop_trace (backendOk : Nat → Bool) (ts : Nat) :
    ∀ (count i : Nat) (acc : List String) (s s' : TTSService) (numberFiles : List String),
      numberLoop backendOk ts count i acc s = (.ok numberFiles, s') →
      ∃ new loopCalls, numberFiles = acc ++ new ∧ new.length = count ∧
        s'.calls = s.calls ++ loopCalls ∧
        (∀ j, j < count → ∃ f, new[j]? = some f ∧
          (mapGet s.numberLibrary (i + j) = some f ∨
            (f = segFile (i + j) ts ∧ fallbackCalls ts (i + j) <:+: loopCalls))) ∧
        ∀ c ∈ loopCalls, ∃ j, i ≤ j ∧ j < i + count ∧ c ∈ fallbackCalls ts j
  | 0, i, acc, s, s', numberFiles, h => by
    simp only [numberLoop, TTS.pure_apply, Prod.mk.injEq, Except.ok.injEq] at h
    refine ⟨[], [], by rw [← h.1, List.append_nil], rfl, by rw [← h.2, List.append_nil],
      fun j hj => absurd hj (Nat.not_lt_zero _), fun c hc => by cases hc⟩
  | count + 1, i, acc, s, s', numberFiles, h => by
    unfold numberLoop at h
    obtain ⟨numberFile, s₁, h₁, h⟩ := TTS.bind_eq_ok h
    simp only [numberLibraryGet, Prod.mk.injEq, Except.ok.injEq] at h₁
    obtain ⟨hfile, rfl⟩ := h₁
    obtain ⟨present, s₂, h₂, h⟩ := TTS.bind_eq_ok h
    rw [presentOnDisk_apply] at h₂
    simp only [Prod.mk.injEq, Except.ok.injEq] at h₂
    obtain ⟨hpresent, rfl⟩ := h₂
    split at h
    · next hp =>
      obtain ⟨new, loopCalls, hnew, hlen, hcalls, hall, hloop⟩ :=
        numberLoop_trace backendOk ts count (i + 1) _ _ _ _ h
      refine ⟨numberFile.getD "" :: new, loopCalls, by rw [hnew]; simp, by simp [hlen],
        hcalls, ?_, ?_⟩
      · intro j hj
        cases j with
        | zero =>
          refine ⟨numberFile.getD "", by simp, Or.inl ?_⟩
          rw [Nat.add_zero, hfile]
          cases numberFile with
          | none => rw [← hpresent] at hp; simp at hp
          | some path => rfl
        | succ j =>
          obtain ⟨f, hf, hor⟩ := hall j (by omega)
          refine ⟨f, by simpa using hf, ?_⟩
          rw [show i + (j + 1) = i + 1 + j by omega]
          exact hor
      · intro c hc
        obtain ⟨j, h₁, h₂, h₃⟩ := hloop c hc
        exact ⟨j, by omega, by omega, h₃⟩
    · obtain ⟨_, s₃, h₃, h⟩ := TTS.bind_eq_ok h
      obtain ⟨_, s₄, h₄, h⟩ := TTS.bind_eq_ok h
      obtain ⟨_, s₅, h₅, h⟩ := TTS.bind_eq_ok h
      have hlib : s₅.numberLibrary = s.numberLibrary := by
        rw [(keeps_unlinkSync hostFree_numberLibrary _).of_eq h₅,
          (keeps_run hostFree_numberLibrary _ _).of_eq h₄,
          (keeps_run hostFree_numberLibrary _ _).of_eq h₃]
      have hc₃ : s₃.calls = s.calls ++ [.say (rawFile i ts) (numStr i ++ ".")] := by
        have := run_calls backendOk (.say (rawFile i ts) (numStr i ++ ".")) s
        rw [h₃] at this
        exact this
      have hc₄ : s₄.calls = s₃.calls ++ [.ffmpegSecond (rawFile i ts) (segFile i ts)] := by
        have := run_calls backendOk (.ffmpegSecond (rawFile i ts) (segFile i ts)) s₃
        rw [h₄] at this
        exact this
      have hc₅ : s₅.calls = s.calls ++ fallbackCalls ts i := by
        rw [(keeps_calls_unlinkSync _).of_eq h₅, hc₄, hc₃, List.append_assoc]
        rfl
      obtain ⟨new, loopCalls, hnew, hlen, hcalls, hall, hloop⟩ :=
        numberLoop_trace backendOk ts count (i + 1) _ _ _ _ h
      refine ⟨segFile i ts :: new, fallbackCalls ts i ++ loopCalls, by rw [hnew]; simp,
        by simp [hlen], by rw [hcalls, hc₅, List.append_assoc], ?_, ?_⟩
      · intro j hj
        cases j with
        | zero =>
          exact ⟨segFile i ts, by simp,
            Or.inr ⟨rfl, (List.prefix_append _ _).isInfix⟩⟩
        | succ j =>
          obtain ⟨f, hf, hor⟩ := hall j (by omega)
          refine ⟨f, by simpa using hf, ?_⟩
          rw [show i + (j + 1) = i + 1 + j by omega, ← hlib]
          rcases hor with hor | ⟨hseg, hinfix⟩
          · exact Or.inl hor
          · exact Or.inr ⟨hseg, hinfix.trans (List.suffix_append _ _).isInfix⟩
      · intro c hc
        rcases List.mem_append.1 hc with hc | hc
        · exact ⟨i, le_refl _, by omega, hc⟩
        · obtain ⟨j, h₁, h₂, h₃⟩ := hloop c hc
          exact ⟨j, by omega, by omega, h₃⟩

/-- A successful run after a cache miss, with its invocations and the text it writes: `say`
speaks the intro script, the numeral loop runs, `say` speaks the outro, ffmpeg re-encodes
outro and intro, and ffmpeg concatenates the list file, whose lines name the intro clip, the
collected numeral files and the outro clip in this order. -/
theorem generateOnMiss_trace (backendOk : Nat → Bool) (cacheKey : String)
    (players : List Player) (ts : Nat) (s s' : TTSService) (r : AudioResource)
    (h : generateOnMiss backendOk cacheKey players ts s = (.ok r, s')) :
    ∃ (first : Player) (numberFiles : List String) (loopCalls : List Cmd),
      firstPlayer players = some first ∧
      s'.writes = s.writes ++
        [(listFile ts, "\n".intercalate
          (([introWav ts] ++ numberFiles ++ [finalWav ts]).map
            (fun f => "file \x27" ++ escapeQuote f ++ "\x27")))] ∧
      s'.calls = s.calls ++ [.say (introFile ts) (introScript first players)] ++ loopCalls ++
        [.say (finalAiff ts) "Sequence complete.", .ffmpegEncode (finalAiff ts) (finalWav ts),
          .ffmpegEncode (introFile ts) (introWav ts),
          .ffmpegConcat (listFile ts) (outputFile cacheKey)] ∧
      numberFiles.length = maxTime players ∧
      (∀ j, j < maxTime players → ∃ f, numberFiles[j]? = some f ∧
        (mapGet s.numberLibrary (j + 1) = some f ∨
          (f = segFile (j + 1) ts ∧ fallbackCalls ts (j + 1) <:+: loopCalls))) ∧
      ∀ c ∈ loopCalls, ∃ j, 1 ≤ j ∧ j ≤ maxTime players ∧ c ∈ fallbackCalls ts j := by
  have kw := keeps_writes_run backendOk
  have kwu := keeps_writes_unlinkSync
  have kcu := keeps_calls_unlinkSync
  have hrun : ∀ (cmd : Cmd) (s₁ s₂ : TTSService) (u : Unit),
      run backendOk cmd s₁ = (.ok u, s₂) → s₂.calls = s₁.calls ++ [cmd] := by
    intro cmd s₁ s₂ u hr
    have := run_calls backendOk cmd s₁
    rw [hr] at this
    exact this
  unfold generateOnMiss at h
  cases hfp : firstPlayer players with
  | none =>
    rw [hfp] at h
    simp [throwErr] at h
  | some first =>
    rw [hfp] at h
    obtain ⟨_, s₁, h₁, h⟩ := TTS.bind_eq_ok h
    obtain ⟨numberFiles, s₂, h₂, h⟩ := TTS.bind_eq_ok h
    obtain ⟨_, s₃, h₃, h⟩ := TTS.bind_eq_ok h
    obtain ⟨_, s₄, h₄, h⟩ := TTS.bind_eq_ok h
    obtain ⟨_, s₅, h₅, h⟩ := TTS.bind_eq_ok h
    obtain ⟨_, s₆, h₆, h⟩ := TTS.bind_eq_ok h
    obtain ⟨_, s₇, h₇, h⟩ := TTS.bind_eq_ok h
    obtain ⟨_, s₈, h₈, h⟩ := TTS.bind_eq_ok h
    obtain ⟨_, s₉, h₉, h⟩ := TTS.bind_eq_ok h
    obtain ⟨_, s₁₀, h₁₀, h⟩ := TTS.bind_eq_ok h
    obtain ⟨_, s₁₁, h₁₁, h⟩ := TTS.bind_eq_ok h
    obtain ⟨_, s₁₂, h₁₂, h⟩ := TTS.bind_eq_ok h
    obtain ⟨_, s₁₃, h₁₃, h⟩ := TTS.bind_eq_ok h
    obtain ⟨_, s₁₄, h₁₄, h⟩ := TTS.bind_eq_ok h
    simp only [TTS.pure_apply, Prod.mk.injEq] at h
    obtain ⟨-, rfl⟩ := h
    obtain ⟨new, loopCalls, hnew, hlen, hcalls, hall, hloop⟩ :=
      numberLoop_trace backendOk ts _ _ _ _ _ _ h₂
    rw [List.nil_append] at hnew
    subst hnew
    refine ⟨first, numberFiles, loopCalls, rfl, ?_, ?_, hlen, ?_, ?_⟩
    · have hw₈ : s₈.writes = s₇.writes ++
          [(listFile ts, concatListText ([introWav ts] ++ numberFiles ++ [finalWav ts]))] := by
        simp only [writeFileSync, Prod.mk.injEq] at h₈
        rw [← h₈.2]
      rw [(keeps_audioCacheSet cacheFree_writes _ _).of_eq h₁₄,
        (keeps_cleanupFallback kwu _ _).of_eq h₁₃, (kwu _).of_eq h₁₂, (kwu _).of_eq h₁₁,
        (kwu _).of_eq h₁₀, (kw _).of_eq h₉, hw₈, (kwu _).of_eq h₇, (kw _).of_eq h₆,
        (kwu _).of_eq h₅, (kw _).of_eq h₄, (kw _).of_eq h₃,
        (keeps_numberLoop _ kw kwu _ _ _ _).of_eq h₂, (kw _).of_eq h₁]
      rfl
    · rw [(keeps_audioCacheSet cacheFree_calls _ _).of_eq h₁₄,
        (keeps_cleanupFallback kcu _ _).of_eq h₁₃, (kcu _).of_eq h₁₂, (kcu _).of_eq h₁₁,
        (kcu _).of_eq h₁₀, hrun _ _ _ _ h₉, (keeps_calls_writeFileSync _ _).of_eq h₈,
        (kcu _).of_eq h₇, hrun _ _ _ _ h₆, (kcu _).of_eq h₅, hrun _ _ _ _ h₄,
        hrun _ _ _ _ h₃, hcalls, hrun _ _ _ _ h₁]
      simp only [List.append_assoc, List.singleton_append, List.cons_append, List.nil_append]
    · intro j hj
      obtain ⟨f, hf, hor⟩ := hall j hj
      refine ⟨f, hf, ?_⟩
      rw [Nat.add_comm j 1, ← (keeps_run hostFree_numberLibrary _ _).of_eq h₁]
      exact hor
    · intro c hc
      obtain ⟨j, h₁', h₂', h₃'⟩ := hloop c hc
      exact ⟨j, h₁', by omega, h₃'⟩

theorem demo_concat_list :
    servedService.writes =
      [(listFile 1700, concatListText
        [introWav 1700, libraryFile 1, libraryFile 2, segFile 3 1700, finalWav 1700])] := by
  decide!

/-! ## Countdown session -/

theorem mapGet_isSome_of_mapHas {κ ν : Type} [DecidableEq κ] (m : List (κ × ν)) (k : κ)
    (h : mapHas m k = true) : ∃ v, mapGet m k = some v := by
  cases hg : mapGet m k with
  | some v => exact ⟨v, rfl⟩
  | none =>
    unfold mapGet at hg
    unfold mapHas at h
    rw [List.any_eq_true] at h
    obtain ⟨e, he, hk⟩ := h
    cases hf : m.find? (fun e => decide (e.1 = k)) with
    | some e' => rw [hf] at hg; cases hg
    | none =>
      have := List.find?_eq_none.1 hf e he
      exact absurd hk this

/-- What a start leaves behind when the guild has a connection and a player and the reply and
the synthesis succeed. -/
theorem startAttackCountdown_arms (localeCompare : String → String → Int)
    (digest : String → String) (backendOk : Nat → Bool) (interaction : Interaction)
    (attackTiming : AttackTiming) (ts : Nat) (vm : VoiceManager) (connection : Connection)
    (audioPlayer : AudioPlayer) (r : AudioResource)
    (hconn : mapGet vm.connections interaction.guildId = some connection)
    (hplayer : mapGet vm.audioPlayers interaction.guildId = some audioPlayer)
    (hreply : interaction.replyOk = true)
    (hgen : (generateSynchronizedCountdown localeCompare digest backendOk attackTiming.players
      attackTiming.totalDuration ts vm.ttsService).1 = .ok r) :
    (startAttackCountdown localeCompare digest backendOk interaction attackTiming ts vm).1
        = .ok () ∧
      (startAttackCountdown localeCompare digest backendOk interaction attackTiming ts
        vm).2.countdownTimers = mapSet vm.countdownTimers interaction.guildId vm.nextTimer ∧
      (startAttackCountdown localeCompare digest backendOk interaction attackTiming ts
        vm).2.pendingTimers = vm.pendingTimers ++
          [⟨vm.nextTimer, interaction.guildId,
            timeoutDelay ((attackTiming.totalDuration + 5) * 1000)⟩] ∧
      (startAttackCountdown localeCompare digest backendOk interaction attackTiming ts
        vm).2.audioPlayers =
          mapSet vm.audioPlayers interaction.guildId (audioPlayer.play r).onceIdle := by
  have hhas : mapHas vm.connections interaction.guildId = true := mapHas_of_mapGet _ _ _ hconn
  generalize hout : generateSynchronizedCountdown localeCompare digest backendOk
    attackTiming.players attackTiming.totalDuration ts vm.ttsService = out at hgen
  obtain ⟨res, tts⟩ := out
  simp only at hgen
  subst hgen
  simp only [startAttackCountdown, hhas, reply, hreply, playSynchronizedCountdown, hconn,
    hplayer, hout, setTimeout, Bool.not_true, Bool.false_eq_true, if_false, if_true, and_self]

/-- C5 (counterexample): guild `guild-1` is Armed with timer 0 stored; a further `/launch`
is not rejected: it succeeds, stores timer 1 in place of timer 0 and gives the audio player
the resource generated for the new timing. -/
theorem C5_start_while_armed_is_accepted :
    isCountdownActive armedManager "guild-1" = true ∧
      mapGet armedManager.countdownTimers "guild-1" = some 0 ∧
      (mapGet armedManager.audioPlayers "guild-1").map AudioPlayer.resource =
        some (some { path := outputFile (buildCountdownCacheKey ordinalCompare id demoPlayers) }) ∧
      (startAttackCountdown ordinalCompare id (fun _ => true) guildInteraction soloTiming 1800
        armedManager).1 = .ok () ∧
      mapGet rearmedManager.countdownTimers "guild-1" = some 1 ∧
      (mapGet rearmedManager.audioPlayers "guild-1").map AudioPlayer.resource =
        some (some ⟨outputFile (buildCountdownCacheKey ordinalCompare id soloTiming.players)⟩) := by
  decide!

/-- C5 (amended): a start for a guild that is already Armed is not rejected. When the reply
and the synthesis succeed, the call succeeds, arms a new expiry timer and stores its handle
for the guild, and gives the audio player the newly generated resource; the guild stays
Armed. -/
theorem C5_start_while_armed_rearms (localeCompare : String → String → Int)
    (digest : String → String) (backendOk : Nat → Bool) (interaction : Interaction)
    (attackTiming : AttackTiming) (ts : Nat) (vm : VoiceManager) (connection : Connection)
    (audioPlayer : AudioPlayer) (r : AudioResource)
    (_harmed : isCountdownActive vm interaction.guildId = true)
    (hconn : mapGet vm.connections interaction.guildId = some connection)
    (hplayer : mapGet vm.audioPlayers interaction.guildId = some audioPlayer)
    (hreply : interaction.replyOk = true)
    (hgen : (generateSynchronizedCountdown localeCompare digest backendOk attackTiming.players
      attackTiming.totalDuration ts vm.ttsService).1 = .ok r) :
    (startAttackCountdown localeCompare digest backendOk interaction attackTiming ts vm).1
        = .ok () ∧
      mapGet (startAttackCountdown localeCompare digest backendOk interaction attackTiming ts
        vm).2.countdownTimers interaction.guildId = some vm.nextTimer ∧
      (⟨vm.nextTimer, interaction.guildId,
          timeoutDelay ((attackTiming.totalDuration + 5) * 1000)⟩ : Timer) ∈
        (startAttackCountdown localeCompare digest backendOk interaction attackTiming ts
          vm).2.pendingTimers ∧
      mapGet (startAttackCountdown localeCompare digest backendOk interaction attackTiming ts
        vm).2.audioPlayers interaction.guildId = some (audioPlayer.play r).onceIdle ∧
      isCountdownActive (startAttackCountdown localeCompare digest backendOk interaction
        attackTiming ts vm).2 interaction.guildId = true := by
  obtain ⟨hok, hcts, hpts, haps⟩ := startAttackCountdown_arms localeCompare digest backendOk
    interaction attackTiming ts vm connection audioPlayer r hconn hplayer hreply hgen
  refine ⟨hok, ?_, ?_, ?_, ?_⟩
  · rw [hcts]
    exact mapGet_mapSet_self _ _ _
  · rw [hpts]
    exact List.mem_append_right _ (List.mem_singleton.2 rfl)
  · rw [haps]
    exact mapGet_mapSet_self _ _ _
  · show mapHas (startAttackCountdown localeCompare digest backendOk interaction attackTiming
      ts vm).2.countdownTimers interaction.guildId = true
    rw [hcts]
    exact mapHas_mapSet_self _ _ _

theorem C5_start_while_armed_rearms_witness :
    (startAttackCountdown ordinalCompare id (fun _ => true) guildInteraction soloTiming 1800
        armedManager).1 = .ok () ∧
      mapGet (startAttackCountdown ordinalCompare id (fun _ => true) guildInteraction soloTiming
        1800 armedManager).2.countdownTimers guildInteraction.guildId =
          some armedManager.nextTimer :=
  let h := C5_start_while_armed_rearms ordinalCompare id (fun _ => true) guildInteraction
    soloTiming 1800 armedManager { channelId := "channel-1" }
    { resource :=
        some { path := outputFile (buildCountdownCacheKey ordinalCompare id demoPlayers) },
      idleListeners := 1 }
    { path := outputFile (buildCountdownCacheKey ordinalCompare id soloTiming.players) }
    (by decide!) (by decide!) (by decide!) (by decide!) (by decide!)
  ⟨h.1, h.2.1⟩

/-- C8: without a voice connection for the guild, `startAttackCountdown` throws and leaves
the whole state as it is: no method is entered (`invoked` is unchanged), `audioCache`,
`numberLibrary`, `countdownTimers` and the backend trace are unchanged. -/
theorem C8_start_without_connection_has_no_effect (localeCompare : String → String → Int)
    (digest : String → String) (backendOk : Nat → Bool) (interaction : Interaction)
    (attackTiming : AttackTiming) (ts : Nat) (vm : VoiceManager)
    (h : isInVoiceChannel vm interaction.guildId = false) :
    startAttackCountdown localeCompare digest backendOk interaction attackTiming ts vm =
      (.error (.error "Bot is not in a voice channel. Use /join first."), vm) := by
  unfold isInVoiceChannel at h
  simp [startAttackCountdown, h]

theorem C8_start_without_connection_has_no_effect_witness :
    startAttackCountdown ordinalCompare id (fun _ => true) guildInteraction demoTiming 1700
        (VoiceManager.new []) =
      (.error (.error "Bot is not in a voice channel. Use /join first."), VoiceManager.new []) :=
  C8_start_without_connection_has_no_effect ordinalCompare id (fun _ => true) guildInteraction
    demoTiming 1700 (VoiceManager.new []) (by decide!)

/-- C9: for a guild without a countdown entry, `handleStop` answers with the
no-active-countdown message and changes nothing but the list of replies: in particular
`stopAttackCountdown` is not entered. `stopAttackCountdown` itself returns `true` without
throwing on such a guild and leaves `countdownTimers` unchanged. -/
theorem C9_stop_when_idle_is_a_noop (interaction : Interaction) (vm : VoiceManager)
    (h : isCountdownActive vm interaction.guildId = false) :
    (∃ extra, handleStop interaction vm =
      { vm with replies := vm.replies ++ noActiveCountdownReply :: extra }) ∧
      (stopAttackCountdown interaction vm).1 = .ok true ∧
      (stopAttackCountdown interaction vm).2.countdownTimers = vm.countdownTimers := by
  refine ⟨?_, rfl, ?_⟩
  · by_cases hr : interaction.replyOk = true
    · exact ⟨[], by simp [handleStop, h, reply, hr, noActiveCountdownReply]⟩
    · exact ⟨[Reply.content ("❌ Error: " ++ Err.replyFailed.message) true],
        by simp [handleStop, h, reply, hr, noActiveCountdownReply]⟩
  · unfold isCountdownActive at h
    have hget := mapGet_eq_none_of_not_has _ _ h
    simp only [stopAttackCountdown, hget]
    split <;> exact mapDelete_of_not_has _ _ h

theorem C9_stop_when_idle_is_a_noop_witness :
    (∃ extra, handleStop guildInteraction joinedManager =
      { joinedManager with replies := joinedManager.replies ++ noActiveCountdownReply :: extra }) ∧
      (stopAttackCountdown guildInteraction joinedManager).1 = .ok true ∧
      (stopAttackCountdown guildInteraction joinedManager).2.countdownTimers =
        joinedManager.countdownTimers :=
  C9_stop_when_idle_is_a_noop guildInteraction joinedManager (by decide!)

/-- After two launches guild `guild-1` is Armed with timer 1 stored, while timer 0 of the
first launch is still pending; a stop then leaves timer 0 pending. -/
theorem stop_after_restart_sample :
    isCountdownActive rearmedManager "guild-1" = true ∧
      mapGet rearmedManager.countdownTimers "guild-1" = some 1 ∧
      rearmedManager.pendingTimers = [⟨0, "guild-1", 10000⟩, ⟨1, "guild-1", 9000⟩] ∧
      (stopAttackCountdown guildInteraction rearmedManager).2.pendingTimers =
        [⟨0, "guild-1", 10000⟩] := by
  decide!

/-- C10: for an Armed guild, `stopAttackCountdown` returns `true`, cancels the stored expiry
timer, stops the audio player of the guild and leaves `isCountdownActive` false. It cancels
the stored timer only: the pending timers afterwards are the earlier ones without the stored
handle, so a pending expiry timer of the same guild with another handle, armed by an earlier
start, is still pending after the stop. -/
theorem C10_stop_cancels_stored_timer_only (interaction : Interaction) (vm : VoiceManager)
    (timer : Nat) (t : Timer)
    (hstored : mapGet vm.countdownTimers interaction.guildId = some timer)
    (hpending : t ∈ vm.pendingTimers)
    (_hguild : t.guildId = interaction.guildId)
    (hother : t.id ≠ timer) :
    (stopAttackCountdown interaction vm).1 = .ok true ∧
      isCountdownActive (stopAttackCountdown interaction vm).2 interaction.guildId = false ∧
      (stopAttackCountdown interaction vm).2.pendingTimers =
        vm.pendingTimers.filter (fun t' => !decide (t'.id = timer)) ∧
      (∀ t' ∈ (stopAttackCountdown interaction vm).2.pendingTimers, t'.id ≠ timer) ∧
      (∀ audioPlayer, mapGet vm.audioPlayers interaction.guildId = some audioPlayer →
        mapGet (stopAttackCountdown interaction vm).2.audioPlayers interaction.guildId =
          some audioPlayer.stop) ∧
      t ∈ (stopAttackCountdown interaction vm).2.pendingTimers := by
  have hpts : (stopAttackCountdown interaction vm).2.pendingTimers =
      vm.pendingTimers.filter (fun t' => !decide (t'.id = timer)) := by
    simp only [stopAttackCountdown, hstored, clearTimeout]
    split <;> rfl
  refine ⟨rfl, ?_, hpts, ?_, ?_, ?_⟩
  · simp only [stopAttackCountdown, isCountdownActive]
    exact mapHas_mapDelete_self _ _
  · intro t' hmem
    rw [hpts] at hmem
    simpa using (List.mem_filter.1 hmem).2
  · intro audioPlayer hp
    simp only [stopAttackCountdown, hstored, clearTimeout, hp]
    exact mapGet_mapSet_self _ _ _
  · rw [hpts]
    exact List.mem_filter.2 ⟨hpending, by simpa using hother⟩

theorem C10_stop_cancels_stored_timer_only_witness :
    (stopAttackCountdown guildInteraction rearmedManager).1 = .ok true ∧
      isCountdownActive (stopAttackCountdown guildInteraction rearmedManager).2
        guildInteraction.guildId = false ∧
      (stopAttackCountdown guildInteraction rearmedManager).2.pendingTimers =
        rearmedManager.pendingTimers.filter (fun t' => !decide (t'.id = 1)) ∧
      (∀ t' ∈ (stopAttackCountdown guildInteraction rearmedManager).2.pendingTimers,
        t'.id ≠ 1) ∧
      (∀ audioPlayer,
        mapGet rearmedManager.audioPlayers guildInteraction.guildId = some audioPlayer →
        mapGet (stopAttackCountdown guildInteraction rearmedManager).2.audioPlayers
          guildInteraction.guildId = some audioPlayer.stop) ∧
      (⟨0, "guild-1", 10000⟩ : Timer) ∈
        (stopAttackCountdown guildInteraction rearmedManager).2.pendingTimers :=
  C10_stop_cancels_stored_timer_only guildInteraction rearmedManager 1 ⟨0, "guild-1", 10000⟩
    (by decide!) (by decide!) rfl (by decide)

/-! ## Countdown session: arming -/

/-- C11: when the guild is Idle, has a connection and a player, and the synthesis succeeds,
`playSynchronizedCountdown` succeeds and leaves the guild Armed: `isCountdownActive` is true
and the handle of the one timer it arms is stored for the guild. The argument it passes to
`setTimeout` is `(totalDuration + 5) * 1000`. For `totalDuration` up to 2147478 the timer is
armed with that delay, `totalDuration + 5` seconds; from 2147479 on the argument exceeds
2147483647 and the timer is armed with a delay of 1 millisecond. -/
theorem C11_play_arms_expiry_timer (localeCompare : String → String → Int)
    (digest : String → String) (backendOk : Nat → Bool) (guildId : String)
    (players : List Player) (totalDuration ts : Nat) (vm : VoiceManager)
    (connection : Connection) (audioPlayer : AudioPlayer) (r : AudioResource)
    (_hidle : isCountdownActive vm guildId = false)
    (hconn : mapGet vm.connections guildId = some connection)
    (hplayer : mapGet vm.audioPlayers guildId = some audioPlayer)
    (hgen : (generateSynchronizedCountdown localeCompare digest backendOk players totalDuration
      ts vm.ttsService).1 = .ok r) :
    (playSynchronizedCountdown localeCompare digest backendOk guildId players totalDuration ts
        vm).1 = .ok () ∧
      isCountdownActive (playSynchronizedCountdown localeCompare digest backendOk guildId players
        totalDuration ts vm).2 guildId = true ∧
      mapGet (playSynchronizedCountdown localeCompare digest backendOk guildId players
        totalDuration ts vm).2.countdownTimers guildId = some vm.nextTimer ∧
      (playSynchronizedCountdown localeCompare digest backendOk guildId players totalDuration ts
        vm).2.pendingTimers = vm.pendingTimers ++
          [⟨vm.nextTimer, guildId, timeoutDelay ((totalDuration + 5) * 1000)⟩] ∧
      (totalDuration ≤ 2147478 →
        timeoutDelay ((totalDuration + 5) * 1000) = (totalDuration + 5) * 1000) ∧
      (2147479 ≤ totalDuration → timeoutDelay ((totalDuration + 5) * 1000) = 1) := by
  generalize hout : generateSynchronizedCountdown localeCompare digest backendOk players
    totalDuration ts vm.ttsService = out at hgen
  obtain ⟨res, tts⟩ := out
  simp only at hgen
  subst hgen
  simp only [playSynchronizedCountdown, hconn, hplayer, hout, setTimeout, isCountdownActive,
    mapGet_mapSet_self, mapHas_mapSet_self, true_and]
  constructor
  · intro h
    unfold timeoutDelay
    rw [if_pos (by omega)]
  · intro h
    unfold timeoutDelay
    rw [if_neg (by omega)]

theorem C11_play_arms_expiry_timer_witness :
    (playSynchronizedCountdown ordinalCompare id (fun _ => true) guildInteraction.guildId
        demoPlayers 2147479 1700 joinedManager).1 = .ok () ∧
      isCountdownActive (playSynchronizedCountdown ordinalCompare id (fun _ => true)
        guildInteraction.guildId demoPlayers 2147479 1700 joinedManager).2
        guildInteraction.guildId = true ∧
      mapGet (playSynchronizedCountdown ordinalCompare id (fun _ => true)
        guildInteraction.guildId demoPlayers 2147479 1700 joinedManager).2.countdownTimers
        guildInteraction.guildId = some joinedManager.nextTimer ∧
      (playSynchronizedCountdown ordinalCompare id (fun _ => true) guildInteraction.guildId
        demoPlayers 2147479 1700 joinedManager).2.pendingTimers = joinedManager.pendingTimers ++
          [⟨joinedManager.nextTimer, guildInteraction.guildId,
            timeoutDelay ((2147479 + 5) * 1000)⟩] ∧
      (2147479 ≤ 2147478 →
        timeoutDelay ((2147479 + 5) * 1000) = (2147479 + 5) * 1000) ∧
      (2147479 ≤ 2147479 → timeoutDelay ((2147479 + 5) * 1000) = 1) :=
  C11_play_arms_expiry_timer ordinalCompare id (fun _ => true) guildInteraction.guildId
    demoPlayers 2147479 1700 joinedManager ⟨"channel-1"⟩ ⟨none, 0⟩
    ⟨outputFile (buildCountdownCacheKey ordinalCompare id demoPlayers)⟩
    (by decide!) (by decide!) (by decide!) (by decide!)

/-- The timers armed for a total duration of 2147478 and of 2147479 seconds. -/
theorem timeoutDelay_at_the_limit :
    timeoutDelay ((2147478 + 5) * 1000) = 2147483000 ∧
      timeoutDelay ((2147479 + 5) * 1000) = 1 := by
  decide

/-! ## Countdown fingerprint: synthesis parameters -/

/-- A digest with finitely many values, as one with values of a fixed length over a finite
alphabet, gives two different version tags the same fingerprint for the same participants. -/
theorem finite_digest_collides_on_versions (localeCompare : String → String → Int)
    (digest : String → String) (hfin : (Set.range digest).Finite) (players : List Player) :
    ∃ v₁ v₂, v₁ ≠ v₂ ∧
      digest (payloadJSON v₁ "Samantha" 170 (normalized localeCompare players)) =
        digest (payloadJSON v₂ "Samantha" 170 (normalized localeCompare players)) := by
  by_contra hnone
  push_neg at hnone
  have hinj : Function.Injective (fun n : Nat =>
      digest (payloadJSON (numStr n) "Samantha" 170 (normalized localeCompare players))) := by
    intro n m hnm
    by_contra hne
    refine hnone (numStr n) (numStr m) (fun e => hne ?_) hnm
    exact numberToString_injective (congrArg String.data e)
  exact (Set.infinite_of_injective_forall_mem hinj (fun n => Set.mem_range_self _)) hfin

/-- C17 (counterexample): a digest that keeps the first 40 characters of the payload gives
the payload with rate 171 the fingerprint of the payload with rate 170, although the two
payloads differ. -/
theorem C17_colliding_digest_hides_rate_change :
    payloadJSON "sync-v3" "Samantha" 171 (normalized ordinalCompare demoPlayers) ≠
        cacheKeyPayload ordinalCompare demoPlayers ∧
      prefixDigest (payloadJSON "sync-v3" "Samantha" 171
          (normalized ordinalCompare demoPlayers)) =
        buildCountdownCacheKey ordinalCompare prefixDigest demoPlayers := by
  decide!

/-- C17 (amended): the fingerprint `buildCountdownCacheKey` returns is the digest of the
payload that serializes the version tag `sync-v3`, the voice `Samantha`, the rate 170 and
the normalized participants; the text of the payload starts with these three parameters.
For the same participants, a payload built with any other version, voice or rate is a
different payload, and, the digest taken as injective, its digest is a different
fingerprint. -/
theorem C17_fingerprint_covers_synthesis_parameters (localeCompare : String → String → Int)
    (digest : String → String) (hinj : Function.Injective digest) (players : List Player)
    (v voice : String) (rate : Nat)
    (hchange : v ≠ "sync-v3" ∨ voice ≠ "Samantha" ∨ rate ≠ 170) :
    buildCountdownCacheKey localeCompare digest players =
        digest (payloadJSON "sync-v3" "Samantha" 170 (normalized localeCompare players)) ∧
      (∃ rest, (payloadJSON "sync-v3" "Samantha" 170 (normalized localeCompare players)).data =
        "\x7b\x22v\x22:\x22sync-v3\x22,\x22voice\x22:\x22Samantha\x22,\x22rate\x22:170,".data
          ++ rest) ∧
      payloadJSON v voice rate (normalized localeCompare players) ≠
        payloadJSON "sync-v3" "Samantha" 170 (normalized localeCompare players) ∧
      digest (payloadJSON v voice rate (normalized localeCompare players)) ≠
        buildCountdownCacheKey localeCompare digest players := by
  have hne : payloadJSON v voice rate (normalized localeCompare players) ≠
      payloadJSON "sync-v3" "Samantha" 170 (normalized localeCompare players) := by
    intro h
    obtain ⟨h₁, h₂, h₃, -⟩ := payloadJSON_inj h
    rcases hchange with hc | hc | hc
    · exact hc h₁
    · exact hc h₂
    · exact hc h₃
  refine ⟨rfl, ⟨"\x22players\x22:".data ++ playersJSON (normalized localeCompare players)
    ++ "\x7d".data, ?_⟩, hne, fun h => hne (hinj h)⟩
  unfold payloadJSON
  have e₁ : quoteJSONString "sync-v3" = "\x22sync-v3\x22".data := by decide
  have e₂ : quoteJSONString "Samantha" = "\x22Samantha\x22".data := by decide
  have e₃ : numberToString 170 = "170".data := by decide
  rw [e₁, e₂, e₃]
  simp only [List.append_assoc]
  rfl

theorem C17_fingerprint_covers_synthesis_parameters_witness :
    buildCountdownCacheKey ordinalCompare id demoPlayers =
        id (payloadJSON "sync-v3" "Samantha" 170 (normalized ordinalCompare demoPlayers)) ∧
      (∃ rest,
        (payloadJSON "sync-v3" "Samantha" 170 (normalized ordinalCompare demoPlayers)).data =
        "\x7b\x22v\x22:\x22sync-v3\x22,\x22voice\x22:\x22Samantha\x22,\x22rate\x22:170,".data
          ++ rest) ∧
      payloadJSON "sync-v2" "Samantha" 170 (normalized ordinalCompare demoPlayers) ≠
        payloadJSON "sync-v3" "Samantha" 170 (normalized ordinalCompare demoPlayers) ∧
      id (payloadJSON "sync-v2" "Samantha" 170 (normalized ordinalCompare demoPlayers)) ≠
        buildCountdownCacheKey ordinalCompare id demoPlayers :=
  C17_fingerprint_covers_synthesis_parameters ordinalCompare id Function.injective_id
    demoPlayers "sync-v2" "Samantha" 170 (Or.inl (by decide))

/-! ## Intro phrase -/

theorem foldl_introLine (players : List Player) : ∀ (start : String),
    players.foldl (fun script p => script ++ introLine p) start =
      start ++ concatAll (players.map introLine) := by
  induction players with
  | nil => intro start; simp [concatAll]
  | cons p ps ih =>
    intro start
    rw [List.foldl_cons, ih, List.map_cons, concatAll, String.append_assoc]

theorem introScript_eq_introPhrase (first : Player) (players : List Player) :
    introScript first players = introPhrase first players := by
  unfold introScript introPhrase
  simp only [foldl_introLine, String.empty_append]

/-- C12 (counterexample): for the participants B (second 3) and A (second 0), given in this
order, the intro states B before A; no arrangement of the two by non-decreasing offset gives
the text of the intro. -/
theorem C12_intro_follows_input_order :
    firstPlayer [playerB3, playerA0] = some playerA0 ∧
      introScript playerA0 [playerB3, playerA0] =
        "Synchronized attack sequence. A starts first. B starts at second 3. A starts immediately. A ready. Three. Two. One. Go. " ∧
      ¬ StatesOffsetsAscending playerA0 [playerB3, playerA0] := by
  refine ⟨by decide, by decide, ?_⟩
  rintro ⟨order, hperm, hsorted, heq⟩
  have hlen := hperm.length_eq
  match order, hlen with
  | [x, y], _ =>
    have hx : x ∈ [playerB3, playerA0] := hperm.subset (List.mem_cons_self _ _)
    have hy : y ∈ [playerB3, playerA0] :=
      hperm.subset (List.mem_cons_of_mem _ (List.mem_cons_self _ _))
    have hB : playerB3 ∈ [x, y] := hperm.symm.subset (List.mem_cons_self _ _)
    have hle : x.attackStartTime ≤ y.attackStartTime := by
      have := List.rel_of_sorted_cons hsorted y (List.mem_cons_self _ _)
      exact this
    have hA : playerA0 ∈ [x, y] :=
      hperm.symm.subset (List.mem_cons_of_mem _ (List.mem_cons_self _ _))
    simp only [List.mem_cons, List.mem_singleton, List.not_mem_nil, or_false] at hx hy hB hA
    rcases hx with rfl | rfl <;> rcases hy with rfl | rfl
    · revert hA; decide
    · revert hle; decide
    · revert heq; decide
    · revert hB; decide

/-- C12 (amended): the intro contains exactly one sentence per participant, with the wording
`<name> starts immediately. ` for offset 0 and `<name> starts at second <N>. ` otherwise, and
these sentences appear in the order of the input list, between the opening and the closing
sentence. -/
theorem C12_intro_states_participants_in_input_order (first : Player) (players : List Player) :
    introScript first players =
        ("Synchronized attack sequence. " ++ first.name ++ " starts first. ")
          ++ concatAll (players.map introLine)
          ++ (first.name ++ " ready. Three. Two. One. Go. ") ∧
      (players.map introLine).length = players.length ∧
      (∀ p ∈ players, introLine p =
        if p.attackStartTime = 0 then p.name ++ " starts immediately. "
        else p.name ++ " starts at second " ++ numStr p.attackStartTime ++ ". ") :=
  ⟨introScript_eq_introPhrase first players, List.length_map _ _, fun _ _ => rfl⟩

theorem generateOnMiss_first_call (backendOk : Nat → Bool) (cacheKey : String)
    (players : List Player) (ts : Nat) (s : TTSService) (first : Player)
    (hfirst : firstPlayer players = some first) :
    ∃ rest, (generateOnMiss backendOk cacheKey players ts s).2.calls =
      s.calls ++ Cmd.say (introFile ts) (introScript first players) :: rest := by
  have key : ∀ (f : Unit → TTS AudioResource), (∀ a, Traced backendOk (f a)) →
      ∃ rest, ((run backendOk (.say (introFile ts) (introScript first players)) >>= f) s).2.calls
        = s.calls ++ Cmd.say (introFile ts) (introScript first players) :: rest := by
    intro f hf
    obtain ⟨rest, hrest⟩ := calls_bind_extends backendOk
      (run backendOk (.say (introFile ts) (introScript first players))) f hf s
    exact ⟨rest, by rw [hrest, run_calls, List.append_assoc]; rfl⟩
  unfold generateOnMiss
  rw [hfirst]
  refine key _ fun _ => ?_
  refine traced_bind (traced_numberLoop _ _ _ _ _) fun numberFiles => ?_
  refine traced_bind (traced_run _ _) fun _ => ?_
  refine traced_bind (traced_run _ _) fun _ => ?_
  refine traced_bind (traced_of_keeps (keeps_calls_unlinkSync _)) fun _ => ?_
  refine traced_bind (traced_run _ _) fun _ => ?_
  refine traced_bind (traced_of_keeps (keeps_calls_unlinkSync _)) fun _ => ?_
  refine traced_bind (traced_of_keeps (keeps_calls_writeFileSync _ _)) fun _ => ?_
  refine traced_bind (traced_run _ _) fun _ => ?_
  refine traced_bind (traced_of_keeps (keeps_calls_unlinkSync _)) fun _ => ?_
  refine traced_bind (traced_of_keeps (keeps_calls_unlinkSync _)) fun _ => ?_
  refine traced_bind (traced_of_keeps (keeps_calls_unlinkSync _)) fun _ => ?_
  refine traced_bind (traced_of_keeps
    (keeps_cleanupFallback keeps_calls_unlinkSync _ _)) fun _ => ?_
  exact traced_bind (traced_of_keeps (fun _ => rfl)) fun _ => traced_of_keeps (keeps_pure _)

/-- C13 (counterexample): for the participants B (second 3) and A (second 1), given in this
order, no offset is 0 and the intro names B, the head of the list, as the first starter,
although A starts earlier. -/
theorem C13_named_first_is_head_of_list :
    firstPlayer [playerB3, playerA1] = some playerB3 ∧
      introScript playerB3 [playerB3, playerA1] =
        "Synchronized attack sequence. B starts first. B starts at second 3. A starts at second 1. B ready. Three. Two. One. Go. " ∧
      ¬ ∀ p ∈ [playerB3, playerA1], playerB3.attackStartTime ≤ p.attackStartTime := by
  decide

/-- The participant `find` returns for the test `attackStartTime === 0` is the first one of
the list that passes it: every participant before it has another offset. -/
theorem find?_zero_offset_split : ∀ (players : List Player) (p : Player),
    players.find? (fun p => p.attackStartTime == 0) = some p →
    ∃ pre post, players = pre ++ p :: post ∧ ∀ q ∈ pre, q.attackStartTime ≠ 0
  | [], _, h => by cases h
  | q :: qs, p, h => by
    by_cases hq : q.attackStartTime = 0
    · have : (q :: qs).find? (fun p => p.attackStartTime == 0) = some q := by
        simp [List.find?_cons, hq]
      rw [this] at h
      cases h
      exact ⟨[], qs, rfl, fun _ hmem => by cases hmem⟩
    · have : (q :: qs).find? (fun p => p.attackStartTime == 0) =
          qs.find? (fun p => p.attackStartTime == 0) := by
        simp [List.find?_cons, hq]
      rw [this] at h
      obtain ⟨pre, post, hsplit, hpre⟩ := find?_zero_offset_split qs p h
      refine ⟨q :: pre, post, by rw [hsplit]; rfl, fun r hr => ?_⟩
      rcases List.mem_cons.1 hr with rfl | hr
      · exact hq
      · exact hpre r hr

/-- C13 (amended): for a non-empty participant list the participant named in the sentences
`<name> starts first.` and `<name> ready.` is the first participant of the list whose offset
is 0 if there is one (every participant before it in the list has another offset), and then
its offset is the minimum over the list; if no offset is 0 it is the head of the input list.
The intro is the text of the first backend invocation after a cache miss and ends with the
cue `Three. Two. One. Go. `. -/
theorem C13_intro_names_zero_offset_or_head (players : List Player) (hne : players ≠ []) :
    ∃ first, firstPlayer players = some first ∧ first ∈ players ∧
      ((∃ p ∈ players, p.attackStartTime = 0) →
        first.attackStartTime = 0 ∧
          (∃ pre post, players = pre ++ first :: post ∧ ∀ q ∈ pre, q.attackStartTime ≠ 0) ∧
          ∀ p ∈ players, first.attackStartTime ≤ p.attackStartTime) ∧
      ((∀ p ∈ players, p.attackStartTime ≠ 0) → players.head? = some first) ∧
      (∃ middle, introScript first players =
        ("Synchronized attack sequence. " ++ first.name ++ " starts first. ") ++ middle
          ++ (first.name ++ " ready. ") ++ "Three. Two. One. Go. ") ∧
      (∀ (backendOk : Nat → Bool) (cacheKey : String) (ts : Nat) (s : TTSService),
        ∃ rest, (generateOnMiss backendOk cacheKey players ts s).2.calls =
          s.calls ++ Cmd.say (introFile ts) (introScript first players) :: rest) := by
  have hscript : ∀ first : Player, ∃ middle, introScript first players =
      ("Synchronized attack sequence. " ++ first.name ++ " starts first. ") ++ middle
        ++ (first.name ++ " ready. ") ++ "Three. Two. One. Go. " := by
    intro first
    refine ⟨concatAll (players.map introLine), ?_⟩
    rw [introScript_eq_introPhrase, introPhrase]
    have e : " ready. Three. Two. One. Go. " = " ready. " ++ "Three. Two. One. Go. " := by
      decide
    rw [e]
    simp only [String.append_assoc]
  cases hfind : players.find? (fun p => p.attackStartTime == 0) with
  | some p =>
    have hp0 : p.attackStartTime = 0 := by
      have := List.find?_some hfind
      simpa using this
    have hfirst : firstPlayer players = some p := by
      unfold firstPlayer; rw [hfind]
    refine ⟨p, hfirst, List.mem_of_find?_eq_some hfind, ?_, ?_, hscript p, ?_⟩
    · intro _
      exact ⟨hp0, find?_zero_offset_split players p hfind,
        fun q _ => by rw [hp0]; exact Nat.zero_le _⟩
    · intro hall
      exact absurd hp0 (hall p (List.mem_of_find?_eq_some hfind))
    · intro backendOk cacheKey ts s
      exact generateOnMiss_first_call backendOk cacheKey players ts s p hfirst
  | none =>
    cases players with
    | nil => exact absurd rfl hne
    | cons q qs =>
      have hfirst : firstPlayer (q :: qs) = some q := by
        unfold firstPlayer; rw [hfind]; rfl
      refine ⟨q, hfirst, List.mem_cons_self _ _, ?_, ?_, hscript q, ?_⟩
      · rintro ⟨p, hp, hp0⟩
        have := List.find?_eq_none.1 hfind p hp
        simp [hp0] at this
      · intro _; rfl
      · intro backendOk cacheKey ts s
        exact generateOnMiss_first_call backendOk cacheKey (q :: qs) ts s q hfirst

theorem C13_intro_names_zero_offset_or_head_witness :
    ∃ first, firstPlayer demoPlayers = some first ∧ first ∈ demoPlayers ∧
      ((∃ p ∈ demoPlayers, p.attackStartTime = 0) →
        first.attackStartTime = 0 ∧
          (∃ pre post, demoPlayers = pre ++ first :: post ∧
            ∀ q ∈ pre, q.attackStartTime ≠ 0) ∧
          ∀ p ∈ demoPlayers, first.attackStartTime ≤ p.attackStartTime) ∧
      ((∀ p ∈ demoPlayers, p.attackStartTime ≠ 0) → demoPlayers.head? = some first) ∧
      (∃ middle, introScript first demoPlayers =
        ("Synchronized attack sequence. " ++ first.name ++ " starts first. ") ++ middle
          ++ (first.name ++ " ready. ") ++ "Three. Two. One. Go. ") ∧
      (∀ (backendOk : Nat → Bool) (cacheKey : String) (ts : Nat) (s : TTSService),
        ∃ rest, (generateOnMiss backendOk cacheKey demoPlayers ts s).2.calls =
          s.calls ++ Cmd.say (introFile ts) (introScript first demoPlayers) :: rest) :=
  C13_intro_names_zero_offset_or_head demoPlayers (by decide)

/-! ### Paths of the numeral library -/

theorem libraryFile_data (i : Nat) :
    (libraryFile i).data = "temp/library/".data ++ (numberToString i ++ ".wav".data) := by
  simp [libraryFile, pathJoin, libraryDir, numStr, String.data_append]

theorem libraryRawFile_data (i : Nat) :
    (libraryRawFile i).data =
      "temp/library/".data ++ ("raw_".data ++ (numberToString i ++ ".aiff".data)) := by
  simp [libraryRawFile, pathJoin, libraryDir, numStr, String.data_append]

theorem libraryFile_inj {j k : Nat} (h : libraryFile j = libraryFile k) : j = k := by
  have hd := congrArg String.data h
  rw [libraryFile_data, libraryFile_data] at hd
  have hd' := List.append_cancel_left hd
  exact numberToString_injective
    (digits_then_sep_inj _ _ '.' '.' _ _ (numberToString_isDigit j) (numberToString_isDigit k)
      (by decide) (by decide) hd').1

theorem libraryRawFile_inj {j k : Nat} (h : libraryRawFile j = libraryRawFile k) : j = k := by
  have hd := congrArg String.data h
  rw [libraryRawFile_data, libraryRawFile_data] at hd
  have hd' := List.append_cancel_left (List.append_cancel_left hd)
  exact numberToString_injective
    (digits_then_sep_inj _ _ '.' '.' _ _ (numberToString_isDigit j) (numberToString_isDigit k)
      (by decide) (by decide) hd').1

theorem libraryRawFile_ne_libraryFile (j k : Nat) : libraryRawFile j ≠ libraryFile k := by
  intro h
  have hd := congrArg String.data h
  rw [libraryRawFile_data, libraryFile_data] at hd
  have hd' := List.append_cancel_left hd
  cases hk : numberToString k with
  | nil =>
    rw [hk] at hd'
    exact absurd (List.head_eq_of_cons_eq hd') (by decide)
  | cons c cs =>
    rw [hk] at hd'
    have hc := numberToString_isDigit k c (by rw [hk]; exact List.mem_cons_self _ _)
    have : 'r' = c := List.head_eq_of_cons_eq hd'
    rw [← this] at hc
    exact absurd hc (by decide)

theorem mapHas_map_set {κ ν : Type} [DecidableEq κ] (k j : κ) (v : ν) (hjk : j ≠ k) :
    ∀ (m : List (κ × ν)),
      mapHas (m.map (fun e => if e.1 = k then (k, v) else e)) j = mapHas m j
  | [] => rfl
  | e :: m => by
    have ih := mapHas_map_set k j v hjk m
    unfold mapHas at ih ⊢
    rw [List.map_cons, List.any_cons, List.any_cons, ih]
    congr 1
    by_cases he : e.1 = k
    · have hej : ¬ e.1 = j := fun h => hjk (h.symm.trans he)
      have hkj : ¬ k = j := fun h => hjk h.symm
      simp [he, hej, hkj]
    · simp [he]

theorem mapHas_mapSet {κ ν : Type} [DecidableEq κ] (m : List (κ × ν)) (k j : κ) (v : ν) :
    mapHas (mapSet m k v) j = (mapHas m j || decide (j = k)) := by
  by_cases hjk : j = k
  · subst hjk; rw [mapHas_mapSet_self]; simp
  · unfold mapSet
    split
    · rw [mapHas_map_set k j v hjk]; simp [hjk]
    · have hkj : ¬ k = j := fun h => hjk h.symm
      simp [mapHas, hjk, hkj]

theorem mapGet_map_set_of_ne {κ ν : Type} [DecidableEq κ] (k j : κ) (v : ν) (hjk : j ≠ k) :
    ∀ (m : List (κ × ν)),
      mapGet (m.map (fun e => if e.1 = k then (k, v) else e)) j = mapGet m j
  | [] => rfl
  | e :: m => by
    have ih := mapGet_map_set_of_ne k j v hjk m
    unfold mapGet at ih ⊢
    by_cases he : e.1 = k
    · have hej : ¬ e.1 = j := fun h => hjk (h.symm.trans he)
      have hkj : ¬ k = j := fun h => hjk h.symm
      simp only [List.map_cons, he, if_true, List.find?_cons, hej, hkj, decide_False]
      exact ih
    · by_cases hej : e.1 = j
      · simp only [List.map_cons]
        rw [if_neg he]
        simp only [List.find?_cons, hej, decide_True]
      · simp only [List.map_cons, he, if_false, List.find?_cons, hej, decide_False]
        exact ih

theorem mapGet_mapSet_of_ne {κ ν : Type} [DecidableEq κ] (m : List (κ × ν)) (k j : κ) (v : ν)
    (hjk : j ≠ k) : mapGet (mapSet m k v) j = mapGet m j := by
  unfold mapSet
  split
  · exact mapGet_map_set_of_ne k j v hjk m
  · have hkj : ¬ k = j := fun h => hjk h.symm
    unfold mapGet
    rw [List.find?_append]
    cases hf : m.find? (fun e => decide (e.1 = j)) with
    | some e => rfl
    | none => simp [hkj]

/-! ### The shell of `exec` -/

theorem shellRemovals_eq_nil : ∀ (cs : List Char), '$' ∉ cs → shellRemovals cs = []
  | [], _ => rfl
  | c :: cs, h => by
    have hc : ¬ c = '$' := fun e => h (e ▸ List.mem_cons_self _ _)
    have hcs : '$' ∉ cs := fun hm => h (List.mem_cons_of_mem _ hm)
    have hc' : ¬ '$' = c := fun e => hc e.symm
    simp [shellRemovals, List.isPrefixOf, hc', shellRemovals_eq_nil cs hcs]

theorem mem_shellEffect {cmd : Cmd} {files : List String} {p : String}
    (h : p ∈ shellEffect cmd files) : p ∈ files := by
  unfold shellEffect at h
  split at h
  · exact (List.mem_filter.1 h).1
  · exact h

/-- A text without a dollar sign makes the shell delete nothing. -/
theorem shellEffect_say_of_safe (out text : String) (files : List String)
    (h : '$' ∉ text.data) : shellEffect (.say out text) files = files := by
  show files.filter (fun f => !decide (f ∈ shellRemovals text.data)) = files
  rw [shellRemovals_eq_nil _ h]
  simp

theorem shellEffect_ffmpegSecond (input out : String) (files : List String) :
    shellEffect (.ffmpegSecond input out) files = files := rfl

theorem shellEffect_ffmpegEncode (input out : String) (files : List String) :
    shellEffect (.ffmpegEncode input out) files = files := rfl

theorem shellEffect_ffmpegConcat (listFile out : String) (files : List String) :
    shellEffect (.ffmpegConcat listFile out) files = files := rfl

theorem numeralText_safe (i : Nat) : '$' ∉ (numStr i ++ ".").data := by
  simp only [numStr, String.data_append]
  intro hmem
  rcases List.mem_append.1 hmem with h | h
  · exact absurd (numberToString_isDigit i _ h) (by decide)
  · revert h; decide

/-! ### The warm-up loop, one numeral at a time -/

theorem initializeLoop_present (backendOk : Nat → Bool) (count i : Nat) (s : TTSService)
    (h : libraryFile i ∈ s.files) :
    initializeLoop backendOk (count + 1) i s =
      initializeLoop backendOk count (i + 1) (registerClip i s) := by
  rw [initializeLoop]
  simp [TTS.bind_apply, existsSync, h, numberLibrarySet, registerClip]

theorem initializeLoop_say_fails (backendOk : Nat → Bool) (count i : Nat) (s : TTSService)
    (h : libraryFile i ∉ s.files) (hsay : backendOk s.calls.length = false) :
    initializeLoop backendOk (count + 1) i s =
      (.error (.backend (sayNumeral i)), { s with calls := s.calls ++ [sayNumeral i] }) := by
  rw [initializeLoop]
  simp [TTS.bind_apply, existsSync, h, run, hsay, sayNumeral,
    shellEffect_say_of_safe _ _ _ (numeralText_safe i)]

theorem initializeLoop_pad_fails (backendOk : Nat → Bool) (count i : Nat) (s : TTSService)
    (h : libraryFile i ∉ s.files) (hsay : backendOk s.calls.length = true)
    (hpad : backendOk (s.calls.length + 1) = false) :
    initializeLoop backendOk (count + 1) i s =
      (.error (.backend (padNumeral i)),
        { s with
          calls := s.calls ++ [sayNumeral i] ++ [padNumeral i],
          files := createFile s.files (libraryRawFile i) }) := by
  rw [initializeLoop]
  simp [TTS.bind_apply, existsSync, h, run, hsay, hpad, sayNumeral, padNumeral, Cmd.output,
    shellEffect_say_of_safe _ _ _ (numeralText_safe i), shellEffect_ffmpegSecond]

theorem initializeLoop_generates (backendOk : Nat → Bool) (count i : Nat) (s : TTSService)
    (h : libraryFile i ∉ s.files) (hsay : backendOk s.calls.length = true)
    (hpad : backendOk (s.calls.length + 1) = true) :
    initializeLoop backendOk (count + 1) i s =
      initializeLoop backendOk count (i + 1) (registerClip i (generateClip i s)) := by
  rw [initializeLoop]
  simp [TTS.bind_apply, existsSync, h, run, hsay, hpad, sayNumeral, padNumeral, Cmd.output,
    unlinkSync, numberLibrarySet, registerClip, generateClip,
    shellEffect_say_of_safe _ _ _ (numeralText_safe i), shellEffect_ffmpegSecond]

theorem mem_createFile (files : List String) (path p : String) :
    p ∈ createFile files path ↔ p ∈ files ∨ p = path := by
  unfold createFile
  split
  · next h =>
    constructor
    · exact Or.inl
    · rintro (h' | rfl)
      · exact h'
      · exact h
  · simp

theorem loopOutcome_zero (i : Nat) (s : TTSService) : LoopOutcome 0 i s (.ok (), s) := by
  refine ⟨⟨[], (List.append_nil _).symm, ?_, ?_⟩, fun _ h _ => h, fun h => h,
    fun _ => ⟨fun j => ?_, fun j h₁ h₂ => by omega⟩⟩
  · intro cmd h
    cases h
  · intro e h
    cases h
  · constructor
    · exact Or.inl
    · rintro (h | h)
      · exact h
      · omega

theorem loopOutcome_step {count i : Nat} {s : TTSService} (s' : TTSService)
    {r : Except Err Unit × TTSService} (pre : List Cmd)
    (hlib : s'.numberLibrary = mapSet s.numberLibrary i (libraryFile i))
    (hkeep : ∀ p ∈ s.files, (∀ j, p ≠ libraryRawFile j) → p ∈ s'.files)
    (hclip : libraryFile i ∈ s'.files)
    (hcalls : s'.calls = s.calls ++ pre)
    (hpre : ∀ c ∈ pre, libraryFile i ∉ s.files ∧ ForNumeral c i)
    (h : LoopOutcome count (i + 1) s' r) : LoopOutcome (count + 1) i s r := by
  obtain ⟨⟨new, hnewcalls, hnew, herr⟩, hfiles, hvals, hok⟩ := h
  have hlibfile : ∀ j j', libraryFile j ≠ libraryRawFile j' :=
    fun j j' => (libraryRawFile_ne_libraryFile j' j).symm
  have hclip' : libraryFile i ∈ r.2.files := hfiles _ hclip (hlibfile i)
  refine ⟨⟨pre ++ new, by rw [hnewcalls, hcalls, List.append_assoc], ?_, ?_⟩, ?_, ?_, ?_⟩
  · intro cmd hcmd
    rcases List.mem_append.1 hcmd with hc | hc
    · exact ⟨i, le_refl _, by omega, (hpre cmd hc).1, (hpre cmd hc).2⟩
    · obtain ⟨j, h₁, h₂, h₃, h₄⟩ := hnew cmd hc
      exact ⟨j, by omega, by omega, fun hmem => h₃ (hkeep _ hmem (hlibfile j)), h₄⟩
  · intro e he
    obtain ⟨k, cmd, h₁, h₂, h₃, h₄, h₅, h₆, h₇⟩ := herr e he
    refine ⟨k, cmd, by omega, by omega, h₃, h₄, ?_, ?_, h₇⟩
    · intro c hc
      rcases List.mem_append.1 hc with hc | hc
      · exact ⟨i, by omega, (hpre c hc).2⟩
      · exact h₅ c hc
    · intro j hj hjk
      by_cases hji : j = i
      · rw [hji]; exact hclip'
      · exact h₆ j (by omega) hjk
  · exact fun p hp hraw => hfiles p (hkeep p hp hraw) hraw
  · intro hs
    refine hvals fun j p hget => ?_
    rw [hlib] at hget
    by_cases hji : j = i
    · rw [hji, mapGet_mapSet_self] at hget
      rw [hji]
      exact (Option.some.inj hget).symm
    · rw [mapGet_mapSet_of_ne _ _ _ _ hji] at hget
      exact hs j p hget
  · intro hr
    obtain ⟨hhas, hmem⟩ := hok hr
    refine ⟨fun j => ?_, fun j hj hlt => ?_⟩
    · rw [hhas j, hlib, mapHas_mapSet]
      cases hm : mapHas s.numberLibrary j
      · simp only [Bool.false_or, decide_eq_true_eq, Bool.false_eq_true, false_or]
        omega
      · simp
    · by_cases hji : j = i
      · rw [hji]; exact hclip'
      · exact hmem j (by omega) (by omega)

theorem loopOutcome_failed {count i : Nat} {s : TTSService}
    {r : Except Err Unit × TTSService} (pre : List Cmd) (cmd : Cmd)
    (hres : r.1 = .error (.backend cmd)) (hcalls : r.2.calls = s.calls ++ (pre ++ [cmd]))
    (hlib : r.2.numberLibrary = s.numberLibrary)
    (hkeep : ∀ p ∈ s.files, p ∈ r.2.files)
    (habsent : libraryFile i ∉ s.files) (habsent' : libraryFile i ∉ r.2.files)
    (hpre : ∀ c ∈ pre ++ [cmd], ForNumeral c i) :
    LoopOutcome (count + 1) i s r := by
  refine ⟨⟨pre ++ [cmd], hcalls, ?_, ?_⟩, fun p hp _ => hkeep p hp, ?_, ?_⟩
  · exact fun c hc => ⟨i, le_refl _, by omega, habsent, hpre c hc⟩
  · intro e he
    rw [hres] at he
    refine ⟨i, cmd, le_refl _, by omega, hpre cmd (by simp), ?_,
      fun c hc => ⟨i, le_refl _, hpre c hc⟩, fun j h₁ h₂ => by omega, habsent'⟩
    cases he; rfl
  · rw [hlib]; exact fun h => h
  · intro hr
    rw [hres] at hr
    cases hr

theorem loopOutcome_initializeLoop (backendOk : Nat → Bool) :
    ∀ (count i : Nat) (s : TTSService),
      LoopOutcome count i s (initializeLoop backendOk count i s)
  | 0, i, s => loopOutcome_zero i s
  | count + 1, i, s => by
    by_cases hfile : libraryFile i ∈ s.files
    · rw [initializeLoop_present backendOk count i s hfile]
      exact loopOutcome_step (registerClip i s) [] rfl (fun p hp _ => hp) hfile (List.append_nil _).symm
        (fun _ h => by cases h) (loopOutcome_initializeLoop backendOk count (i + 1) _)
    · cases hsay : backendOk s.calls.length with
      | false =>
        rw [initializeLoop_say_fails backendOk count i s hfile hsay]
        exact loopOutcome_failed [] (sayNumeral i) rfl rfl rfl (fun p hp => hp) hfile hfile
          (fun c hc => by
            rw [List.nil_append, List.mem_singleton] at hc
            exact Or.inl hc)
      | true =>
        cases hpad : backendOk (s.calls.length + 1) with
        | false =>
          rw [initializeLoop_pad_fails backendOk count i s hfile hsay hpad]
          refine loopOutcome_failed [sayNumeral i] (padNumeral i) rfl
            (List.append_assoc _ _ _) rfl
            (fun p hp => (mem_createFile _ _ _).2 (Or.inl hp)) hfile ?_ ?_
          · intro hmem
            rcases (mem_createFile _ _ _).1 hmem with h | h
            · exact hfile h
            · exact libraryRawFile_ne_libraryFile i i h.symm
          · intro c hc
            simp only [List.singleton_append, List.mem_cons, List.mem_singleton,
              List.not_mem_nil, or_false] at hc
            exact hc
        | true =>
          rw [initializeLoop_generates backendOk count i s hfile hsay hpad]
          refine loopOutcome_step (registerClip i (generateClip i s))
            [sayNumeral i, padNumeral i] rfl ?_ ?_
            (List.append_assoc _ _ _) ?_
            (loopOutcome_initializeLoop backendOk count (i + 1) _)
          · intro p hp hraw
            refine List.mem_filter.2 ⟨?_, by simpa using hraw i⟩
            exact (mem_createFile _ _ _).2 (Or.inl ((mem_createFile _ _ _).2 (Or.inl hp)))
          · refine List.mem_filter.2 ⟨(mem_createFile _ _ _).2 (Or.inr rfl), ?_⟩
            simpa using (libraryRawFile_ne_libraryFile i i).symm
          · intro c hc
            simp only [List.mem_cons, List.mem_singleton, List.not_mem_nil, or_false] at hc
            exact ⟨hfile, hc⟩

theorem forNumeral_unique {cmd : Cmd} {j k : Nat} (hj : ForNumeral cmd j)
    (hk : ForNumeral cmd k) : j = k := by
  rcases hj with rfl | rfl <;> rcases hk with h | h
  · simp only [sayNumeral, Cmd.say.injEq] at h
    exact libraryRawFile_inj h.1
  · simp [sayNumeral, padNumeral] at h
  · simp [sayNumeral, padNumeral] at h
  · simp only [padNumeral, Cmd.ffmpegSecond.injEq] at h
    exact libraryRawFile_inj h.1

theorem initializeNumberLibrary_of_loop_ok (backendOk : Nat → Bool) (s s₁ : TTSService)
    (h : s.libraryInitialized = false)
    (hloop : initializeLoop backendOk 200 1 s = (.ok (), s₁)) :
    initializeNumberLibrary backendOk s = (.ok (), { s₁ with libraryInitialized := true }) := by
  unfold initializeNumberLibrary
  rw [if_neg (by rw [h]; decide)]
  exact TTS.bind_of_ok hloop

theorem initializeNumberLibrary_of_loop_error (backendOk : Nat → Bool) (s s₁ : TTSService)
    (e : Err) (h : s.libraryInitialized = false)
    (hloop : initializeLoop backendOk 200 1 s = (.error e, s₁)) :
    initializeNumberLibrary backendOk s = (.error e, s₁) := by
  unfold initializeNumberLibrary
  rw [if_neg (by rw [h]; decide)]
  exact TTS.bind_of_error hloop

/-- A warm-up started on a service that is not initialized ends as its loop does, and sets
`libraryInitialized` exactly when the loop ends without an error. -/
theorem loopOutcome_initializeNumberLibrary (backendOk : Nat → Bool) (s : TTSService)
    (h : s.libraryInitialized = false) :
    LoopOutcome 200 1 s (initializeNumberLibrary backendOk s) ∧
      ((initializeNumberLibrary backendOk s).1 = .ok () →
        (initializeNumberLibrary backendOk s).2.libraryInitialized = true) ∧
      (∀ e, (initializeNumberLibrary backendOk s).1 = .error e →
        (initializeNumberLibrary backendOk s).2.libraryInitialized = false) := by
  have hloop := loopOutcome_initializeLoop backendOk 200 1 s
  have hkeep := keeps_initializeLoop backendOk (keeps_run hostFree_libraryInitialized backendOk)
    (keeps_unlinkSync hostFree_libraryInitialized) libraryFree_libraryInitialized 200 1 s
  rcases hr : initializeLoop backendOk 200 1 s with ⟨e | _, s₁⟩
  · rw [initializeNumberLibrary_of_loop_error backendOk s s₁ e h hr]
    rw [hr] at hloop hkeep
    refine ⟨hloop, ?_, fun _ _ => hkeep.trans h⟩
    intro hok
    cases hok
  · rw [initializeNumberLibrary_of_loop_ok backendOk s s₁ h hr]
    rw [hr] at hloop
    refine ⟨hloop, fun _ => rfl, ?_⟩
    intro e he
    cases he

/-- A warm-up loop that finds the clips below `k` on disk and the clip of `k` absent starts
its backend invocations with `say` for numeral `k`. -/
theorem initializeLoop_resumes (backendOk : Nat → Bool) (k : Nat) :
    ∀ (count i : Nat) (s : TTSService), i ≤ k → k < i + count →
      (∀ j, i ≤ j → j < k → libraryFile j ∈ s.files) → libraryFile k ∉ s.files →
      ∃ rest, (initializeLoop backendOk count i s).2.calls = s.calls ++ sayNumeral k :: rest
  | 0, i, s, h₁, h₂, _, _ => by omega
  | count + 1, i, s, h₁, h₂, hbelow, habsent => by
    by_cases hik : i = k
    · subst hik
      cases hsay : backendOk s.calls.length with
      | false =>
        rw [initializeLoop_say_fails backendOk count i s habsent hsay]
        exact ⟨[], rfl⟩
      | true =>
        cases hpad : backendOk (s.calls.length + 1) with
        | false =>
          rw [initializeLoop_pad_fails backendOk count i s habsent hsay hpad]
          exact ⟨[padNumeral i], List.append_assoc _ _ _⟩
        | true =>
          rw [initializeLoop_generates backendOk count i s habsent hsay hpad]
          obtain ⟨⟨new, hcalls, _⟩, _⟩ := loopOutcome_initializeLoop backendOk count (i + 1)
            (registerClip i (generateClip i s))
          refine ⟨padNumeral i :: new, ?_⟩
          rw [hcalls]
          show (s.calls ++ [sayNumeral i] ++ [padNumeral i]) ++ new = _
          simp only [List.append_assoc, List.singleton_append]
          rfl
    · rw [initializeLoop_present backendOk count i s (hbelow i (le_refl _) (by omega))]
      exact initializeLoop_resumes backendOk k count (i + 1) (registerClip i s) (by omega)
        (by omega) (fun j hj hjk => hbelow j (by omega) hjk) habsent

/-- C14: a successful warm-up of a service that is not initialized, and whose `numberLibrary`
has keys among 1..200 only, leaves `numberLibrary` with an entry for exactly the numerals
1..200; a further call, whatever the backend would answer, returns at once and leaves the
whole state (so `numberLibrary`, the files and the list of backend invocations) as it is.
A warm-up issues no invocation for a numeral whose clip is on disk when it starts. With a
backend that accepts every invocation the warm-up succeeds. -/
theorem C14_warmup_is_idempotent (backendOk : Nat → Bool) (s : TTSService)
    (hinit : s.libraryInitialized = false)
    (hkeys : ∀ j, mapHas s.numberLibrary j = true → 1 ≤ j ∧ j ≤ 200)
    (hsucc : (initializeNumberLibrary backendOk s).1 = .ok ()) :
    (∀ j, mapHas (initializeNumberLibrary backendOk s).2.numberLibrary j = true ↔
      (1 ≤ j ∧ j ≤ 200)) ∧
    (∀ j, 1 ≤ j → j ≤ 200 → libraryFile j ∈ (initializeNumberLibrary backendOk s).2.files) ∧
    (∀ backendOk' : Nat → Bool,
      initializeNumberLibrary backendOk' (initializeNumberLibrary backendOk s).2 =
        (.ok (), (initializeNumberLibrary backendOk s).2)) ∧
    (∀ (backendOk' : Nat → Bool) (s₀ : TTSService) (k : Nat) (cmd : Cmd),
      libraryFile k ∈ s₀.files →
      cmd ∈ (initializeNumberLibrary backendOk' s₀).2.calls.drop s₀.calls.length →
      ¬ ForNumeral cmd k) ∧
    (∀ (backendOk' : Nat → Bool) (s₀ : TTSService), (∀ n, backendOk' n = true) →
      (initializeNumberLibrary backendOk' s₀).1 = .ok ()) := by
  obtain ⟨⟨_, _, _, hok⟩, hset, _⟩ := loopOutcome_initializeNumberLibrary backendOk s hinit
  obtain ⟨hhas, hfiles⟩ := hok hsucc
  refine ⟨fun j => ?_, fun j h₁ h₂ => hfiles j h₁ (by omega), fun backendOk' => ?_, ?_, ?_⟩
  · rw [hhas j]
    constructor
    · rintro (h | h)
      · exact hkeys j h
      · omega
    · exact fun h => Or.inr (by omega)
  · exact initializeNumberLibrary_of_initialized backendOk' _ (hset hsucc)
  · intro backendOk' s₀ k cmd hfile hcmd hnum
    cases h₀ : s₀.libraryInitialized with
    | true =>
      rw [initializeNumberLibrary_of_initialized backendOk' s₀ h₀, List.drop_length] at hcmd
      cases hcmd
    | false =>
      obtain ⟨⟨new, hcalls, hnew, _⟩, _⟩ :=
        (loopOutcome_initializeNumberLibrary backendOk' s₀ h₀).1
      rw [hcalls, List.drop_left] at hcmd
      obtain ⟨j, _, _, habsent, hj⟩ := hnew cmd hcmd
      rw [forNumeral_unique hj hnum] at habsent
      exact habsent hfile
  · intro backendOk' s₀ hall
    obtain ⟨a, ha⟩ := succeeds_initializeNumberLibrary hall s₀
    exact ha

theorem C14_warmup_is_idempotent_witness :
    (∀ j, mapHas (initializeNumberLibrary (fun _ => true) (TTSService.new [])).2.numberLibrary j
        = true ↔ (1 ≤ j ∧ j ≤ 200)) ∧
    (∀ j, 1 ≤ j → j ≤ 200 →
      libraryFile j ∈ (initializeNumberLibrary (fun _ => true) (TTSService.new [])).2.files) ∧
    (∀ backendOk' : Nat → Bool,
      initializeNumberLibrary backendOk'
          (initializeNumberLibrary (fun _ => true) (TTSService.new [])).2 =
        (.ok (), (initializeNumberLibrary (fun _ => true) (TTSService.new [])).2)) ∧
    (∀ (backendOk' : Nat → Bool) (s₀ : TTSService) (k : Nat) (cmd : Cmd),
      libraryFile k ∈ s₀.files →
      cmd ∈ (initializeNumberLibrary backendOk' s₀).2.calls.drop s₀.calls.length →
      ¬ ForNumeral cmd k) ∧
    (∀ (backendOk' : Nat → Bool) (s₀ : TTSService), (∀ n, backendOk' n = true) →
      (initializeNumberLibrary backendOk' s₀).1 = .ok ()) :=
  (succeeds_initializeNumberLibrary (fun _ => rfl) (TTSService.new [])).elim fun _ h =>
    C14_warmup_is_idempotent (fun _ => true) (TTSService.new []) rfl
      (fun _ hj => by cases hj) h

theorem initializeNumberLibrary_calls (backendOk : Nat → Bool) (s : TTSService)
    (h : s.libraryInitialized = false) :
    (initializeNumberLibrary backendOk s).2.calls =
      (initializeLoop backendOk 200 1 s).2.calls := by
  rcases hr : initializeLoop backendOk 200 1 s with ⟨e | _, s₁⟩
  · rw [initializeNumberLibrary_of_loop_error backendOk s s₁ e h hr]
  · rw [initializeNumberLibrary_of_loop_ok backendOk s s₁ h hr]

/-- C15: if the backend rejects an invocation that a call of initializeNumberLibrary issues
for numeral `k` (its `say` or its ffmpeg step), then `k` is one of 1..200, the call ends with
the error of that invocation, `libraryInitialized` is false afterwards, every invocation the
call issued is for a numeral not above `k`, and the next call does not return at once: the
first invocation it issues is `say` for numeral `k` again. -/
theorem C15_failed_numeral_aborts_warmup (backendOk : Nat → Bool) (s : TTSService)
    (n k : Nat) (cmd : Cmd)
    (hissued : s.calls.length ≤ n ∧
      (initializeNumberLibrary backendOk s).2.calls[n]? = some cmd)
    (hnumeral : ForNumeral cmd k)
    (hfail : backendOk n = false) :
    (1 ≤ k ∧ k ≤ 200) ∧
    (initializeNumberLibrary backendOk s).1 = .error (.backend cmd) ∧
    (initializeNumberLibrary backendOk s).2.libraryInitialized = false ∧
    (∀ c ∈ (initializeNumberLibrary backendOk s).2.calls.drop s.calls.length,
      ∃ j, j ≤ k ∧ ForNumeral c j) ∧
    (∀ backendOk' : Nat → Bool, ∃ rest,
      (initializeNumberLibrary backendOk' (initializeNumberLibrary backendOk s).2).2.calls =
        (initializeNumberLibrary backendOk s).2.calls ++ sayNumeral k :: rest) := by
  cases hinit : s.libraryInitialized with
  | true =>
    have h := hissued.2
    rw [initializeNumberLibrary_of_initialized backendOk s hinit,
      List.getElem?_eq_none hissued.1] at h
    cases h
  | false =>
    obtain ⟨hout, _, herrinit⟩ := loopOutcome_initializeNumberLibrary backendOk s hinit
    obtain ⟨new, hcalls, hnew⟩ := traced_initializeNumberLibrary backendOk s
    have hget : new[n - s.calls.length]? = some cmd := by
      have h := hissued.2
      rw [hcalls, List.getElem?_append_right hissued.1] at h
      exact h
    have herr := hnew _ _ hget (by rw [Nat.add_sub_cancel' hissued.1]; exact hfail)
    obtain ⟨⟨new', hcalls', _, herr'⟩, _⟩ := hout
    obtain ⟨k', cmd', h₁, h₂, h₃, h₄, h₅, h₆, h₇⟩ := herr' _ herr
    have hcmd : cmd' = cmd := by
      injection h₄ with h
      exact h.symm
    rw [hcmd] at h₃
    have hk : k' = k := forNumeral_unique h₃ hnumeral
    rw [hk] at h₁ h₂ h₅ h₆ h₇
    refine ⟨⟨h₁, by omega⟩, herr, herrinit _ herr, ?_, fun backendOk' => ?_⟩
    · rw [hcalls', List.drop_left]
      exact h₅
    · rw [initializeNumberLibrary_calls backendOk' _ (herrinit _ herr)]
      exact initializeLoop_resumes backendOk' k 200 1 _ h₁ (by omega) h₆ h₇

theorem C15_failed_numeral_aborts_warmup_witness :
    (1 ≤ 2 ∧ 2 ≤ 200) ∧
    (initializeNumberLibrary (fun n => decide (n ≠ 3)) (TTSService.new [])).1
      = .error (.backend (padNumeral 2)) ∧
    (initializeNumberLibrary (fun n => decide (n ≠ 3)) (TTSService.new [])).2.libraryInitialized
      = false ∧
    (∀ c ∈ (initializeNumberLibrary (fun n => decide (n ≠ 3)) (TTSService.new [])).2.calls.drop
        (TTSService.new []).calls.length,
      ∃ j, j ≤ 2 ∧ ForNumeral c j) ∧
    (∀ backendOk' : Nat → Bool, ∃ rest,
      (initializeNumberLibrary backendOk'
          (initializeNumberLibrary (fun n => decide (n ≠ 3)) (TTSService.new [])).2).2.calls =
        (initializeNumberLibrary (fun n => decide (n ≠ 3)) (TTSService.new [])).2.calls
          ++ sayNumeral 2 :: rest) :=
  C15_failed_numeral_aborts_warmup (fun n => decide (n ≠ 3)) (TTSService.new []) 3 2
    (padNumeral 2) (by decide!) (Or.inr rfl) (by decide)

/-! ### Paths of the temporary files -/

theorem nameHead_introFile (ts : Nat) : nameHead (introFile ts) = some 'i' := by
  simp [nameHead, introFile, pathJoin, tempDir, String.data_append]

theorem nameHead_introWav (ts : Nat) : nameHead (introWav ts) = some 'i' := by
  simp [nameHead, introWav, pathJoin, tempDir, String.data_append]

theorem nameHead_finalAiff (ts : Nat) : nameHead (finalAiff ts) = some 'f' := by
  simp [nameHead, finalAiff, pathJoin, tempDir, String.data_append]

theorem nameHead_finalWav (ts : Nat) : nameHead (finalWav ts) = some 'f' := by
  simp [nameHead, finalWav, pathJoin, tempDir, String.data_append]

theorem nameHead_listFile (ts : Nat) : nameHead (listFile ts) = some 'l' := by
  simp [nameHead, listFile, pathJoin, tempDir, String.data_append]

theorem nameHead_rawFile (i ts : Nat) : nameHead (rawFile i ts) = some 'r' := by
  simp [nameHead, rawFile, pathJoin, tempDir, String.data_append]

theorem nameHead_segFile (i ts : Nat) : nameHead (segFile i ts) = some 's' := by
  simp [nameHead, segFile, pathJoin, tempDir, String.data_append]

theorem nameHead_outputFile (cacheKey : String) : nameHead (outputFile cacheKey) = some 's' := by
  simp [nameHead, outputFile, pathJoin, tempDir, String.data_append]

theorem ne_of_nameHead {p q : String} {c d : Char} (hp : nameHead p = some c)
    (hq : nameHead q = some d) (h : c ≠ d) : p ≠ q := by
  intro e
  rw [e, hq] at hp
  exact h (Option.some.inj hp).symm

theorem inLibraryDir_introFile (ts : Nat) : inLibraryDir (introFile ts) = false := by
  simp [inLibraryDir, introFile, pathJoin, tempDir, String.data_append, List.isPrefixOf]

theorem inLibraryDir_introWav (ts : Nat) : inLibraryDir (introWav ts) = false := by
  simp [inLibraryDir, introWav, pathJoin, tempDir, String.data_append, List.isPrefixOf]

theorem inLibraryDir_finalAiff (ts : Nat) : inLibraryDir (finalAiff ts) = false := by
  simp [inLibraryDir, finalAiff, pathJoin, tempDir, String.data_append, List.isPrefixOf]

theorem inLibraryDir_finalWav (ts : Nat) : inLibraryDir (finalWav ts) = false := by
  simp [inLibraryDir, finalWav, pathJoin, tempDir, String.data_append, List.isPrefixOf]

theorem inLibraryDir_listFile (ts : Nat) : inLibraryDir (listFile ts) = false := by
  simp [inLibraryDir, listFile, pathJoin, tempDir, String.data_append, List.isPrefixOf]

theorem inLibraryDir_rawFile (i ts : Nat) : inLibraryDir (rawFile i ts) = false := by
  simp [inLibraryDir, rawFile, pathJoin, tempDir, String.data_append, List.isPrefixOf]

theorem inLibraryDir_segFile (i ts : Nat) : inLibraryDir (segFile i ts) = false := by
  simp [inLibraryDir, segFile, pathJoin, tempDir, String.data_append, List.isPrefixOf]

theorem inLibraryDir_outputFile (cacheKey : String) : inLibraryDir (outputFile cacheKey) = false := by
  simp [inLibraryDir, outputFile, pathJoin, tempDir, String.data_append, List.isPrefixOf]

theorem inLibraryDir_libraryFile (i : Nat) : inLibraryDir (libraryFile i) = true := by
  simp [inLibraryDir, libraryFile, pathJoin, libraryDir, String.data_append, List.isPrefixOf]

theorem inLibraryDir_libraryRawFile (i : Nat) : inLibraryDir (libraryRawFile i) = true := by
  simp [inLibraryDir, libraryRawFile, pathJoin, libraryDir, String.data_append,
    List.isPrefixOf]

/-! ### Temporary files on the success path -/

theorem staysAbsent_bind {α β : Type} {path : String} {m : TTS α} {f : α → TTS β}
    (hm : StaysAbsent path m) (hf : ∀ a, StaysAbsent path (f a)) :
    StaysAbsent path (m >>= f) := by
  intro s b s' h habs
  obtain ⟨a, s₁, h₁, h₂⟩ := TTS.bind_eq_ok h
  exact hf a s₁ b s' h₂ (hm s a s₁ h₁ habs)

theorem removes_bind_left {α β : Type} {path : String} {m : TTS α} {f : α → TTS β}
    (hm : Removes path m) (hf : ∀ a, StaysAbsent path (f a)) : Removes path (m >>= f) := by
  intro s b s' h
  obtain ⟨a, s₁, h₁, h₂⟩ := TTS.bind_eq_ok h
  exact hf a s₁ b s' h₂ (hm s a s₁ h₁)

theorem removes_bind_right {α β : Type} {path : String} {m : TTS α} {f : α → TTS β}
    (hf : ∀ a, Removes path (f a)) : Removes path (m >>= f) := by
  intro s b s' h
  obtain ⟨a, s₁, _, h₂⟩ := TTS.bind_eq_ok h
  exact hf a s₁ b s' h₂

theorem staysAbsent_of_removes {α : Type} {path : String} {m : TTS α}
    (h : Removes path m) : StaysAbsent path m := fun s a s' hm _ => h s a s' hm

theorem staysAbsent_of_keeps {α : Type} {path : String} {m : TTS α}
    (h : Keeps TTSService.files m) : StaysAbsent path m := by
  intro s a s' hm habs
  have := h s
  rw [hm] at this
  rw [show s'.files = s.files from this]
  exact habs

theorem staysAbsent_run {path : String} (backendOk : Nat → Bool) (cmd : Cmd)
    (h : cmd.output ≠ path) : StaysAbsent path (run backendOk cmd) := by
  intro s a s' hm habs
  unfold run at hm
  split at hm
  · simp only [Prod.mk.injEq] at hm
    rw [← hm.2]
    intro hmem
    rcases (mem_createFile _ _ _).1 hmem with h' | h'
    · exact habs (mem_shellEffect h')
    · exact h h'.symm
  · simp at hm

theorem staysAbsent_writeFileSync {path : String} (q text : String) (h : q ≠ path) :
    StaysAbsent path (writeFileSync q text) := by
  intro s a s' hm habs
  simp only [writeFileSync, Prod.mk.injEq] at hm
  rw [← hm.2]
  intro hmem
  rcases (mem_createFile _ _ _).1 hmem with h' | h'
  · exact habs h'
  · exact h h'.symm

theorem staysAbsent_unlinkSync (path q : String) : StaysAbsent path (unlinkSync q) := by
  intro s a s' hm habs
  simp only [unlinkSync, Prod.mk.injEq] at hm
  rw [← hm.2]
  exact fun hmem => habs (List.mem_filter.1 hmem).1

theorem removes_unlinkSync (path : String) : Removes path (unlinkSync path) := by
  intro s a s' hm
  simp only [unlinkSync, Prod.mk.injEq] at hm
  rw [← hm.2]
  intro hmem
  simpa using (List.mem_filter.1 hmem).2

theorem staysAbsent_cleanupFallback (path : String) (ts : Nat) :
    ∀ numberFiles, StaysAbsent path (cleanupFallback ts numberFiles)
  | [] => staysAbsent_of_keeps (keeps_pure _)
  | f :: fs => by
    unfold cleanupFallback
    refine staysAbsent_bind ?_ (fun _ => staysAbsent_cleanupFallback path ts fs)
    split
    · exact staysAbsent_unlinkSync _ _
    · exact staysAbsent_of_keeps (keeps_pure _)

theorem staysAbsent_numberLoop {path : String} (backendOk : Nat → Bool) (ts : Nat)
    (hseg : ∀ i, segFile i ts ≠ path) :
    ∀ count i numberFiles, StaysAbsent path (numberLoop backendOk ts count i numberFiles)
  | 0, _, _ => staysAbsent_of_keeps (keeps_pure _)
  | count + 1, i, numberFiles => by
    unfold numberLoop
    refine staysAbsent_bind (staysAbsent_of_keeps (keeps_numberLibraryGet _ i))
      fun numberFile => ?_
    refine staysAbsent_bind (staysAbsent_of_keeps (keeps_presentOnDisk _ numberFile))
      fun present => ?_
    split
    · exact staysAbsent_numberLoop backendOk ts hseg count _ _
    · by_cases hraw : rawFile i ts = path
      · refine staysAbsent_of_removes (removes_bind_right fun _ => ?_)
        refine removes_bind_right fun _ => ?_
        rw [hraw]
        exact removes_bind_left (removes_unlinkSync _)
          fun _ => staysAbsent_numberLoop backendOk ts hseg count _ _
      · refine staysAbsent_bind (staysAbsent_run _ _ hraw) fun _ => ?_
        refine staysAbsent_bind (staysAbsent_run _ _ (hseg i)) fun _ => ?_
        exact staysAbsent_bind (staysAbsent_unlinkSync _ _)
          fun _ => staysAbsent_numberLoop backendOk ts hseg count _ _

theorem removes_throwErr {α : Type} (path : String) (e : Err) :
    Removes path (throwErr e : TTS α) := by
  intro s a s' h
  simp [throwErr] at h

/-- The last statements of `generateOnMiss`, from the removal of the re-encoded clips on,
create no file. -/
theorem staysAbsent_generateOnMiss_tail (path cacheKey : String) (ts : Nat)
    (numberFiles : List String) :
    StaysAbsent path (do
      unlinkSync (introWav ts)
      unlinkSync (finalWav ts)
      unlinkSync (listFile ts)
      cleanupFallback ts numberFiles
      audioCacheSet cacheKey (outputFile cacheKey)
      pure ({ path := outputFile cacheKey } : AudioResource)) := by
  refine staysAbsent_bind (staysAbsent_unlinkSync _ _) fun _ => ?_
  refine staysAbsent_bind (staysAbsent_unlinkSync _ _) fun _ => ?_
  refine staysAbsent_bind (staysAbsent_unlinkSync _ _) fun _ => ?_
  refine staysAbsent_bind (staysAbsent_cleanupFallback _ _ _) fun _ => ?_
  exact staysAbsent_bind (staysAbsent_of_keeps (keeps_audioCacheSet cacheFree_files _ _))
    fun _ => staysAbsent_of_keeps (keeps_pure _)

theorem removes_finalAiff_generateOnMiss (backendOk : Nat → Bool) (cacheKey : String)
    (players : List Player) (ts : Nat) :
    Removes (finalAiff ts) (generateOnMiss backendOk cacheKey players ts) := by
  unfold generateOnMiss
  split
  · exact removes_throwErr _ _
  · refine removes_bind_right fun _ => ?_
    refine removes_bind_right fun numberFiles => ?_
    refine removes_bind_right fun _ => ?_
    refine removes_bind_right fun _ => ?_
    refine removes_bind_left (removes_unlinkSync _) fun _ => ?_
    refine staysAbsent_bind (staysAbsent_run _ (.ffmpegEncode (introFile ts) (introWav ts))
      (ne_of_nameHead (nameHead_introWav _) (nameHead_finalAiff _) (by decide))) fun _ => ?_
    refine staysAbsent_bind (staysAbsent_unlinkSync _ _) fun _ => ?_
    refine staysAbsent_bind (staysAbsent_writeFileSync _ _
      (ne_of_nameHead (nameHead_listFile _) (nameHead_finalAiff _) (by decide))) fun _ => ?_
    refine staysAbsent_bind (staysAbsent_run _
      (.ffmpegConcat (listFile ts) (outputFile cacheKey))
      (ne_of_nameHead (nameHead_outputFile _) (nameHead_finalAiff _) (by decide))) fun _ => ?_
    exact staysAbsent_generateOnMiss_tail _ _ _ _

theorem removes_introFile_generateOnMiss (backendOk : Nat → Bool) (cacheKey : String)
    (players : List Player) (ts : Nat) :
    Removes (introFile ts) (generateOnMiss backendOk cacheKey players ts) := by
  unfold generateOnMiss
  split
  · exact removes_throwErr _ _
  · refine removes_bind_right fun _ => ?_
    refine removes_bind_right fun numberFiles => ?_
    refine removes_bind_right fun _ => ?_
    refine removes_bind_right fun _ => ?_
    refine removes_bind_right fun _ => ?_
    refine removes_bind_right fun _ => ?_
    refine removes_bind_left (removes_unlinkSync _) fun _ => ?_
    refine staysAbsent_bind (staysAbsent_writeFileSync _ _
      (ne_of_nameHead (nameHead_listFile _) (nameHead_introFile _) (by decide))) fun _ => ?_
    refine staysAbsent_bind (staysAbsent_run _
      (.ffmpegConcat (listFile ts) (outputFile cacheKey))
      (ne_of_nameHead (nameHead_outputFile _) (nameHead_introFile _) (by decide))) fun _ => ?_
    exact staysAbsent_generateOnMiss_tail _ _ _ _

theorem removes_clips_generateOnMiss (backendOk : Nat → Bool) (cacheKey : String)
    (players : List Player) (ts : Nat) :
    Removes (introWav ts) (generateOnMiss backendOk cacheKey players ts) ∧
      Removes (finalWav ts) (generateOnMiss backendOk cacheKey players ts) ∧
      Removes (listFile ts) (generateOnMiss backendOk cacheKey players ts) := by
  unfold generateOnMiss
  refine ⟨?_, ?_, ?_⟩
  all_goals
    split
    · exact removes_throwErr _ _
    · refine removes_bind_right fun _ => ?_
      refine removes_bind_right fun numberFiles => ?_
      refine removes_bind_right fun _ => ?_
      refine removes_bind_right fun _ => ?_
      refine removes_bind_right fun _ => ?_
      refine removes_bind_right fun _ => ?_
      refine removes_bind_right fun _ => ?_
      refine removes_bind_right fun _ => ?_
      refine removes_bind_right fun _ => ?_
      first
      | refine removes_bind_left (removes_unlinkSync _) fun _ => ?_
      | refine removes_bind_right fun _ => ?_
        first
        | refine removes_bind_left (removes_unlinkSync _) fun _ => ?_
        | refine removes_bind_right fun _ => ?_
          refine removes_bind_left (removes_unlinkSync _) fun _ => ?_
      all_goals
        repeat first
          | exact staysAbsent_bind (staysAbsent_of_keeps
              (keeps_audioCacheSet cacheFree_files _ _))
              fun _ => staysAbsent_of_keeps (keeps_pure _)
          | refine staysAbsent_bind (staysAbsent_unlinkSync _ _) fun _ => ?_
          | refine staysAbsent_bind (staysAbsent_cleanupFallback _ _ _) fun _ => ?_

/-- A raw fallback file that is absent before a successful generation is absent after it. -/
theorem staysAbsent_rawFile_generateOnMiss (backendOk : Nat → Bool) (cacheKey : String)
    (players : List Player) (ts i : Nat) :
    StaysAbsent (rawFile i ts) (generateOnMiss backendOk cacheKey players ts) := by
  have hne : ∀ {q : String} {c : Char}, nameHead q = some c → c ≠ 'r' → q ≠ rawFile i ts :=
    fun hq hc => ne_of_nameHead hq (nameHead_rawFile i ts) hc
  unfold generateOnMiss
  split
  · exact staysAbsent_of_removes (removes_throwErr _ _)
  · refine staysAbsent_bind (staysAbsent_run _ (.say (introFile ts) _)
      (hne (nameHead_introFile ts) (by decide))) fun _ => ?_
    refine staysAbsent_bind (staysAbsent_numberLoop _ _
      (fun j => hne (nameHead_segFile j ts) (by decide)) _ _ _) fun numberFiles => ?_
    refine staysAbsent_bind (staysAbsent_run _ (.say (finalAiff ts) _)
      (hne (nameHead_finalAiff ts) (by decide))) fun _ => ?_
    refine staysAbsent_bind (staysAbsent_run _ (.ffmpegEncode (finalAiff ts) (finalWav ts))
      (hne (nameHead_finalWav ts) (by decide))) fun _ => ?_
    refine staysAbsent_bind (staysAbsent_unlinkSync _ _) fun _ => ?_
    refine staysAbsent_bind (staysAbsent_run _ (.ffmpegEncode (introFile ts) (introWav ts))
      (hne (nameHead_introWav ts) (by decide))) fun _ => ?_
    refine staysAbsent_bind (staysAbsent_unlinkSync _ _) fun _ => ?_
    refine staysAbsent_bind (staysAbsent_writeFileSync _ _
      (hne (nameHead_listFile ts) (by decide))) fun _ => ?_
    refine staysAbsent_bind (staysAbsent_run _
      (.ffmpegConcat (listFile ts) (outputFile cacheKey))
      (hne (nameHead_outputFile cacheKey) (by decide))) fun _ => ?_
    exact staysAbsent_generateOnMiss_tail _ _ _ _

theorem libraryFree_files : LibraryFree TTSService.files := fun _ _ => rfl

theorem ne_of_inLibraryDir {p q : String} (hp : inLibraryDir p = true)
    (hq : inLibraryDir q = false) : p ≠ q := by
  intro e
  rw [e, hq] at hp
  cases hp

/-- The warm-up creates files in the library directory only. -/
theorem staysAbsent_initializeLoop {path : String} (backendOk : Nat → Bool)
    (h : inLibraryDir path = false) :
    ∀ count i, StaysAbsent path (initializeLoop backendOk count i)
  | 0, _ => staysAbsent_of_keeps (keeps_pure _)
  | count + 1, i => by
    unfold initializeLoop
    refine staysAbsent_bind (staysAbsent_of_keeps (keeps_existsSync _ _)) fun present => ?_
    refine staysAbsent_bind ?_ fun _ => staysAbsent_initializeLoop backendOk h count _
    split
    · exact staysAbsent_of_keeps (keeps_numberLibrarySet libraryFree_files _ _)
    · refine staysAbsent_bind (staysAbsent_run _ (.say (libraryRawFile i) _)
        (ne_of_inLibraryDir (inLibraryDir_libraryRawFile i) h)) fun _ => ?_
      refine staysAbsent_bind (staysAbsent_run _
        (.ffmpegSecond (libraryRawFile i) (libraryFile i))
        (ne_of_inLibraryDir (inLibraryDir_libraryFile i) h)) fun _ => ?_
      exact staysAbsent_bind (staysAbsent_unlinkSync _ _)
        fun _ => staysAbsent_of_keeps (keeps_numberLibrarySet libraryFree_files _ _)

theorem staysAbsent_initializeNumberLibrary {path : String} (backendOk : Nat → Bool)
    (h : inLibraryDir path = false) : StaysAbsent path (initializeNumberLibrary backendOk) := by
  intro s a s' hm
  unfold initializeNumberLibrary at hm
  split at hm
  · simp only [Prod.mk.injEq] at hm
    rw [← hm.2]
    exact fun habs => habs
  · exact staysAbsent_bind (staysAbsent_initializeLoop backendOk h 200 1)
      (fun _ => staysAbsent_of_keeps (fun _ => rfl)) s a s' hm

/-- A successful call that misses the cache is a successful warm-up followed by a successful
generation. -/
theorem generateSynchronizedCountdown_miss_ok (localeCompare : String → String → Int)
    (digest : String → String) (backendOk : Nat → Bool) (players : List Player)
    (d ts : Nat) (s s' : TTSService) (r : AudioResource)
    (hmiss : cachedOnDisk (buildCountdownCacheKey localeCompare digest players)
      (initializeNumberLibrary backendOk s).2 = false)
    (h : generateSynchronizedCountdown localeCompare digest backendOk players d ts s
      = (.ok r, s')) :
    ∃ s₀, initializeNumberLibrary backendOk s = (.ok (), s₀) ∧
      generateOnMiss backendOk (buildCountdownCacheKey localeCompare digest players) players ts
        s₀ = (.ok r, s') := by
  unfold generateSynchronizedCountdown at h
  obtain ⟨u, s₀, h₀, h⟩ := TTS.bind_eq_ok h
  rw [h₀] at hmiss
  obtain ⟨cachedPath, s₁, h₁, h⟩ := TTS.bind_eq_ok h
  simp only [audioCacheGet, Prod.mk.injEq, Except.ok.injEq] at h₁
  obtain ⟨hc, rfl⟩ := h₁
  obtain ⟨present, s₂, h₂, h⟩ := TTS.bind_eq_ok h
  rw [presentOnDisk_apply] at h₂
  simp only [Prod.mk.injEq, Except.ok.injEq] at h₂
  obtain ⟨hp, rfl⟩ := h₂
  have hfalse : present = false := by
    rw [← hp]
    simp only [cachedOnDisk, hc] at hmiss
    cases cachedPath with
    | none => rfl
    | some path => exact hmiss
  subst hfalse
  simp only [Bool.false_eq_true, if_false] at h
  exact ⟨s₀, h₀, h⟩

/-- C16 (counterexample): with a warmed-up library holding the clips of 1 and 2, a request
with maximum offset 3 whose last backend invocation (the concatenation) is rejected ends
with that error and leaves the fallback segment, both re-encoded clips and the concat list
behind. -/
theorem C16_failed_call_keeps_temp_files :
    (generateSynchronizedCountdown ordinalCompare id (fun n => decide (n ≠ 6)) demoPlayers 5
        1700 warmService).1 =
      .error (.backend (.ffmpegConcat (listFile 1700)
        (outputFile (buildCountdownCacheKey ordinalCompare id demoPlayers)))) ∧
    (generateSynchronizedCountdown ordinalCompare id (fun n => decide (n ≠ 6)) demoPlayers 5
        1700 warmService).2.files =
      [libraryFile 1, libraryFile 2, segFile 3 1700, finalWav 1700, introWav 1700,
        listFile 1700] := by
  decide!

/-- C16 (amended): a successful call that misses the cache has removed, by the time it ends,
the intro `.aiff` and `.wav`, the final `.aiff` and `.wav` and the concat list file, and has
left no raw fallback file that was not there before the call. -/
theorem C16_success_removes_intermediate_files (localeCompare : String → String → Int)
    (digest : String → String) (backendOk : Nat → Bool) (players : List Player)
    (d ts : Nat) (s : TTSService) (r : AudioResource)
    (hmiss : cachedOnDisk (buildCountdownCacheKey localeCompare digest players)
      (initializeNumberLibrary backendOk s).2 = false)
    (hok : (generateSynchronizedCountdown localeCompare digest backendOk players d ts s).1
      = .ok r) :
    introFile ts ∉
        (generateSynchronizedCountdown localeCompare digest backendOk players d ts s).2.files ∧
      introWav ts ∉
        (generateSynchronizedCountdown localeCompare digest backendOk players d ts s).2.files ∧
      finalAiff ts ∉
        (generateSynchronizedCountdown localeCompare digest backendOk players d ts s).2.files ∧
      finalWav ts ∉
        (generateSynchronizedCountdown localeCompare digest backendOk players d ts s).2.files ∧
      listFile ts ∉
        (generateSynchronizedCountdown localeCompare digest backendOk players d ts s).2.files ∧
      ∀ i, rawFile i ts ∉ s.files → rawFile i ts ∉
        (generateSynchronizedCountdown localeCompare digest backendOk players d ts s).2.files := by
  have h : generateSynchronizedCountdown localeCompare digest backendOk players d ts s =
      (.ok r, (generateSynchronizedCountdown localeCompare digest backendOk players d ts s).2) :=
    Prod.ext hok rfl
  obtain ⟨s₀, h₀, hgen⟩ :=
    generateSynchronizedCountdown_miss_ok _ _ _ _ _ _ _ _ _ hmiss h
  obtain ⟨hiw, hfw, hlf⟩ := removes_clips_generateOnMiss backendOk
    (buildCountdownCacheKey localeCompare digest players) players ts
  refine ⟨removes_introFile_generateOnMiss _ _ _ _ _ _ _ hgen, hiw _ _ _ hgen,
    removes_finalAiff_generateOnMiss _ _ _ _ _ _ _ hgen, hfw _ _ _ hgen, hlf _ _ _ hgen,
    fun i habs => ?_⟩
  exact staysAbsent_rawFile_generateOnMiss _ _ _ _ _ _ _ _ hgen
    (staysAbsent_initializeNumberLibrary backendOk (inLibraryDir_rawFile i ts) _ _ _ h₀ habs)

theorem C16_success_removes_intermediate_files_witness :
    introFile 1700 ∉
        (generateSynchronizedCountdown ordinalCompare id (fun _ => true) demoPlayers 5 1700
          warmService).2.files ∧
      introWav 1700 ∉
        (generateSynchronizedCountdown ordinalCompare id (fun _ => true) demoPlayers 5 1700
          warmService).2.files ∧
      finalAiff 1700 ∉
        (generateSynchronizedCountdown ordinalCompare id (fun _ => true) demoPlayers 5 1700
          warmService).2.files ∧
      finalWav 1700 ∉
        (generateSynchronizedCountdown ordinalCompare id (fun _ => true) demoPlayers 5 1700
          warmService).2.files ∧
      listFile 1700 ∉
        (generateSynchronizedCountdown ordinalCompare id (fun _ => true) demoPlayers 5 1700
          warmService).2.files ∧
      ∀ i, rawFile i 1700 ∉ warmService.files → rawFile i 1700 ∉
        (generateSynchronizedCountdown ordinalCompare id (fun _ => true) demoPlayers 5 1700
          warmService).2.files :=
  C16_success_removes_intermediate_files ordinalCompare id (fun _ => true) demoPlayers 5 1700
    warmService { path := outputFile (buildCountdownCacheKey ordinalCompare id demoPlayers) }
    (by decide!) (by decide!)

/-! ### Files of the library directory -/

theorem touchesAt_bind {α β : Type} {P : String → Prop} {m : TTS α} {f : α → TTS β}
    {s : TTSService} (hm : TouchesAt P m s)
    (hf : ∀ a s₁, m s = (.ok a, s₁) → TouchesAt P (f a) s₁) : TouchesAt P (m >>= f) s := by
  intro p hp
  have h := hm p hp
  rw [TTS.bind_apply]
  split
  · next a s₁ heq =>
    rw [heq] at h
    exact (hf a s₁ heq p hp).trans h
  · next e s₁ heq =>
    rw [heq] at h
    exact h

theorem touchesAt_of_keeps {α : Type} {P : String → Prop} {m : TTS α}
    (h : Keeps TTSService.files m) (s : TTSService) : TouchesAt P m s := by
  intro p _
  rw [show (m s).2.files = s.files from h s]

theorem touchesAt_run {P : String → Prop} (backendOk : Nat → Bool) (cmd : Cmd)
    (h : P cmd.output) (s : TTSService) (hshell : shellEffect cmd s.files = s.files) :
    TouchesAt P (run backendOk cmd) s := by
  intro p hp
  unfold run
  rw [hshell]
  split
  · show p ∈ createFile s.files cmd.output ↔ p ∈ s.files
    rw [mem_createFile]
    constructor
    · rintro (h' | h')
      · exact h'
      · rw [h'] at hp
        exact absurd h hp
    · exact Or.inl
  · exact Iff.rfl

theorem touchesAt_writeFileSync {P : String → Prop} (q text : String) (h : P q)
    (s : TTSService) : TouchesAt P (writeFileSync q text) s := by
  intro p hp
  show p ∈ createFile s.files q ↔ p ∈ s.files
  rw [mem_createFile]
  constructor
  · rintro (h' | h')
    · exact h'
    · rw [h'] at hp
      exact absurd h hp
  · exact Or.inl

theorem touchesAt_unlinkSync {P : String → Prop} (q : String) (h : P q) (s : TTSService) :
    TouchesAt P (unlinkSync q) s := by
  intro p hp
  show p ∈ s.files.filter (fun f => !decide (f = q)) ↔ p ∈ s.files
  rw [List.mem_filter]
  constructor
  · exact fun h' => h'.1
  · intro h'
    refine ⟨h', ?_⟩
    have : p ≠ q := fun e => hp (e ▸ h)
    simpa using this

theorem touchesAt_cleanupFallback {P : String → Prop} (ts : Nat) :
    ∀ (numberFiles : List String),
      (∀ f ∈ numberFiles, includes f ("seg_" ++ numStr ts) = true → P f) →
      ∀ s, TouchesAt P (cleanupFallback ts numberFiles) s
  | [], _, s => touchesAt_of_keeps (keeps_pure _) s
  | f :: fs, h, s => by
    unfold cleanupFallback
    refine touchesAt_bind ?_ fun _ s₁ _ =>
      touchesAt_cleanupFallback ts fs (fun g hg => h g (List.mem_cons_of_mem _ hg)) s₁
    split
    · next hinc => exact touchesAt_unlinkSync f (h f (List.mem_cons_self _ _) hinc) s
    · exact touchesAt_of_keeps (keeps_pure _) s

theorem touchesAt_numberLoop {P : String → Prop} (backendOk : Nat → Bool) (ts : Nat)
    (hraw : ∀ i, P (rawFile i ts)) (hseg : ∀ i, P (segFile i ts)) :
    ∀ count i numberFiles s, TouchesAt P (numberLoop backendOk ts count i numberFiles) s
  | 0, _, _, s => touchesAt_of_keeps (keeps_pure _) s
  | count + 1, i, numberFiles, s => by
    unfold numberLoop
    refine touchesAt_bind (touchesAt_of_keeps (keeps_numberLibraryGet _ i) s)
      fun numberFile s₁ _ => ?_
    refine touchesAt_bind (touchesAt_of_keeps (keeps_presentOnDisk _ numberFile) s₁)
      fun present s₂ _ => ?_
    split
    · exact touchesAt_numberLoop backendOk ts hraw hseg count _ _ s₂
    · refine touchesAt_bind (touchesAt_run _ (.say (rawFile i ts) _) (hraw i) s₂
          (shellEffect_say_of_safe _ _ _ (numeralText_safe i))) fun _ s₃ _ => ?_
      refine touchesAt_bind
        (touchesAt_run _ (.ffmpegSecond (rawFile i ts) (segFile i ts)) (hseg i) s₃ rfl)
        fun _ s₄ _ => ?_
      exact touchesAt_bind (touchesAt_unlinkSync _ (hraw i) s₄)
        fun _ s₅ _ => touchesAt_numberLoop backendOk ts hraw hseg count _ _ s₅

/-- A text that does not contain the first character of the pattern does not include the
pattern. -/
theorem includes_eq_false_of_head_not_mem (s pattern : String) (c : Char) (rest : List Char)
    (hpat : pattern.data = c :: rest) (hc : c ∉ s.data) : includes s pattern = false := by
  unfold includes
  rw [List.any_eq_false]
  intro t ht
  rw [hpat]
  cases t with
  | nil => simp [List.isPrefixOf]
  | cons d t' =>
    have hd : d ∈ s.data := ((List.mem_tails _ _).1 ht).subset (List.mem_cons_self _ _)
    have hcd : c ≠ d := fun e => hc (e ▸ hd)
    simp [List.isPrefixOf, hcd]

/-- The deletion test of the final cleanup loop is false for every library clip. -/
theorem includes_libraryFile (i ts : Nat) :
    includes (libraryFile i) ("seg_" ++ numStr ts) = false := by
  refine includes_eq_false_of_head_not_mem _ _ 's' ("eg_".data ++ (numStr ts).data)
    (by simp [String.data_append]) ?_
  rw [libraryFile_data]
  intro hmem
  rcases List.mem_append.1 hmem with h | h
  · revert h; decide
  · rcases List.mem_append.1 h with h | h
    · exact absurd (numberToString_isDigit i _ h) (by decide)
    · revert h; decide

theorem firstPlayer_mem {players : List Player} {first : Player}
    (h : firstPlayer players = some first) : first ∈ players := by
  unfold firstPlayer at h
  cases hfind : players.find? (fun p => p.attackStartTime == 0) with
  | some p =>
    rw [hfind] at h
    cases h
    exact List.mem_of_find?_eq_some hfind
  | none =>
    rw [hfind] at h
    cases players with
    | nil => cases h
    | cons q qs =>
      cases h
      exact List.mem_cons_self _ _

theorem dollar_not_mem_of_safe {cs : List Char} (h : ∀ c ∈ cs, shellSpecial c = false) :
    '$' ∉ cs := fun hmem => absurd (h _ hmem) (by decide)

theorem introLine_safe (p : Player) (h : ∀ c ∈ p.name.data, shellSpecial c = false) :
    '$' ∉ (introLine p).data := by
  have hname := dollar_not_mem_of_safe h
  unfold introLine
  split
  · rw [String.data_append]
    intro hmem
    rcases List.mem_append.1 hmem with h' | h'
    · exact hname h'
    · revert h'; decide
  · simp only [String.data_append, numStr]
    intro hmem
    rcases List.mem_append.1 hmem with h' | h'
    · rcases List.mem_append.1 h' with h' | h'
      · rcases List.mem_append.1 h' with h' | h'
        · exact hname h'
        · revert h'; decide
      · exact absurd (numberToString_isDigit _ _ h') (by decide)
    · revert h'; decide

theorem concatAll_introLine_safe : ∀ (players : List Player), ShellSafeNames players →
    '$' ∉ (concatAll (players.map introLine)).data
  | [], _ => by simp [concatAll]
  | p :: ps, h => by
    rw [List.map_cons, concatAll, String.data_append]
    intro hmem
    rcases List.mem_append.1 hmem with h' | h'
    · exact introLine_safe p (h p (List.mem_cons_self _ _)) h'
    · exact concatAll_introLine_safe ps (fun q hq => h q (List.mem_cons_of_mem _ hq)) h'

/-- The intro script of participants with shell-safe names contains no dollar sign. -/
theorem introScript_safe (first : Player) (players : List Player) (hfirst : first ∈ players)
    (h : ShellSafeNames players) : '$' ∉ (introScript first players).data := by
  have hname := dollar_not_mem_of_safe (h first hfirst)
  rw [introScript_eq_introPhrase, introPhrase]
  simp only [String.data_append]
  intro hmem
  rcases List.mem_append.1 hmem with h' | h'
  · rcases List.mem_append.1 h' with h' | h'
    · rcases List.mem_append.1 h' with h' | h'
      · rcases List.mem_append.1 h' with h' | h'
        · revert h'; decide
        · exact hname h'
      · revert h'; decide
    · exact concatAll_introLine_safe players h h'
  · rcases List.mem_append.1 h' with h' | h'
    · exact hname h'
    · revert h'; decide

/-- A file named by a command substitution of the spoken text is gone after the invocation,
whether or not `say` then succeeds. -/
theorem run_say_removes (backendOk : Nat → Bool) (out text f : String) (s : TTSService)
    (hrem : f ∈ shellRemovals text.data) (hout : f ≠ out) :
    f ∉ (run backendOk (.say out text) s).2.files := by
  have hgone : f ∉ shellEffect (.say out text) s.files := by
    intro hmem
    have := (List.mem_filter.1 hmem).2
    simp [hrem] at this
  unfold run
  split
  · intro hmem
    rcases (mem_createFile _ _ _).1 hmem with h' | h'
    · exact hgone h'
    · exact hout h'
  · exact hgone

/-- Generation after a cache miss, for participants with shell-safe names and started with a
library whose registered paths are library clips, creates and deletes files outside the
library directory only. -/
theorem touchesAt_generateOnMiss (backendOk : Nat → Bool) (cacheKey : String)
    (players : List Player) (ts : Nat) (s : TTSService)
    (hvals : ∀ j p, mapGet s.numberLibrary j = some p → p = libraryFile j)
    (hsafe : ShellSafeNames players) :
    TouchesAt (fun p => inLibraryDir p = false)
      (generateOnMiss backendOk cacheKey players ts) s := by
  unfold generateOnMiss
  split
  · exact touchesAt_of_keeps (keeps_throwErr _ _) s
  · next first hfirst =>
    refine touchesAt_bind (touchesAt_run _ (.say (introFile ts) _)
      (inLibraryDir_introFile ts) s (shellEffect_say_of_safe _ _ _
        (introScript_safe first players (firstPlayer_mem hfirst) hsafe))) fun _ s₁ h₁ => ?_
    have hlib₁ : s₁.numberLibrary = s.numberLibrary :=
      (keeps_run hostFree_numberLibrary backendOk _).of_eq h₁
    refine touchesAt_bind (touchesAt_numberLoop backendOk ts
      (fun i => inLibraryDir_rawFile i ts) (fun i => inLibraryDir_segFile i ts) _ _ _ s₁)
      fun numberFiles s₂ h₂ => ?_
    have hnf : ∀ f ∈ numberFiles,
        includes f ("seg_" ++ numStr ts) = true → inLibraryDir f = false := by
      obtain ⟨new, hnew, hlen, hall⟩ := numberLoop_ok backendOk ts _ _ _ _ _ _ h₂
      intro f hf hinc
      rw [hnew, List.nil_append] at hf
      obtain ⟨j, hj, hget⟩ := List.getElem_of_mem hf
      obtain ⟨f', hf', hor⟩ := hall j (hlen ▸ hj)
      have hff : f' = f := by
        rw [List.getElem?_eq_getElem hj, hget] at hf'
        exact (Option.some.inj hf').symm
      rw [hff] at hor
      rcases hor with h | h
      · rw [hlib₁] at h
        rw [hvals _ _ h, includes_libraryFile] at hinc
        cases hinc
      · rw [h]
        exact inLibraryDir_segFile _ _
    refine touchesAt_bind (touchesAt_run _ (.say (finalAiff ts) _)
      (inLibraryDir_finalAiff ts) s₂ (shellEffect_say_of_safe _ _ _ (by decide)))
      fun _ s₃ _ => ?_
    refine touchesAt_bind (touchesAt_run _ (.ffmpegEncode (finalAiff ts) (finalWav ts))
      (inLibraryDir_finalWav ts) s₃ rfl) fun _ s₄ _ => ?_
    refine touchesAt_bind (touchesAt_unlinkSync _ (inLibraryDir_finalAiff ts) s₄)
      fun _ s₅ _ => ?_
    refine touchesAt_bind (touchesAt_run _ (.ffmpegEncode (introFile ts) (introWav ts))
      (inLibraryDir_introWav ts) s₅ rfl) fun _ s₆ _ => ?_
    refine touchesAt_bind (touchesAt_unlinkSync _ (inLibraryDir_introFile ts) s₆)
      fun _ s₇ _ => ?_
    refine touchesAt_bind (touchesAt_writeFileSync _ _ (inLibraryDir_listFile ts) s₇)
      fun _ s₈ _ => ?_
    refine touchesAt_bind (touchesAt_run _
      (.ffmpegConcat (listFile ts) (outputFile cacheKey))
      (inLibraryDir_outputFile cacheKey) s₈ rfl) fun _ s₉ _ => ?_
    refine touchesAt_bind (touchesAt_unlinkSync _ (inLibraryDir_introWav ts) s₉)
      fun _ s₁₀ _ => ?_
    refine touchesAt_bind (touchesAt_unlinkSync _ (inLibraryDir_finalWav ts) s₁₀)
      fun _ s₁₁ _ => ?_
    refine touchesAt_bind (touchesAt_unlinkSync _ (inLibraryDir_listFile ts) s₁₁)
      fun _ s₁₂ _ => ?_
    refine touchesAt_bind (touchesAt_cleanupFallback ts numberFiles hnf s₁₂)
      fun _ s₁₃ _ => ?_
    exact touchesAt_bind
      (touchesAt_of_keeps (keeps_audioCacheSet cacheFree_files _ _) s₁₃)
      fun _ s₁₄ _ => touchesAt_of_keeps (keeps_pure _) s₁₄

/-- C18: on a service whose library is initialized, and whose registered clip paths are the
library paths that initializeNumberLibrary registers, a call of
generateSynchronizedCountdown leaves `numberLibrary` as it was, whatever the request, the
backend answers and the outcome. For participants whose names contain no character the shell
interprets between double quotes it neither creates nor deletes a file of the library
directory. For a participant named `$(rm -f temp/library/1.wav)` the shell that runs `say`
for the intro deletes the library clip of numeral 1: the clip is on disk before the call and
gone after it, while `numberLibrary` still registers it. Every warm-up of a new service leaves
registered paths of the form assumed. -/
theorem C18_generation_leaves_library_alone (localeCompare : String → String → Int)
    (digest : String → String) (backendOk : Nat → Bool) (players : List Player)
    (d ts : Nat) (s : TTSService)
    (hinit : s.libraryInitialized = true)
    (hvals : ∀ j p, mapGet s.numberLibrary j = some p → p = libraryFile j)
    (hsafe : ShellSafeNames players) :
    (generateSynchronizedCountdown localeCompare digest backendOk players d ts s).2.numberLibrary
        = s.numberLibrary ∧
      (∀ p, inLibraryDir p = true →
        (p ∈ (generateSynchronizedCountdown localeCompare digest backendOk players d ts
          s).2.files ↔ p ∈ s.files)) ∧
      (∀ (files : List String) (backendOk' : Nat → Bool) (j : Nat) (p : String),
        mapGet (initializeNumberLibrary backendOk' (TTSService.new files)).2.numberLibrary j
          = some p → p = libraryFile j) ∧
      (libraryFile 1 ∈ warmService.files ∧
        (generateSynchronizedCountdown ordinalCompare id (fun _ => true) injectedPlayers 8 1700
          warmService).1 =
            .ok ⟨outputFile (buildCountdownCacheKey ordinalCompare id injectedPlayers)⟩ ∧
        libraryFile 1 ∉ (generateSynchronizedCountdown ordinalCompare id (fun _ => true)
          injectedPlayers 8 1700 warmService).2.files ∧
        mapGet (generateSynchronizedCountdown ordinalCompare id (fun _ => true)
          injectedPlayers 8 1700 warmService).2.numberLibrary 1 = some (libraryFile 1)) := by
  have hrun : generateSynchronizedCountdown localeCompare digest backendOk players d ts s =
      (do
        let cachedPath ← audioCacheGet (buildCountdownCacheKey localeCompare digest players)
        let present ← presentOnDisk cachedPath
        if present then
          pure ({ path := cachedPath.getD "" } : AudioResource)
        else
          generateOnMiss backendOk (buildCountdownCacheKey localeCompare digest players)
            players ts) s := by
    unfold generateSynchronizedCountdown
    rw [TTS.bind_of_ok (initializeNumberLibrary_of_initialized backendOk s hinit)]
  refine ⟨?_, ?_, ?_, by decide!⟩
  · rw [hrun]
    refine (keeps_bind (keeps_audioCacheGet _ _) fun cachedPath => ?_) s
    refine keeps_bind (keeps_presentOnDisk _ _) fun present => ?_
    split
    · exact keeps_pure _
    · exact keeps_generateOnMiss hostFree_numberLibrary cacheFree_numberLibrary _ _ _ _
  · intro p hp
    rw [hrun]
    refine @touchesAt_bind _ _ (fun p => inLibraryDir p = false) _ _ _
      (touchesAt_of_keeps (keeps_audioCacheGet _ _) s)
      (fun cachedPath s₁ h₁ => ?_) p (fun h => by
        have h' : inLibraryDir p = false := h
        rw [hp] at h'
        cases h')
    have hs₁ : s₁ = s := by
      simp only [audioCacheGet, Prod.mk.injEq] at h₁
      exact h₁.2.symm
    subst hs₁
    refine touchesAt_bind (touchesAt_of_keeps (keeps_presentOnDisk _ _) s₁)
      fun present s₂ h₂ => ?_
    have hs₂ : s₂.numberLibrary = s₁.numberLibrary :=
      (keeps_presentOnDisk TTSService.numberLibrary cachedPath).of_eq h₂
    split
    · exact touchesAt_of_keeps (keeps_pure _) s₂
    · exact touchesAt_generateOnMiss _ _ _ _ s₂ (by rw [hs₂]; exact hvals) hsafe
  · intro files backendOk' j p hget
    obtain ⟨⟨_, _, hv, _⟩, _⟩ :=
      loopOutcome_initializeNumberLibrary backendOk' (TTSService.new files) rfl
    exact hv (fun j p h => by cases h) j p hget

theorem C18_generation_leaves_library_alone_witness :
    (generateSynchronizedCountdown ordinalCompare id (fun _ => true) demoPlayers 5 1700
        warmService).2.numberLibrary = warmService.numberLibrary ∧
      (∀ p, inLibraryDir p = true →
        (p ∈ (generateSynchronizedCountdown ordinalCompare id (fun _ => true) demoPlayers 5
          1700 warmService).2.files ↔ p ∈ warmService.files)) ∧
      (∀ (files : List String) (backendOk' : Nat → Bool) (j : Nat) (p : String),
        mapGet (initializeNumberLibrary backendOk' (TTSService.new files)).2.numberLibrary j
          = some p → p = libraryFile j) ∧
      (libraryFile 1 ∈ warmService.files ∧
        (generateSynchronizedCountdown ordinalCompare id (fun _ => true) injectedPlayers 8 1700
          warmService).1 =
            .ok ⟨outputFile (buildCountdownCacheKey ordinalCompare id injectedPlayers)⟩ ∧
        libraryFile 1 ∉ (generateSynchronizedCountdown ordinalCompare id (fun _ => true)
          injectedPlayers 8 1700 warmService).2.files ∧
        mapGet (generateSynchronizedCountdown ordinalCompare id (fun _ => true)
          injectedPlayers 8 1700 warmService).2.numberLibrary 1 = some (libraryFile 1)) :=
  C18_generation_leaves_library_alone ordinalCompare id (fun _ => true) demoPlayers 5 1700
    warmService rfl (fun j p h => by
      have h₁ : warmService.numberLibrary = [(1, libraryFile 1), (2, libraryFile 2)] := rfl
      rw [h₁] at h
      by_cases hj₁ : j = 1
      · subst hj₁
        exact (Option.some.inj h).symm
      · by_cases hj₂ : j = 2
        · subst hj₂
          exact (Option.some.inj h).symm
        · have hj₁' : ¬ 1 = j := fun e => hj₁ e.symm
          have hj₂' : ¬ 2 = j := fun e => hj₂ e.symm
          simp [mapGet, List.find?, hj₁', hj₂'] at h)
    (show ∀ p ∈ demoPlayers, ∀ c ∈ p.name.data, shellSpecial c = false by decide)

/-! ### The deletion test of the final cleanup loop -/

theorem segFile_data (i ts : Nat) :
    (segFile i ts).data =
      't' :: 'e' :: 'm' :: 'p' :: '/' :: 's' :: 'e' :: 'g' :: '_' ::
        (numberToString i ++ '_' :: (numberToString ts ++ ".wav".data)) := by
  simp [segFile, pathJoin, tempDir, numStr, String.data_append]

theorem segPattern_data (ts : Nat) :
    ("seg_" ++ numStr ts).data = 's' :: 'e' :: 'g' :: '_' :: numberToString ts := by
  simp [numStr, String.data_append]

theorem anyTail_eq_false_of_head_not_mem (c : Char) (rest : List Char) :
    ∀ l : List Char, c ∉ l → l.tails.any (fun t => (c :: rest).isPrefixOf t) = false := by
  intro l hc
  rw [List.any_eq_false]
  intro t ht
  cases t with
  | nil => simp [List.isPrefixOf]
  | cons d t' =>
    have hd : d ∈ l := ((List.mem_tails _ _).1 ht).subset (List.mem_cons_self _ _)
    have hcd : c ≠ d := fun e => hc (e ▸ hd)
    simp [List.isPrefixOf, hcd]

/-- The deletion test on a fallback segment comes down to whether the digits of `ts` are the
first characters of what follows `seg_` in its name. -/
theorem includes_segFile (i ts : Nat) :
    includes (segFile i ts) ("seg_" ++ numStr ts) =
      (numberToString ts).isPrefixOf
        (numberToString i ++ '_' :: (numberToString ts ++ ".wav".data)) := by
  have hs : 's' ∉ (numberToString i ++ '_' :: (numberToString ts ++ ".wav".data)) := by
    intro hmem
    rcases List.mem_append.1 hmem with h | h
    · exact absurd (numberToString_isDigit i _ h) (by decide)
    · rcases List.mem_cons.1 h with h | h
      · revert h; decide
      · rcases List.mem_append.1 h with h | h
        · exact absurd (numberToString_isDigit ts _ h) (by decide)
        · revert h; decide
  unfold includes
  rw [segFile_data, segPattern_data]
  simp only [List.tails, List.any_cons, List.isPrefixOf]
  rw [anyTail_eq_false_of_head_not_mem 's' _ _ hs]
  simp

/-- A run of digits that starts a text made of digits, a non-digit and more starts its
digits. -/
theorem digits_prefix_of_prefix_sep (a b : List Char) (x : Char) (r : List Char)
    (ha : ∀ c ∈ a, c.isDigit = true) (hx : x.isDigit = false)
    (h : a <+: b ++ x :: r) : a <+: b := by
  obtain ⟨t, ht⟩ := h
  rcases List.append_eq_append_iff.1 ht with ⟨a', hb, _⟩ | ⟨c', hab, hc⟩
  · exact ⟨a', hb.symm⟩
  · cases c' with
    | nil =>
      rw [List.append_nil] at hab
      rw [hab]
    | cons y c'' =>
      have hy : y = x := by
        simp only [List.cons_append, List.cons.injEq] at hc
        exact hc.1.symm
      have hmem : x ∈ a := by
        rw [hab, hy]
        exact List.mem_append_right _ (List.mem_cons_self _ _)
      rw [ha x hmem] at hx
      cases hx

/-- If the decimal digits of `n` are the first digits of `m`, then `n` is at most `m`. -/
theorem le_of_numberToString_prefix {n m : Nat}
    (h : numberToString n <+: numberToString m) : n ≤ m := by
  obtain ⟨t, ht⟩ := h
  unfold numberToString at ht
  obtain ⟨l₁, l₂, hl, h₁, _⟩ := List.map_eq_append_iff.1 ht.symm
  have hlt : ∀ d ∈ l₁, d < 10 := fun d hd =>
    decimalDigitsRev_lt (m + 1) m d
      (List.mem_reverse.1 (hl ▸ List.mem_append_left _ hd))
  have hl₁ : l₁ = (decimalDigitsRev (n + 1) n).reverse :=
    map_digitChar_inj _ _ hlt
      (fun d hd => decimalDigitsRev_lt (n + 1) n d (List.mem_reverse.1 hd)) h₁
  have hrev : decimalDigitsRev (m + 1) m = l₂.reverse ++ decimalDigitsRev (n + 1) n := by
    have := congrArg List.reverse hl
    rw [List.reverse_reverse, List.reverse_append, hl₁, List.reverse_reverse] at this
    exact this
  have hm := ofDigits_decimalDigitsRev (m + 1) m
    (lt_trans (Nat.lt_succ_self m) (Nat.lt_pow_self (by norm_num) _))
  have hn := ofDigits_decimalDigitsRev (n + 1) n
    (lt_trans (Nat.lt_succ_self n) (Nat.lt_pow_self (by norm_num) _))
  rw [hrev, Nat.ofDigits_append, hn] at hm
  have hpow : 1 ≤ 10 ^ l₂.reverse.length := Nat.one_le_pow _ _ (by norm_num)
  calc n = 1 * n := (Nat.one_mul n).symm
    _ ≤ 10 ^ l₂.reverse.length * n := Nat.mul_le_mul_right n hpow
    _ ≤ Nat.ofDigits 10 l₂.reverse + 10 ^ l₂.reverse.length * n := Nat.le_add_left _ _
    _ = m := hm

/-- The deletion test is false for the fallback segment of a numeral below the timestamp. -/
theorem includes_segFile_of_lt (i ts : Nat) (h : i < ts) :
    includes (segFile i ts) ("seg_" ++ numStr ts) = false := by
  rw [includes_segFile, Bool.eq_false_iff]
  intro hpre
  have hle := le_of_numberToString_prefix
    (digits_prefix_of_prefix_sep _ _ '_' _ (numberToString_isDigit ts) (by decide)
      (List.isPrefixOf_iff_prefix.1 hpre))
  omega

/-- In the sample run the fallback segment of numeral 3 is still on disk after the call. -/
theorem sample_run_keeps_fallback_segment : segFile 3 1700 ∈ servedService.files := by
  decide!

/-- C20: the deletion test of the final cleanup loop, `f.includes` of `seg_<ts>`, is false for
the fallback segment `seg_<j>_<ts>.wav` of every numeral `j` below the timestamp, and false
for every library clip; so a cleanup loop over such files deletes nothing and leaves the
state as it is. -/
theorem C20_cleanup_loop_deletes_nothing (ts : Nat) (numberFiles : List String)
    (s : TTSService)
    (hfiles : ∀ f ∈ numberFiles, (∃ j, j < ts ∧ f = segFile j ts) ∨ ∃ j, f = libraryFile j) :
    (∀ f ∈ numberFiles, includes f ("seg_" ++ numStr ts) = false) ∧
      cleanupFallback ts numberFiles s = (.ok (), s) := by
  have htest : ∀ f ∈ numberFiles, includes f ("seg_" ++ numStr ts) = false := by
    intro f hf
    rcases hfiles f hf with ⟨j, hj, rfl⟩ | ⟨j, rfl⟩
    · exact includes_segFile_of_lt j ts hj
    · exact includes_libraryFile j ts
  refine ⟨htest, ?_⟩
  clear hfiles
  induction numberFiles with
  | nil => rfl
  | cons f fs ih =>
    unfold cleanupFallback
    rw [htest f (List.mem_cons_self _ _)]
    exact ih (fun g hg => htest g (List.mem_cons_of_mem _ hg))

theorem C20_cleanup_loop_deletes_nothing_witness :
    (∀ f ∈ [libraryFile 1, libraryFile 2, segFile 3 1700],
        includes f ("seg_" ++ numStr 1700) = false) ∧
      cleanupFallback 1700 [libraryFile 1, libraryFile 2, segFile 3 1700] servedService
        = (.ok (), servedService) :=
  C20_cleanup_loop_deletes_nothing 1700 [libraryFile 1, libraryFile 2, segFile 3 1700]
    servedService (fun f hf => by
      simp only [List.mem_cons, List.mem_singleton, List.not_mem_nil, or_false] at hf
      rcases hf with rfl | rfl | rfl
      · exact Or.inr ⟨1, rfl⟩
      · exact Or.inr ⟨2, rfl⟩
      · exact Or.inl ⟨3, by decide, rfl⟩)

/-! ### Countdown session: teardown of the voice connection -/

/-- C19: when the reconnect attempt of the `Disconnected` handler fails for a guild whose
countdown is Armed, the connection of the guild is gone and the countdown is still Armed:
`countdownTimers` and the pending timers are what they were, so `isCountdownActive` holds
without `isInVoiceChannel`. `leaveVoiceChannel`, called for a guild that has a connection,
leaves neither a connection nor an active countdown, and the stored timer is no longer
pending. -/
theorem C19_failed_reconnect_keeps_countdown_armed (vm : VoiceManager) (guildId : String)
    (harmed : isCountdownActive vm guildId = true) :
    isCountdownActive (onDisconnectedReconnectFailed guildId vm) guildId = true ∧
      isInVoiceChannel (onDisconnectedReconnectFailed guildId vm) guildId = false ∧
      (onDisconnectedReconnectFailed guildId vm).countdownTimers = vm.countdownTimers ∧
      (onDisconnectedReconnectFailed guildId vm).pendingTimers = vm.pendingTimers ∧
      (isInVoiceChannel vm guildId = true →
        isCountdownActive (leaveVoiceChannel guildId vm) guildId = false ∧
          isInVoiceChannel (leaveVoiceChannel guildId vm) guildId = false ∧
          ∀ timer, mapGet vm.countdownTimers guildId = some timer →
            ∀ t ∈ (leaveVoiceChannel guildId vm).pendingTimers, t.id ≠ timer) := by
  refine ⟨harmed, mapHas_mapDelete_self _ _, rfl, rfl, fun hconn => ?_⟩
  obtain ⟨c, hc⟩ := mapGet_isSome_of_mapHas _ _ hconn
  obtain ⟨timer, ht⟩ := mapGet_isSome_of_mapHas _ _ harmed
  have hleave : leaveVoiceChannel guildId vm =
      { clearTimeout { vm with
          connections := mapDelete vm.connections guildId
          audioPlayers := mapDelete vm.audioPlayers guildId } timer with
        countdownTimers := mapDelete vm.countdownTimers guildId } := by
    unfold leaveVoiceChannel
    rw [hc]
    simp only [ht]
    rfl
  rw [hleave]
  refine ⟨mapHas_mapDelete_self _ _, mapHas_mapDelete_self _ _, fun timer' ht' t hmem => ?_⟩
  rw [ht] at ht'
  cases ht'
  have := (List.mem_filter.1 hmem).2
  simpa using this

theorem C19_failed_reconnect_keeps_countdown_armed_witness :
    isCountdownActive (onDisconnectedReconnectFailed "guild-1" armedManager) "guild-1" = true ∧
      isInVoiceChannel (onDisconnectedReconnectFailed "guild-1" armedManager) "guild-1"
        = false ∧
      (onDisconnectedReconnectFailed "guild-1" armedManager).countdownTimers
        = armedManager.countdownTimers ∧
      (onDisconnectedReconnectFailed "guild-1" armedManager).pendingTimers
        = armedManager.pendingTimers ∧
      (isInVoiceChannel armedManager "guild-1" = true →
        isCountdownActive (leaveVoiceChannel "guild-1" armedManager) "guild-1" = false ∧
          isInVoiceChannel (leaveVoiceChannel "guild-1" armedManager) "guild-1" = false ∧
          ∀ timer, mapGet armedManager.countdownTimers "guild-1" = some timer →
            ∀ t ∈ (leaveVoiceChannel "guild-1" armedManager).pendingTimers, t.id ≠ timer) :=
  C19_failed_reconnect_keeps_countdown_armed armedManager "guild-1" (by decide!)

/-- The sample manager `joinedManager` is the state `joinVoiceChannel` leaves for a member in
`channel-1`, and the Armed sample `armedManager` has a connection for the guild. -/
theorem joinedManager_is_joined :
    (joinVoiceChannel guildInteraction (some "channel-1")
        { VoiceManager.new [] with ttsService := warmService }).2 = joinedManager ∧
      isInVoiceChannel armedManager "guild-1" = true := by
  decide!

/-! ### Countdown session: expiry timers of earlier countdowns -/

/-- A timer that fires ends whatever countdown the guild it was armed for has. -/
theorem timerFired_of_pending (vm : VoiceManager) (t : Timer)
    (h : vm.pendingTimers.find? (fun x => decide (x.id = t.id)) = some t) :
    (timerFired t.id vm).countdownTimers = mapDelete vm.countdownTimers t.guildId ∧
      (timerFired t.id vm).pendingTimers =
        vm.pendingTimers.filter (fun t' => !decide (t'.id = t.id)) ∧
      (timerFired t.id vm).audioPlayers = vm.audioPlayers := by
  unfold timerFired
  rw [h]
  simp

/-- The end of the playback makes the guild Idle and leaves the pending timers pending. -/
theorem playbackFinished_keeps_timers (vm : VoiceManager) (guildId : String)
    (audioPlayer : AudioPlayer) (hplayer : mapGet vm.audioPlayers guildId = some audioPlayer)
    (hlistener : audioPlayer.idleListeners ≠ 0) :
    (playbackFinished guildId vm).pendingTimers = vm.pendingTimers ∧
      isCountdownActive (playbackFinished guildId vm) guildId = false := by
  unfold playbackFinished
  rw [hplayer]
  dsimp only
  rw [if_neg hlistener]
  exact ⟨rfl, mapHas_mapDelete_self _ _⟩

/-- C21: a start that succeeds while an expiry timer of an earlier countdown of the guild is
pending (the earlier countdown has finished playing, or is superseded by this start) leads
to a state in which a pending timer is not the stored handle; the guild is Armed. When the
earlier timer then fires, `isCountdownActive` is false although the timer armed by the later
start is still pending and the player still holds the resource of the later countdown. The
end of a playback leaves the pending timers pending. -/
theorem C21_earlier_timer_ends_later_countdown (localeCompare : String → String → Int)
    (digest : String → String) (backendOk : Nat → Bool) (interaction : Interaction)
    (attackTiming : AttackTiming) (ts : Nat) (vm : VoiceManager) (connection : Connection)
    (audioPlayer : AudioPlayer) (r : AudioResource) (t : Timer)
    (hconn : mapGet vm.connections interaction.guildId = some connection)
    (hplayer : mapGet vm.audioPlayers interaction.guildId = some audioPlayer)
    (hreply : interaction.replyOk = true)
    (hgen : (generateSynchronizedCountdown localeCompare digest backendOk attackTiming.players
      attackTiming.totalDuration ts vm.ttsService).1 = .ok r)
    (hpending : vm.pendingTimers.find? (fun x => decide (x.id = t.id)) = some t)
    (hguild : t.guildId = interaction.guildId)
    (hfresh : t.id < vm.nextTimer) :
    pendingAreStored
        (step localeCompare digest backendOk interaction vm (.start attackTiming ts)) = false ∧
      isCountdownActive
        (step localeCompare digest backendOk interaction vm (.start attackTiming ts))
        interaction.guildId = true ∧
      isCountdownActive
        (runEvents localeCompare digest backendOk interaction
          [.start attackTiming ts, .timerFired t.id] vm) interaction.guildId = false ∧
      (⟨vm.nextTimer, interaction.guildId,
          timeoutDelay ((attackTiming.totalDuration + 5) * 1000)⟩ : Timer) ∈
        (runEvents localeCompare digest backendOk interaction
          [.start attackTiming ts, .timerFired t.id] vm).pendingTimers ∧
      mapGet (runEvents localeCompare digest backendOk interaction
          [.start attackTiming ts, .timerFired t.id] vm).audioPlayers interaction.guildId =
        some (audioPlayer.play r).onceIdle ∧
      (∀ (vm₀ : VoiceManager) (p : AudioPlayer),
        mapGet vm₀.audioPlayers interaction.guildId = some p → p.idleListeners ≠ 0 →
        (playbackFinished interaction.guildId vm₀).pendingTimers = vm₀.pendingTimers ∧
          isCountdownActive (playbackFinished interaction.guildId vm₀) interaction.guildId
            = false) := by
  obtain ⟨_, hcts, hpts, haps⟩ := startAttackCountdown_arms localeCompare digest backendOk
    interaction attackTiming ts vm connection audioPlayer r hconn hplayer hreply hgen
  have hmem : t ∈ vm.pendingTimers := List.mem_of_find?_eq_some hpending
  have hfind : (startAttackCountdown localeCompare digest backendOk interaction attackTiming ts
      vm).2.pendingTimers.find? (fun x => decide (x.id = t.id)) = some t := by
    rw [hpts, List.find?_append, hpending]
    rfl
  obtain ⟨hfcts, hfpts, hfaps⟩ := timerFired_of_pending _ t hfind
  have hrun : runEvents localeCompare digest backendOk interaction
      [.start attackTiming ts, .timerFired t.id] vm =
      timerFired t.id (startAttackCountdown localeCompare digest backendOk interaction
        attackTiming ts vm).2 := rfl
  refine ⟨?_, ?_, ?_, ?_, ?_, fun vm₀ p hp hl =>
    playbackFinished_keeps_timers vm₀ interaction.guildId p hp hl⟩
  · rw [Bool.eq_false_iff]
    intro hall
    have hstored := List.all_eq_true.1 hall t
      (show t ∈ (startAttackCountdown localeCompare digest backendOk interaction attackTiming
        ts vm).2.pendingTimers by rw [hpts]; exact List.mem_append_left _ hmem)
    have hget : mapGet (startAttackCountdown localeCompare digest backendOk interaction
        attackTiming ts vm).2.countdownTimers t.guildId = some vm.nextTimer := by
      rw [hcts, hguild, mapGet_mapSet_self]
    rw [decide_eq_true_eq] at hstored
    change mapGet (startAttackCountdown localeCompare digest backendOk interaction
      attackTiming ts vm).2.countdownTimers t.guildId = some t.id at hstored
    rw [hget] at hstored
    have := Option.some.inj hstored
    omega
  · show mapHas (startAttackCountdown localeCompare digest backendOk interaction attackTiming
      ts vm).2.countdownTimers interaction.guildId = true
    rw [hcts]
    exact mapHas_mapSet_self _ _ _
  · rw [hrun]
    show mapHas (timerFired t.id _).countdownTimers interaction.guildId = false
    rw [hfcts, hguild]
    exact mapHas_mapDelete_self _ _
  · rw [hrun, hfpts, hpts]
    refine List.mem_filter.2 ⟨List.mem_append_right _ (List.mem_singleton.2 rfl), ?_⟩
    have hne : ¬ vm.nextTimer = t.id := by omega
    simpa using hne
  · rw [hrun, hfaps, haps]
    exact mapGet_mapSet_self _ _ _

theorem C21_earlier_timer_ends_later_countdown_witness :
    pendingAreStored
        (step ordinalCompare id (fun _ => true) guildInteraction finishedManager
          (.start longTiming 61700)) = false ∧
      isCountdownActive
        (step ordinalCompare id (fun _ => true) guildInteraction finishedManager
          (.start longTiming 61700)) guildInteraction.guildId = true ∧
      isCountdownActive
        (runEvents ordinalCompare id (fun _ => true) guildInteraction
          [.start longTiming 61700, .timerFired staleTimer.id] finishedManager)
        guildInteraction.guildId = false ∧
      (⟨finishedManager.nextTimer, guildInteraction.guildId,
          timeoutDelay ((longTiming.totalDuration + 5) * 1000)⟩ : Timer) ∈
        (runEvents ordinalCompare id (fun _ => true) guildInteraction
          [.start longTiming 61700, .timerFired staleTimer.id] finishedManager).pendingTimers ∧
      mapGet (runEvents ordinalCompare id (fun _ => true) guildInteraction
          [.start longTiming 61700, .timerFired staleTimer.id] finishedManager).audioPlayers
          guildInteraction.guildId =
        some ((⟨none, 0⟩ : AudioPlayer).play
          ⟨outputFile (buildCountdownCacheKey ordinalCompare id demoPlayers)⟩).onceIdle ∧
      (∀ (vm₀ : VoiceManager) (p : AudioPlayer),
        mapGet vm₀.audioPlayers guildInteraction.guildId = some p → p.idleListeners ≠ 0 →
        (playbackFinished guildInteraction.guildId vm₀).pendingTimers = vm₀.pendingTimers ∧
          isCountdownActive (playbackFinished guildInteraction.guildId vm₀)
            guildInteraction.guildId = false) :=
  C21_earlier_timer_ends_later_countdown ordinalCompare id (fun _ => true) guildInteraction
    longTiming 61700 finishedManager ⟨"channel-1"⟩ ⟨none, 0⟩
    ⟨outputFile (buildCountdownCacheKey ordinalCompare id demoPlayers)⟩ staleTimer
    (by decide!) (by decide!) (by decide!) (by decide!) (by decide!) (by decide!) (by decide!)

/-- Two runs from `joinedManager`. In the first the playback of a countdown ends, a second
countdown is started and the timer of the first fires; in the second a countdown is started
while the first is Armed and the timer of the first fires. Both end with the guild not
Armed while timer 1, armed by the later start, is pending; and once the first playback has
ended, the pending timer 0 is not a stored handle. -/
theorem earlier_timer_sample_runs :
    isCountdownActive
        (runEvents ordinalCompare id (fun _ => true) guildInteraction
          [.start longTiming 1700, .playbackFinished, .start longTiming 61700, .timerFired 0]
          joinedManager) "guild-1" = false ∧
      (runEvents ordinalCompare id (fun _ => true) guildInteraction
          [.start longTiming 1700, .playbackFinished, .start longTiming 61700, .timerFired 0]
          joinedManager).pendingTimers = [⟨1, "guild-1", 65000⟩] ∧
      isCountdownActive
        (runEvents ordinalCompare id (fun _ => true) guildInteraction
          [.start demoTiming 1700, .start demoTiming 1800, .timerFired 0]
          joinedManager) "guild-1" = false ∧
      (runEvents ordinalCompare id (fun _ => true) guildInteraction
          [.start demoTiming 1700, .start demoTiming 1800, .timerFired 0]
          joinedManager).pendingTimers = [⟨1, "guild-1", 10000⟩] ∧
      pendingAreStored joinedManager = true ∧
      pendingAreStored finishedManager = false := by
  decide!

/-! ### Countdown audio engine: the concatenated segments -/

/-- The replacement of apostrophes leaves a path without an apostrophe as it is. -/
theorem escapeQuote_of_no_quote (f : String) (h : Char.ofNat 39 ∉ f.data) :
    escapeQuote f = f := by
  have key : ∀ (l : List Char), Char.ofNat 39 ∉ l →
      l.flatMap (fun c =>
        if c = Char.ofNat 39 then [Char.ofNat 39, bslash, Char.ofNat 39, Char.ofNat 39]
        else [c]) = l := by
    intro l
    induction l with
    | nil => intro _; rfl
    | cons c cs ih =>
      intro hl
      have hc : ¬ c = Char.ofNat 39 := fun e => hl (e ▸ List.mem_cons_self _ _)
      rw [List.flatMap_cons, if_neg hc, ih (fun hm => hl (List.mem_cons_of_mem _ hm))]
      rfl
  unfold escapeQuote
  rw [key _ h]

/-- The paths of the intro clip, the outro clip, the fallback segments and the library clips
contain no apostrophe: their lines in the concat list carry them unchanged. An apostrophe is
replaced by the four characters that close the quote, escape an apostrophe and open the
quote again. -/
theorem escapeQuote_clip_paths (ts : Nat) :
    escapeQuote (introWav ts) = introWav ts ∧ escapeQuote (finalWav ts) = finalWav ts ∧
      (∀ j, escapeQuote (segFile j ts) = segFile j ts) ∧
      (∀ j, escapeQuote (libraryFile j) = libraryFile j) ∧
      escapeQuote "a\x27b" = "a\x27\x5c\x27\x27b" := by
  have hdig : ∀ n, Char.ofNat 39 ∉ numberToString n :=
    fun n hmem => absurd (numberToString_isDigit n _ hmem) (by decide)
  refine ⟨escapeQuote_of_no_quote _ ?_, escapeQuote_of_no_quote _ ?_,
    fun j => escapeQuote_of_no_quote _ ?_, fun j => escapeQuote_of_no_quote _ ?_, by decide⟩
  · simp only [introWav, pathJoin, tempDir, numStr, String.data_append, List.mem_append,
      not_or]
    exact ⟨⟨by decide, by decide⟩, ⟨by decide, hdig ts⟩, by decide⟩
  · simp only [finalWav, pathJoin, tempDir, numStr, String.data_append, List.mem_append,
      not_or]
    exact ⟨⟨by decide, by decide⟩, ⟨by decide, hdig ts⟩, by decide⟩
  · rw [segFile_data]
    simp only [List.mem_cons, List.mem_append, not_or]
    refine ⟨by decide, by decide, by decide, by decide, by decide, by decide, by decide,
      by decide, by decide, hdig j, by decide, hdig ts, by decide⟩
  · rw [libraryFile_data]
    simp only [List.mem_append, not_or]
    exact ⟨by decide, hdig j, by decide⟩

/-- C4: for a non-empty participant list and a cache miss, every successful call has written
the concat list, one line `file '<path>'` per segment, for the segments
`[intro clip] ++ numberFiles ++ [outro clip]`, and has concatenated it last. The intro clip
is the re-encoding of what `say` spoke for the intro script, the outro clip the re-encoding
of what `say` spoke for `Sequence complete.`. `numberFiles` has one entry per numeral 1, 2,
..., `maxTime players` in ascending order: the entry of numeral `j + 1` is the library clip
registered for it, or its fallback segment, which the call made by speaking the numeral with
`say` and padding it with ffmpeg. The call issues no other invocation after the warm-up. The
list has `maxTime players + 2` entries, and `maxTime players` is the maximum
`attackStartTime`. With a backend that does not fail the call is successful. -/
theorem C4_segments_intro_numerals_outro (localeCompare : String → String → Int)
    (digest : String → String) (backendOk : Nat → Bool) (players : List Player)
    (d ts : Nat) (s : TTSService) (hne : players ≠ [])
    (hmiss : cachedOnDisk (buildCountdownCacheKey localeCompare digest players)
      (initializeNumberLibrary backendOk s).2 = false) :
    (∀ r s', generateSynchronizedCountdown localeCompare digest backendOk players d ts s
        = (.ok r, s') →
      ∃ (first : Player) (numberFiles : List String) (loopCalls : List Cmd),
        firstPlayer players = some first ∧
        s'.writes = s.writes ++
          [(listFile ts, "\n".intercalate
            (([introWav ts] ++ numberFiles ++ [finalWav ts]).map
              (fun f => "file \x27" ++ escapeQuote f ++ "\x27")))] ∧
        s'.calls = (initializeNumberLibrary backendOk s).2.calls ++
          [.say (introFile ts) (introScript first players)] ++ loopCalls ++
          [.say (finalAiff ts) "Sequence complete.",
            .ffmpegEncode (finalAiff ts) (finalWav ts),
            .ffmpegEncode (introFile ts) (introWav ts),
            .ffmpegConcat (listFile ts)
              (outputFile (buildCountdownCacheKey localeCompare digest players))] ∧
        s'.calls.getLast? = some (.ffmpegConcat (listFile ts)
          (outputFile (buildCountdownCacheKey localeCompare digest players))) ∧
        numberFiles.length = maxTime players ∧
        (∀ j, j < maxTime players → ∃ f, numberFiles[j]? = some f ∧
          (mapGet s'.numberLibrary (j + 1) = some f ∨
            (f = segFile (j + 1) ts ∧ fallbackCalls ts (j + 1) <:+: loopCalls))) ∧
        (∀ c ∈ loopCalls, ∃ j, 1 ≤ j ∧ j ≤ maxTime players ∧ c ∈ fallbackCalls ts j) ∧
        ([introWav ts] ++ numberFiles ++ [finalWav ts]).length = maxTime players + 2) ∧
      (escapeQuote (introWav ts) = introWav ts ∧ escapeQuote (finalWav ts) = finalWav ts ∧
        (∀ j, escapeQuote (segFile j ts) = segFile j ts) ∧
        (∀ j, escapeQuote (libraryFile j) = libraryFile j) ∧
        escapeQuote "a\x27b" = "a\x27\x5c\x27\x27b") ∧
      (∀ p ∈ players, p.attackStartTime ≤ maxTime players) ∧
      (∃ p ∈ players, p.attackStartTime = maxTime players) ∧
      ((∀ n, backendOk n = true) →
        ∃ r s', generateSynchronizedCountdown localeCompare digest backendOk players d ts s
          = (.ok r, s')) := by
  refine ⟨?_, escapeQuote_clip_paths ts, le_maxTime players, maxTime_attained hne, ?_⟩
  · intro r s' h
    obtain ⟨s₀, h₀, hgen⟩ :=
      generateSynchronizedCountdown_miss_ok _ _ _ _ _ _ _ _ _ hmiss h
    obtain ⟨first, numberFiles, loopCalls, hfirst, hw, hcalls, hlen, hall, hloop⟩ :=
      generateOnMiss_trace _ _ _ _ _ _ _ hgen
    have hs₀ : (initializeNumberLibrary backendOk s).2 = s₀ := by rw [h₀]
    refine ⟨first, numberFiles, loopCalls, hfirst, ?_, ?_, ?_, hlen, ?_, hloop, ?_⟩
    · rw [hw, (keeps_writes_initializeNumberLibrary backendOk).of_eq h₀]
    · rw [hcalls, hs₀]
    · rw [hcalls]
      have hlast : ∀ (l : List Cmd) (a b c e : Cmd), (l ++ [a, b, c, e]).getLast? = some e := by
        intro l a b c e
        rw [show l ++ [a, b, c, e] = (l ++ [a, b, c]) ++ [e] by simp]
        exact List.getLast?_concat _
      exact hlast _ _ _ _ _
    · intro j hj
      obtain ⟨f, hf, hor⟩ := hall j hj
      refine ⟨f, hf, ?_⟩
      rw [(keeps_generateOnMiss hostFree_numberLibrary cacheFree_numberLibrary _ _ _ _).of_eq
        hgen]
      exact hor
    · simp [hlen]
  · intro hok
    obtain ⟨r, hr⟩ := succeeds_generateSynchronizedCountdown localeCompare digest hok hne d ts s
    exact ⟨r, _, Prod.ext hr rfl⟩

theorem C4_segments_intro_numerals_outro_witness :
    ∃ r s', generateSynchronizedCountdown ordinalCompare id (fun _ => true) demoPlayers 5 1700
      warmService = (.ok r, s') :=
  (C4_segments_intro_numerals_outro ordinalCompare id (fun _ => true) demoPlayers 5 1700
    warmService (by decide) (by decide!)).2.2.2.2 (fun _ => rfl)

/-- The sample run: the text of the concat list and the invocations issued, for offsets 0, 3
and 3 on a library that holds the clips of 1 and 2. -/
theorem demo_concat_list_text :
    servedService.writes =
      [("temp/list_1700.txt",
        "file \x27temp/intro_1700.wav\x27\nfile \x27temp/library/1.wav\x27\nfile \x27temp/library/2.wav\x27\nfile \x27temp/seg_3_1700.wav\x27\nfile \x27temp/final_1700.wav\x27")] ∧
      servedService.calls =
        [.say "temp/intro_1700.aiff"
            "Synchronized attack sequence. A starts first. A starts immediately. B starts at second 3. C starts at second 3. A ready. Three. Two. One. Go. ",
          .say "temp/raw_3_1700.aiff" "3.",
          .ffmpegSecond "temp/raw_3_1700.aiff" "temp/seg_3_1700.wav",
          .say "temp/final_1700.aiff" "Sequence complete.",
          .ffmpegEncode "temp/final_1700.aiff" "temp/final_1700.wav",
          .ffmpegEncode "temp/intro_1700.aiff" "temp/intro_1700.wav",
          .ffmpegConcat "temp/list_1700.txt"
            (outputFile (buildCountdownCacheKey ordinalCompare id demoPlayers))] := by
  decide!

end WosVoiceChat
